import Mathlib

/-!
# CIPster: application connection types (appcontype.cc)

A shallow embedding of `src/source/src/cip/appcontype.cc` and of the callbacks
ApplicationInitialization and AfterAssemblyDataReceived of `sampleapplication.cc`.

* Pointers into the three connection point tables are `Slot` values.
* Pointers into the active connection list are positions in that list; the two
  functions that close connections while they walk the list work on a linked list
  of connection objects with addresses (`ActiveNode`).
* The process-wide variables are the fields of `State`.
* Reading `connection_data[j]` past the end of the array is undefined behaviour
  in C++; the functions that can do so return `Option`, with `none` for it.
* `int` values are `Int`; the values of the 32 bit type are those with `IsInt`.
  Between `int` values only equality is tested (also against -1). Where an `int`
  meets an EipUint32 it is converted to unsigned first, `EipUint32.ofInt`.
-/

namespace CIPster

/-! ## Data model -/

/-- Modelled from the spec: the states of a CipConn, spec section 3
(the enumeration is declared in cipconnectionmanager.h, not part of the sources). -/
inductive ConnectionState
  | kConnectionStateNonExistent
  | kConnectionStateConfiguring
  | kConnectionStateEstablished
  | kConnectionStateTimedOut
  | kConnectionStateClosing
  deriving DecidableEq, Repr

/-- Modelled from the spec: the instance types of a CipConn, spec section 3. -/
inductive ConnInstanceType
  | kConnInstanceTypeExplicit
  | kConnInstanceTypeIoExclusiveOwner
  | kConnInstanceTypeIoInputOnly
  | kConnInstanceTypeIoListenOnly
  deriving DecidableEq, Repr

/-- Modelled from the spec: the connection type of a network connection
parameter word (Null / Multicast / Point-to-Point), spec section 3. -/
inductive IOConnType
  | kIOConnTypeNull
  | kIOConnTypeMulticast
  | kIOConnTypePointToPoint
  deriving DecidableEq, Repr

/-- The extended status codes that appcontype.cc assigns to `*extended_error`. -/
inductive ConnectionManagerStatusCode
  | kConnectionManagerStatusCodeSuccess
  | kConnectionManagerStatusCodeErrorOwnershipConflict
  | kConnectionManagerStatusCodeInvalidProducingApplicationPath
  | kConnectionManagerStatusCodeInconsistentApplicationPathCombo
  | kConnectionManagerStatusCodeTargetObjectOutOfConnections
  | kConnectionManagerStatusCodeNonListenOnlyConnectionNotOpened
  deriving DecidableEq, Repr

open ConnectionState ConnInstanceType IOConnType ConnectionManagerStatusCode

/-- Modelled from the spec: the test `0 == *extended_error`. The enumeration is
declared in cipconnectionmanager.h (not part of the sources); spec section 9 says the
success enumerator is the one that is numerically zero, so the test holds for
`kConnectionManagerStatusCodeSuccess` and for no other enumerator. -/
def ConnectionManagerStatusCode.isZero : ConnectionManagerStatusCode → Bool
  | kConnectionManagerStatusCodeSuccess => true
  | _ => false

/-- Modelled from the spec: an application path (cipepath.h is not part of the
sources). appcontype.cc only calls `GetInstanceOrConnPt()` and `HasAny()`; both
results are independent fields here, so nothing is assumed about the number an
absent path reports. -/
structure CipAppPath where
  instance_or_conn_pt : Int
  has_any : Bool
  deriving DecidableEq, Repr

/-- The accessor `GetInstanceOrConnPt()`. -/
def CipAppPath.GetInstanceOrConnPt (p : CipAppPath) : Int := p.instance_or_conn_pt

/-- The accessor `HasAny()`. -/
def CipAppPath.HasAny (p : CipAppPath) : Bool := p.has_any

/-- The three application paths of a connection path. -/
structure ConnectionPath where
  consuming_path : CipAppPath
  producing_path : CipAppPath
  config_path : CipAppPath
  deriving DecidableEq, Repr

/-- Network connection parameters; only `ConnectionType()` is read here. -/
structure NetCnParams where
  connection_type : IOConnType
  deriving DecidableEq, Repr

/-- The accessor `ConnectionType()`. -/
def NetCnParams.ConnectionType (n : NetCnParams) : IOConnType := n.connection_type

/-- The sentinel for "no socket". -/
def kEipInvalidSocket : Int := -1

/-- Modelled from the spec: the fields of CipConn that appcontype.cc reads or
writes (the class is declared in cipconnectionmanager.h, not part of the sources).
The connection triad stands for the rest of the request data that
CopyConnectionData carries over. -/
structure CipConn where
  state : ConnectionState
  instance_type : ConnInstanceType
  conn_path : ConnectionPath
  t_to_o_ncp : NetCnParams
  producing_socket : Int
  connection_serial_number : Nat
  originator_vendor_id : Nat
  originator_serial_number : Nat
  deriving DecidableEq, Repr

/-- Modelled from the spec: a default constructed CipConn; its state is
NonExistent (spec section 4.5, state machine) and it has no paths and no socket. -/
def CipConn.fresh : CipConn where
  state := kConnectionStateNonExistent
  instance_type := kConnInstanceTypeExplicit
  conn_path :=
    { consuming_path := ⟨0, false⟩, producing_path := ⟨0, false⟩, config_path := ⟨0, false⟩ }
  t_to_o_ncp := ⟨kIOConnTypeNull⟩
  producing_socket := kEipInvalidSocket
  connection_serial_number := 0
  originator_vendor_id := 0
  originator_serial_number := 0

/-- An entry of `g_exclusive_owner`. -/
structure ExclusiveOwnerConnection where
  output_assembly : Int
  input_assembly : Int
  config_assembly : Int
  connection_data : CipConn
  deriving DecidableEq, Repr

/-- An entry of `g_input_only`; `connection_data` is the array of
CIPSTER_CIP_NUM_INPUT_ONLY_CONNS_PER_CON_PATH connections. -/
structure InputOnlyConnection where
  output_assembly : Int
  input_assembly : Int
  config_assembly : Int
  connection_data : List CipConn
  deriving DecidableEq, Repr

/-- An entry of `g_listen_only`; `connection_data` is the array of
CIPSTER_CIP_NUM_LISTEN_ONLY_CONNS_PER_CON_PATH connections. -/
structure ListenOnlyConnection where
  output_assembly : Int
  input_assembly : Int
  config_assembly : Int
  connection_data : List CipConn
  deriving DecidableEq, Repr

/-- The compile-time constants of cipster_user_conf.h (not part of the sources),
taken as parameters. -/
structure UserConf where
  CIPSTER_CIP_NUM_EXCLUSIVE_OWNER_CONNS : Nat
  CIPSTER_CIP_NUM_INPUT_ONLY_CONNS : Nat
  CIPSTER_CIP_NUM_INPUT_ONLY_CONNS_PER_CON_PATH : Nat
  CIPSTER_CIP_NUM_LISTEN_ONLY_CONNS : Nat
  CIPSTER_CIP_NUM_LISTEN_ONLY_CONNS_PER_CON_PATH : Nat
  deriving DecidableEq, Repr

/-- A pointer to a `connection_data` element of one of the three tables. -/
inductive Slot
  | exclusiveOwner (i : Nat)
  | inputOnly (i j : Nat)
  | listenOnly (i j : Nat)
  deriving DecidableEq, Repr

/-- The process-wide variables: the three tables and the active connection list
(head first). -/
structure State where
  g_exclusive_owner : List ExclusiveOwnerConnection
  g_input_only : List InputOnlyConnection
  g_listen_only : List ListenOnlyConnection
  g_active_connection_list : List CipConn
  deriving DecidableEq, Repr

/-- Every `connection_data` array has the length its declaration gives it. -/
def State.WellFormed (conf : UserConf) (s : State) : Prop :=
  (∀ e ∈ s.g_input_only,
      e.connection_data.length = conf.CIPSTER_CIP_NUM_INPUT_ONLY_CONNS_PER_CON_PATH) ∧
  (∀ e ∈ s.g_listen_only,
      e.connection_data.length = conf.CIPSTER_CIP_NUM_LISTEN_ONLY_CONNS_PER_CON_PATH)

/-- The connection a slot pointer points to. -/
def State.slot (s : State) : Slot → Option CipConn
  | .exclusiveOwner i => (s.g_exclusive_owner[i]?).map (fun e => e.connection_data)
  | .inputOnly i j => (s.g_input_only[i]?).bind (fun e => e.connection_data[j]?)
  | .listenOnly i j => (s.g_listen_only[i]?).bind (fun e => e.connection_data[j]?)

/-! ## Active list lookups -/

/-- The values of the C++ type `int`, 32 bits wide. -/
def IsInt (x : Int) : Prop := -2147483648 ≤ x ∧ x < 2147483648

instance (x : Int) : Decidable (IsInt x) := by
  unfold IsInt; infer_instance

/-- The conversion of an integer value to EipUint32: the value modulo 2^32. C++
applies it to an `int` that is passed for an EipUint32 parameter, and to the `int`
operand of `==` when the other operand is an EipUint32. It leaves the values
0 .. 2^32 - 1 as they are. -/
def EipUint32.ofInt (x : Int) : Int := x % 4294967296

/-- Modelled from the spec: GetConnectedOutputAssembly is defined in
cipconnectionmanager.cc, not part of the sources. It walks the active list and
returns the first connection that is Established and whose consuming path is the
given output assembly ("some Established active connection consumes assembly id").
The result is the position in the list, counted from `pos`. -/
def GetConnectedOutputAssemblyFrom (output_assembly : Int) : List CipConn → Nat → Option Nat
  | [], _ => none
  | c :: rest, pos =>
    if c.state = kConnectionStateEstablished
        ∧ c.conn_path.consuming_path.GetInstanceOrConnPt = output_assembly then
      some pos
    else
      GetConnectedOutputAssemblyFrom output_assembly rest (pos + 1)

/-- Modelled from the spec: GetConnectedOutputAssembly on the whole active list. -/
def GetConnectedOutputAssembly (s : State) (output_assembly : Int) : Option Nat :=
  GetConnectedOutputAssemblyFrom output_assembly s.g_active_connection_list 0

/-- The loop of GetExistingProducerMulticastConnection from a list position on.
`input_point` is the value of the argument; the parameter is an EipUint32, so the
argument is converted on entry, and in `input_point == ...GetInstanceOrConnPt()`
the `int` on the right is converted to unsigned before the two are compared. -/
def GetExistingProducerMulticastConnectionFrom (input_point : Int) :
    List CipConn → Nat → Option Nat
  | [], _ => none
  | c :: rest, pos =>
    if (c.instance_type = kConnInstanceTypeIoExclusiveOwner
          ∨ c.instance_type = kConnInstanceTypeIoInputOnly)
        ∧ (EipUint32.ofInt input_point =
              EipUint32.ofInt c.conn_path.producing_path.GetInstanceOrConnPt
          ∧ c.t_to_o_ncp.ConnectionType = kIOConnTypeMulticast
          ∧ kEipInvalidSocket ≠ c.producing_socket) then
      some pos
    else
      GetExistingProducerMulticastConnectionFrom input_point rest (pos + 1)

/-- GetExistingProducerMulticastConnection: the position of the first
exclusive-owner or input-only connection in the active list that produces
`input_point` by multicast and owns a socket. -/
def GetExistingProducerMulticastConnection (s : State) (input_point : Int) : Option Nat :=
  GetExistingProducerMulticastConnectionFrom input_point s.g_active_connection_list 0

/-! ## The three stages -/

/-- What a stage hands back: the returned pointer and the value of
`*extended_error` when it returns. -/
structure StageResult where
  io_connection : Option Slot
  extended_error : ConnectionManagerStatusCode
  deriving DecidableEq, Repr

/-- The loop of getExclusiveOwnerConnection from index `i` on. -/
def getExclusiveOwnerConnectionFrom (s : State) (aConn : CipConn)
    (extended_error : ConnectionManagerStatusCode) :
    List ExclusiveOwnerConnection → Nat → StageResult
  | [], _ => ⟨none, extended_error⟩
  | e :: rest, i =>
    if e.output_assembly = aConn.conn_path.consuming_path.GetInstanceOrConnPt
        ∧ e.input_assembly = aConn.conn_path.producing_path.GetInstanceOrConnPt
        ∧ (e.config_assembly = aConn.conn_path.config_path.GetInstanceOrConnPt
            ∨ (e.config_assembly = -1 ∧ aConn.conn_path.config_path.HasAny = false)) then
      if (GetConnectedOutputAssembly s
            aConn.conn_path.consuming_path.GetInstanceOrConnPt).isSome then
        ⟨none, kConnectionManagerStatusCodeErrorOwnershipConflict⟩
      else
        ⟨some (Slot.exclusiveOwner i), extended_error⟩
    else
      getExclusiveOwnerConnectionFrom s aConn extended_error rest (i + 1)

/-- The function getExclusiveOwnerConnection. -/
def getExclusiveOwnerConnection (s : State) (aConn : CipConn)
    (extended_error : ConnectionManagerStatusCode) : StageResult :=
  getExclusiveOwnerConnectionFrom s aConn extended_error s.g_exclusive_owner 0

/-- Outcome of a scan `for( j = 0; j < bound; j++ )` over a `connection_data`
array for a NonExistent connection. -/
inductive ScanResult
  | found (j : Nat)
  | exhausted
  | outOfBounds
  deriving DecidableEq, Repr

/-- The scan for a free slot: `n` iterations are left and `j` is the loop variable. -/
def scanConnectionData (connection_data : List CipConn) : Nat → Nat → ScanResult
  | 0, _ => ScanResult.exhausted
  | n + 1, j =>
    match connection_data[j]? with
    | none => ScanResult.outOfBounds
    | some c =>
      if kConnectionStateNonExistent = c.state then ScanResult.found j
      else scanConnectionData connection_data n (j + 1)

/-- The loop of getInputOnlyConnection from index `i` on. The inner loop bound
is CIPSTER_CIP_NUM_LISTEN_ONLY_CONNS_PER_CON_PATH, as in the source. -/
def getInputOnlyConnectionFrom (conf : UserConf) (aConn : CipConn)
    (extended_error : ConnectionManagerStatusCode) :
    List InputOnlyConnection → Nat → Option StageResult
  | [], _ => some ⟨none, extended_error⟩
  | e :: rest, i =>
    if e.output_assembly = aConn.conn_path.consuming_path.GetInstanceOrConnPt then
      if e.input_assembly ≠ aConn.conn_path.producing_path.GetInstanceOrConnPt then
        some ⟨none, kConnectionManagerStatusCodeInvalidProducingApplicationPath⟩
      else if e.config_assembly ≠ aConn.conn_path.config_path.GetInstanceOrConnPt then
        some ⟨none, kConnectionManagerStatusCodeInconsistentApplicationPathCombo⟩
      else
        match scanConnectionData e.connection_data
            conf.CIPSTER_CIP_NUM_LISTEN_ONLY_CONNS_PER_CON_PATH 0 with
        | ScanResult.found j => some ⟨some (Slot.inputOnly i j), extended_error⟩
        | ScanResult.exhausted =>
          some ⟨none, kConnectionManagerStatusCodeTargetObjectOutOfConnections⟩
        | ScanResult.outOfBounds => none
    else
      getInputOnlyConnectionFrom conf aConn extended_error rest (i + 1)

/-- The function getInputOnlyConnection. -/
def getInputOnlyConnection (conf : UserConf) (s : State) (aConn : CipConn)
    (extended_error : ConnectionManagerStatusCode) : Option StageResult :=
  getInputOnlyConnectionFrom conf aConn extended_error s.g_input_only 0

/-- The loop of getListenOnlyConnection from index `i` on. -/
def getListenOnlyConnectionFrom (conf : UserConf) (s : State) (aConn : CipConn)
    (extended_error : ConnectionManagerStatusCode) :
    List ListenOnlyConnection → Nat → Option StageResult
  | [], _ => some ⟨none, extended_error⟩
  | e :: rest, i =>
    if e.output_assembly = aConn.conn_path.consuming_path.GetInstanceOrConnPt then
      if e.input_assembly ≠ aConn.conn_path.producing_path.GetInstanceOrConnPt then
        some ⟨none, kConnectionManagerStatusCodeInvalidProducingApplicationPath⟩
      else if e.config_assembly ≠ aConn.conn_path.config_path.GetInstanceOrConnPt then
        some ⟨none, kConnectionManagerStatusCodeInconsistentApplicationPathCombo⟩
      else if (GetExistingProducerMulticastConnection s
            aConn.conn_path.producing_path.GetInstanceOrConnPt).isNone then
        some ⟨none, kConnectionManagerStatusCodeNonListenOnlyConnectionNotOpened⟩
      else
        match scanConnectionData e.connection_data
            conf.CIPSTER_CIP_NUM_LISTEN_ONLY_CONNS_PER_CON_PATH 0 with
        | ScanResult.found j => some ⟨some (Slot.listenOnly i j), extended_error⟩
        | ScanResult.exhausted =>
          some ⟨none, kConnectionManagerStatusCodeTargetObjectOutOfConnections⟩
        | ScanResult.outOfBounds => none
    else
      getListenOnlyConnectionFrom conf s aConn extended_error rest (i + 1)

/-- The function getListenOnlyConnection. -/
def getListenOnlyConnection (conf : UserConf) (s : State) (aConn : CipConn)
    (extended_error : ConnectionManagerStatusCode) : Option StageResult :=
  if aConn.t_to_o_ncp.ConnectionType ≠ kIOConnTypeMulticast then
    some ⟨none, kConnectionManagerStatusCodeNonListenOnlyConnectionNotOpened⟩
  else
    getListenOnlyConnectionFrom conf s aConn extended_error s.g_listen_only 0

/-! ## Registration -/

/-- The function ConfigureExclusiveOwnerConnectionPoint: the new table and the
returned flag. -/
def ConfigureExclusiveOwnerConnectionPoint (conf : UserConf) (s : State)
    (output_assembly input_assembly config_assembly : Int) : State × Bool :=
  if s.g_exclusive_owner.length < conf.CIPSTER_CIP_NUM_EXCLUSIVE_OWNER_CONNS then
    ({ s with g_exclusive_owner := (s.g_exclusive_owner ++
        [⟨output_assembly, input_assembly, config_assembly, CipConn.fresh⟩]) }, true)
  else
    (s, false)

/-- The function ConfigureInputOnlyConnectionPoint. -/
def ConfigureInputOnlyConnectionPoint (conf : UserConf) (s : State)
    (output_assembly input_assembly config_assembly : Int) : State × Bool :=
  if s.g_input_only.length < conf.CIPSTER_CIP_NUM_INPUT_ONLY_CONNS then
    ({ s with g_input_only := (s.g_input_only ++
        [⟨output_assembly, input_assembly, config_assembly,
          List.replicate conf.CIPSTER_CIP_NUM_INPUT_ONLY_CONNS_PER_CON_PATH CipConn.fresh⟩]) },
      true)
  else
    (s, false)

/-- The function ConfigureListenOnlyConnectionPoint. -/
def ConfigureListenOnlyConnectionPoint (conf : UserConf) (s : State)
    (output_assembly input_assembly config_assembly : Int) : State × Bool :=
  if s.g_listen_only.length < conf.CIPSTER_CIP_NUM_LISTEN_ONLY_CONNS then
    ({ s with g_listen_only := (s.g_listen_only ++
        [⟨output_assembly, input_assembly, config_assembly,
          List.replicate conf.CIPSTER_CIP_NUM_LISTEN_ONLY_CONNS_PER_CON_PATH CipConn.fresh⟩]) },
      true)
  else
    (s, false)

/-! ## GetIoConnectionForConnectionData -/

/-- Assignment through a slot pointer: the connection it points to is replaced by
its image under `f`; everything else stays as it is. -/
def State.modifySlot (s : State) (f : CipConn → CipConn) : Slot → State
  | .exclusiveOwner i =>
    { s with g_exclusive_owner :=
        (List.modify (fun e => { e with connection_data := f e.connection_data }) i
          s.g_exclusive_owner) }
  | .inputOnly i j =>
    { s with g_input_only :=
        (List.modify (fun e => { e with connection_data := List.modify f j e.connection_data }) i
          s.g_input_only) }
  | .listenOnly i j =>
    { s with g_listen_only :=
        (List.modify (fun e => { e with connection_data := List.modify f j e.connection_data }) i
          s.g_listen_only) }

/-- Modelled from the spec: CopyConnectionData( dst, src ) is defined in
cipconnectionmanager.cc, not part of the sources; it overwrites the connection
that `dst` points to with the request's data. -/
def CopyConnectionData (s : State) (dst : Slot) (src : CipConn) : State :=
  s.modifySlot (fun _ => src) dst

/-- Everything a call of GetIoConnectionForConnectionData leaves behind: the
returned pointer, `*extended_error`, the request object and the tables. -/
structure IoResult where
  io_connection : Option Slot
  extended_error : ConnectionManagerStatusCode
  aConn : CipConn
  state : State
  deriving DecidableEq, Repr

/-- The tail of GetIoConnectionForConnectionData:
`if( io_connection ) CopyConnectionData( io_connection, aConn ); return io_connection;` -/
def GetIoConnectionForConnectionData.finish (s : State) (aConn : CipConn)
    (io_connection : Option Slot) (extended_error : ConnectionManagerStatusCode) : IoResult :=
  match io_connection with
  | some dst => ⟨io_connection, extended_error, aConn, CopyConnectionData s dst aConn⟩
  | none => ⟨io_connection, extended_error, aConn, s⟩

/-- The function GetIoConnectionForConnectionData. -/
def GetIoConnectionForConnectionData (conf : UserConf) (s : State) (aConn : CipConn) :
    Option IoResult :=
  let r1 := getExclusiveOwnerConnection s aConn kConnectionManagerStatusCodeSuccess
  match r1.io_connection with
  | none =>
    if kConnectionManagerStatusCodeSuccess = r1.extended_error then
      match getInputOnlyConnection conf s aConn r1.extended_error with
      | none => none
      | some r2 =>
        match r2.io_connection with
        | none =>
          if r2.extended_error.isZero then
            match getListenOnlyConnection conf s aConn r2.extended_error with
            | none => none
            | some r3 =>
              if r3.io_connection.isNone ∧ r3.extended_error.isZero then
                some (GetIoConnectionForConnectionData.finish s aConn r3.io_connection
                  kConnectionManagerStatusCodeInconsistentApplicationPathCombo)
              else
                some (GetIoConnectionForConnectionData.finish s
                  { aConn with instance_type := kConnInstanceTypeIoListenOnly }
                  r3.io_connection r3.extended_error)
          else
            some (GetIoConnectionForConnectionData.finish s aConn r2.io_connection
              r2.extended_error)
        | some _ =>
          some (GetIoConnectionForConnectionData.finish s
            { aConn with instance_type := kConnInstanceTypeIoInputOnly }
            r2.io_connection r2.extended_error)
    else
      some (GetIoConnectionForConnectionData.finish s aConn r1.io_connection r1.extended_error)
  | some _ =>
    some (GetIoConnectionForConnectionData.finish s
      { aConn with instance_type := kConnInstanceTypeIoExclusiveOwner }
      r1.io_connection r1.extended_error)

/-! ## Specification side definitions -/

/-- A stage result is decisive when the stage returned a slot or set a
non-success error. -/
def StageResult.decisive (r : StageResult) : Bool :=
  r.io_connection.isSome || r.extended_error != kConnectionManagerStatusCodeSuccess

/-- The selection rule in the words of the specification: the stages are consulted
in the order given; the first decisive one gives the result and the stages after it
are not run; when none is decisive the result is NULL with
InconsistentApplicationPathCombo. A stage that runs into undefined behaviour makes
the whole call undefined. -/
def selectStage : List (Unit → Option StageResult) → Option StageResult
  | [] => some ⟨none, kConnectionManagerStatusCodeInconsistentApplicationPathCombo⟩
  | stage :: later =>
    match stage () with
    | none => none
    | some r => if r.decisive then some r else selectStage later

/-- The returned pointer and `*extended_error` of a call. -/
def IoResult.outcome (r : IoResult) : StageResult :=
  ⟨r.io_connection, r.extended_error⟩

/-! ## Opening and closing connections -/

/-- Something that happens to the connection manager between two calls. -/
inductive ConnEvent
  | forwardOpen (aConn : CipConn) (producing_socket : Int)
  | close (pos : Nat) (freed : Slot)
  deriving DecidableEq, Repr

/-- Modelled from the spec: the Forward-Open path around
GetIoConnectionForConnectionData lives in cipconnectionmanager.cc and
cipioconnection.cc, not part of the sources. Spec section 4.5, step 9: an accepted
open takes the slot that GetIoConnectionForConnectionData returned, makes it
Established and links it at the head of the active list. The producing socket that
the multicast coordinator assigns is a parameter, so nothing is assumed about it.
A rejected open leaves the state as it was. -/
def forwardOpen (conf : UserConf) (s : State) (aConn : CipConn) (producing_socket : Int) :
    Option State :=
  match GetIoConnectionForConnectionData conf s aConn with
  | none => none
  | some r =>
    match r.io_connection with
    | none => some s
    | some dst =>
      let c : CipConn :=
        { r.aConn with state := kConnectionStateEstablished, producing_socket := producing_socket }
      some { CopyConnectionData r.state dst c with
        g_active_connection_list := c :: s.g_active_connection_list }

/-- Modelled from the spec: closing (Forward-Close or watchdog expiry) is code of
cipconnectionmanager.cc, not part of the sources. Spec section 3, lifecycles: the
connection returns to NonExistent and is unlinked from the active list. The
connection at position `pos` of the list is unlinked and the slot `freed` becomes
NonExistent; the two are independent parameters, which covers the real pairing of
a connection with the slot it lives in. -/
def closeConnection (s : State) (pos : Nat) (freed : Slot) : State :=
  { s.modifySlot (fun c => { c with state := kConnectionStateNonExistent }) freed with
    g_active_connection_list := s.g_active_connection_list.eraseIdx pos }

/-- One event applied to a state. -/
def applyEvent (conf : UserConf) (s : State) : ConnEvent → Option State
  | .forwardOpen aConn producing_socket => forwardOpen conf s aConn producing_socket
  | .close pos freed => some (closeConnection s pos freed)

/-- A sequence of events applied from left to right; `none` when a call ran into
undefined behaviour. -/
def runEvents (conf : UserConf) (s : State) : List ConnEvent → Option State
  | [] => some s
  | ev :: rest => (applyEvent conf s ev).bind (fun s2 => runEvents conf s2 rest)

/-- The three conditions under which getExclusiveOwnerConnection takes a point for
the request: output equals consuming, input equals producing, and the config is
equal or registered as -1 with no config path present. -/
def ExclusiveOwnerMatch (e : ExclusiveOwnerConnection) (aConn : CipConn) : Prop :=
  e.output_assembly = aConn.conn_path.consuming_path.GetInstanceOrConnPt
  ∧ e.input_assembly = aConn.conn_path.producing_path.GetInstanceOrConnPt
  ∧ (e.config_assembly = aConn.conn_path.config_path.GetInstanceOrConnPt
      ∨ (e.config_assembly = -1 ∧ aConn.conn_path.config_path.HasAny = false))

instance (e : ExclusiveOwnerConnection) (aConn : CipConn) :
    Decidable (ExclusiveOwnerMatch e aConn) := by
  unfold ExclusiveOwnerMatch; infer_instance

/-! ## The sample application -/

/-- A configuration of the compile-time constants with room for the sample
application: two exclusive-owner points, one input-only and one listen-only point,
three connections per path. -/
def sampleConf : UserConf where
  CIPSTER_CIP_NUM_EXCLUSIVE_OWNER_CONNS := 2
  CIPSTER_CIP_NUM_INPUT_ONLY_CONNS := 1
  CIPSTER_CIP_NUM_INPUT_ONLY_CONNS_PER_CON_PATH := 3
  CIPSTER_CIP_NUM_LISTEN_ONLY_CONNS := 1
  CIPSTER_CIP_NUM_LISTEN_ONLY_CONNS_PER_CON_PATH := 3

/-- The state before any registration: empty tables and no active connection. -/
def State.empty : State := ⟨[], [], [], []⟩

def DEMO_APP_INPUT_ASSEMBLY_NUM : Int := 100
def DEMO_APP_OUTPUT_ASSEMBLY_NUM : Int := 150
def DEMO_APP_CONFIG_ASSEMBLY_NUM : Int := 151
def DEMO_APP_HEARBEAT_INPUT_ONLY_ASSEMBLY_NUM : Int := 152
def DEMO_APP_HEARBEAT_LISTEN_ONLY_ASSEMBLY_NUM : Int := 153
def DEMO_APP_EXPLICT_ASSEMBLY_NUM : Int := 154

/-- The connection point registrations of ApplicationInitialization, in source
order (the assembly instances it creates are not part of this model). -/
def ApplicationInitialization.tables (conf : UserConf) (s : State) : State :=
  let s1 := (ConfigureExclusiveOwnerConnectionPoint conf s DEMO_APP_OUTPUT_ASSEMBLY_NUM
    DEMO_APP_INPUT_ASSEMBLY_NUM DEMO_APP_CONFIG_ASSEMBLY_NUM).1
  let s2 := (ConfigureExclusiveOwnerConnectionPoint conf s1 DEMO_APP_OUTPUT_ASSEMBLY_NUM
    DEMO_APP_INPUT_ASSEMBLY_NUM (-1)).1
  let s3 := (ConfigureInputOnlyConnectionPoint conf s2 DEMO_APP_HEARBEAT_INPUT_ONLY_ASSEMBLY_NUM
    DEMO_APP_INPUT_ASSEMBLY_NUM DEMO_APP_CONFIG_ASSEMBLY_NUM).1
  (ConfigureListenOnlyConnectionPoint conf s3 DEMO_APP_HEARBEAT_LISTEN_ONLY_ASSEMBLY_NUM
    DEMO_APP_INPUT_ASSEMBLY_NUM DEMO_APP_CONFIG_ASSEMBLY_NUM).1

/-- The sample application right after start-up. -/
def sampleState : State := ApplicationInitialization.tables sampleConf State.empty

/-- A Forward-Open request as it reaches GetIoConnectionForConnectionData: the three
connection points, whether a config path is present, the T->O connection type and
the connection serial number. -/
def request (consuming producing config : Int) (has_config : Bool) (t_to_o : IOConnType)
    (serial : Nat) : CipConn where
  state := kConnectionStateConfiguring
  instance_type := kConnInstanceTypeExplicit
  conn_path :=
    { consuming_path := ⟨consuming, true⟩, producing_path := ⟨producing, true⟩,
      config_path := ⟨config, has_config⟩ }
  t_to_o_ncp := ⟨t_to_o⟩
  producing_socket := kEipInvalidSocket
  connection_serial_number := serial
  originator_vendor_id := 1
  originator_serial_number := 1

/-- No two connections of the list are both IoExclusiveOwner and have the same
consuming point. -/
def AtMostOneExclusiveOwner (active : List CipConn) : Prop :=
  ∀ (i j : Nat) (c d : CipConn), i < j → active[i]? = some c → active[j]? = some d →
    c.instance_type = kConnInstanceTypeIoExclusiveOwner →
    d.instance_type = kConnInstanceTypeIoExclusiveOwner →
    c.conn_path.consuming_path.GetInstanceOrConnPt ≠
      d.conn_path.consuming_path.GetInstanceOrConnPt

/-- The sample application with one more input-only point, registered for the
triple of the exclusive-owner point, and an Established connection on output
assembly 150. -/
def conflictState : State where
  g_exclusive_owner := sampleState.g_exclusive_owner
  g_input_only :=
    [⟨150, 100, 151, List.replicate 3 CipConn.fresh⟩] ++ sampleState.g_input_only
  g_listen_only := sampleState.g_listen_only
  g_active_connection_list :=
    [{ request 150 100 151 true kIOConnTypePointToPoint 7 with
        state := kConnectionStateEstablished,
        instance_type := kConnInstanceTypeIoExclusiveOwner,
        producing_socket := 5 }]

/-- Two Forward-Opens for output assembly 150 of the sample application, the first
with config path 151 and the second without a config path, then a listen-only
Forward-Open. -/
def sampleEvents : List ConnEvent :=
  [ConnEvent.forwardOpen (request 150 100 151 true kIOConnTypeMulticast 7) 5,
   ConnEvent.forwardOpen (request 150 100 0 false kIOConnTypeMulticast 8) 6,
   ConnEvent.forwardOpen (request 153 100 151 true kIOConnTypeMulticast 9) (-1)]

/-- Two connections do not both own the same output assembly exclusively. -/
def NotBothOwners (c d : CipConn) : Prop :=
  ¬ (c.instance_type = kConnInstanceTypeIoExclusiveOwner
    ∧ d.instance_type = kConnInstanceTypeIoExclusiveOwner
    ∧ c.conn_path.consuming_path.GetInstanceOrConnPt =
        d.conn_path.consuming_path.GetInstanceOrConnPt)

/-- What the open and close steps keep true of the active list: every connection in
it is Established and no two of them own the same output assembly exclusively. -/
def ActiveListInvariant (s : State) : Prop :=
  (∀ c ∈ s.g_active_connection_list, c.state = kConnectionStateEstablished)
  ∧ s.g_active_connection_list.Pairwise NotBothOwners

/-- The sample application after a multicast exclusive-owner connection for
(150, 100, 151) has been opened with producing socket 5. -/
def ownedState : State :=
  (forwardOpen sampleConf sampleState (request 150 100 151 true kIOConnTypeMulticast 7) 5).getD
    sampleState

/-- The sample application with one connection in the active list: an Established
multicast exclusive owner for (150, 100, 151) that owns socket 5. -/
def establishedMasterState : State :=
  { sampleState with
    g_active_connection_list :=
      [{ request 150 100 151 true kIOConnTypeMulticast 7 with
          state := kConnectionStateEstablished,
          instance_type := kConnInstanceTypeIoExclusiveOwner,
          producing_socket := 5 }] }

/-- The sample application with one connection in the active list: a multicast
exclusive owner for (150, 100, 151) that owns socket 5 and has timed out. -/
def staleMasterState : State :=
  { sampleState with
    g_active_connection_list :=
      [{ request 150 100 151 true kIOConnTypeMulticast 7 with
          state := kConnectionStateTimedOut,
          instance_type := kConnInstanceTypeIoExclusiveOwner,
          producing_socket := 5 }] }

/-- A configuration in which the two per-path constants differ: two connections per
input-only path, one per listen-only path. -/
def narrowConf : UserConf where
  CIPSTER_CIP_NUM_EXCLUSIVE_OWNER_CONNS := 1
  CIPSTER_CIP_NUM_INPUT_ONLY_CONNS := 1
  CIPSTER_CIP_NUM_INPUT_ONLY_CONNS_PER_CON_PATH := 2
  CIPSTER_CIP_NUM_LISTEN_ONLY_CONNS := 1
  CIPSTER_CIP_NUM_LISTEN_ONLY_CONNS_PER_CON_PATH := 1

/-- An established input-only connection for (152, 100, 151). -/
def establishedInputOnly : CipConn :=
  { request 152 100 151 true kIOConnTypePointToPoint 7 with
    state := kConnectionStateEstablished,
    instance_type := kConnInstanceTypeIoInputOnly,
    producing_socket := 5 }

/-- One input-only point (152, 100, 151) under `narrowConf`: its first connection is
in use, its second one is free. -/
def halfUsedState : State where
  g_exclusive_owner := []
  g_input_only := [⟨152, 100, 151, [establishedInputOnly, CipConn.fresh]⟩]
  g_listen_only := []
  g_active_connection_list := [establishedInputOnly]

instance (conf : UserConf) (s : State) : Decidable (s.WellFormed conf) := by
  unfold State.WellFormed; infer_instance

/-- Room for two input-only and two listen-only points. -/
def shadowConf : UserConf where
  CIPSTER_CIP_NUM_EXCLUSIVE_OWNER_CONNS := 2
  CIPSTER_CIP_NUM_INPUT_ONLY_CONNS := 2
  CIPSTER_CIP_NUM_INPUT_ONLY_CONNS_PER_CON_PATH := 3
  CIPSTER_CIP_NUM_LISTEN_ONLY_CONNS := 2
  CIPSTER_CIP_NUM_LISTEN_ONLY_CONNS_PER_CON_PATH := 3

/-- Two listen-only points that share the heartbeat assembly 153 and differ in the
input assembly: (153, 101, 151) is registered before (153, 100, 151). -/
def shadowState : State :=
  (ConfigureListenOnlyConnectionPoint shadowConf
    (ConfigureListenOnlyConnectionPoint shadowConf State.empty 153 101 151).1 153 100 151).1

/-- The (consuming, producing, config) triple of the request is registered in one of
the three tables. -/
def TripleRegistered (s : State) (aConn : CipConn) : Prop :=
  (∃ e ∈ s.g_exclusive_owner,
      e.output_assembly = aConn.conn_path.consuming_path.GetInstanceOrConnPt
      ∧ e.input_assembly = aConn.conn_path.producing_path.GetInstanceOrConnPt
      ∧ e.config_assembly = aConn.conn_path.config_path.GetInstanceOrConnPt)
  ∨ (∃ e ∈ s.g_input_only,
      e.output_assembly = aConn.conn_path.consuming_path.GetInstanceOrConnPt
      ∧ e.input_assembly = aConn.conn_path.producing_path.GetInstanceOrConnPt
      ∧ e.config_assembly = aConn.conn_path.config_path.GetInstanceOrConnPt)
  ∨ (∃ e ∈ s.g_listen_only,
      e.output_assembly = aConn.conn_path.consuming_path.GetInstanceOrConnPt
      ∧ e.input_assembly = aConn.conn_path.producing_path.GetInstanceOrConnPt
      ∧ e.config_assembly = aConn.conn_path.config_path.GetInstanceOrConnPt)

instance (s : State) (aConn : CipConn) : Decidable (TripleRegistered s aConn) := by
  unfold TripleRegistered; infer_instance

/-- One exclusive-owner point registered with config assembly 0. -/
def zeroConfigState : State :=
  (ConfigureExclusiveOwnerConnectionPoint sampleConf State.empty 150 100 0).1

/-- Only the exclusive-owner point (150, 100, 151) is registered. -/
def singleOwnerState : State :=
  (ConfigureExclusiveOwnerConnectionPoint sampleConf State.empty 150 100 151).1

/-- The per-path constants the other way round: one connection per input-only path,
two per listen-only path. -/
def wideConf : UserConf where
  CIPSTER_CIP_NUM_EXCLUSIVE_OWNER_CONNS := 1
  CIPSTER_CIP_NUM_INPUT_ONLY_CONNS := 1
  CIPSTER_CIP_NUM_INPUT_ONLY_CONNS_PER_CON_PATH := 1
  CIPSTER_CIP_NUM_LISTEN_ONLY_CONNS := 1
  CIPSTER_CIP_NUM_LISTEN_ONLY_CONNS_PER_CON_PATH := 2

/-- One input-only point (152, 100, 151) under `wideConf`; its only connection is in
use. -/
def fullState : State where
  g_exclusive_owner := []
  g_input_only := [⟨152, 100, 151, [establishedInputOnly]⟩]
  g_listen_only := []
  g_active_connection_list := [establishedInputOnly]

/-- The loop of GetNextNonControlMasterConnection from a list position on. The
parameter is an EipUint32 and is compared with an `int`, which is converted to
unsigned; see GetExistingProducerMulticastConnectionFrom. -/
def GetNextNonControlMasterConnectionFrom (input_point : Int) :
    List CipConn → Nat → Option Nat
  | [], _ => none
  | c :: rest, pos =>
    if (c.instance_type = kConnInstanceTypeIoExclusiveOwner
          ∨ c.instance_type = kConnInstanceTypeIoInputOnly)
        ∧ (EipUint32.ofInt input_point =
              EipUint32.ofInt c.conn_path.producing_path.GetInstanceOrConnPt
          ∧ c.t_to_o_ncp.ConnectionType = kIOConnTypeMulticast
          ∧ c.producing_socket = kEipInvalidSocket) then
      some pos
    else
      GetNextNonControlMasterConnectionFrom input_point rest (pos + 1)

/-- The function GetNextNonControlMasterConnection: the position of the connection
it returns, `none` for NULL. -/
def GetNextNonControlMasterConnection (s : State) (input_point : Int) : Option Nat :=
  GetNextNonControlMasterConnectionFrom input_point s.g_active_connection_list 0

/-- The loop of ConnectionWithSameConfigPointExists from a list position on: the
position at which it stops, `none` when it runs off the end. The parameter is an
EipUint32 and is compared with an `int`, which is converted to unsigned; see
GetExistingProducerMulticastConnectionFrom. -/
def ConnectionWithSameConfigPointExistsFrom (config_point : Int) :
    List CipConn → Nat → Option Nat
  | [], _ => none
  | c :: rest, pos =>
    if EipUint32.ofInt config_point =
        EipUint32.ofInt c.conn_path.config_path.GetInstanceOrConnPt then some pos
    else ConnectionWithSameConfigPointExistsFrom config_point rest (pos + 1)

/-- The function ConnectionWithSameConfigPointExists: `NULL != connection`. -/
def ConnectionWithSameConfigPointExists (s : State) (config_point : Int) : Bool :=
  (ConnectionWithSameConfigPointExistsFrom config_point s.g_active_connection_list 0).isSome

/-- The function DestroyIoConnectionData. -/
def DestroyIoConnectionData (s : State) : State :=
  { s with g_exclusive_owner := [], g_input_only := [], g_listen_only := [] }

/-! ## The active list as a linked list -/

/-- A connection object in memory: its address and its contents. The active list is
the sequence of the linked nodes, head first; `next` of a node is the address of the
node after it. -/
structure ActiveNode where
  addr : Nat
  conn : CipConn
  deriving DecidableEq, Repr

/-- Dereferencing a pointer to a linked connection. -/
def derefNode (a : Nat) : List ActiveNode → Option ActiveNode
  | [] => none
  | n :: rest => if n.addr = a then some n else derefNode a rest

/-- The field `next` of the linked connection at address `a`. -/
def nextOf (a : Nat) : List ActiveNode → Option Nat
  | [] => none
  | n :: rest => if n.addr = a then rest.head?.map (fun m => m.addr) else nextOf a rest

/-- The variable `g_active_connection_list`: the address of the first node. -/
def headOf (list : List ActiveNode) : Option Nat :=
  list.head?.map (fun m => m.addr)

/-- Unlinking exactly the connection at address `a`. -/
def unlink (a : Nat) (list : List ActiveNode) : List ActiveNode :=
  list.filter (fun n => n.addr ≠ a)

/-- Modelled from the spec: the events passed to CheckIoConnectionEvent (the
enumeration is declared in a header that is not part of the sources). -/
inductive IoConnectionEvent
  | kIoConnectionEventOpened
  | kIoConnectionEventTimedOut
  | kIoConnectionEventClosed
  deriving DecidableEq, Repr

/-- One call of the application callback CheckIoConnectionEvent. -/
structure CheckIoConnectionEventCall where
  output_assembly_id : Int
  input_assembly_id : Int
  io_connection_event : IoConnectionEvent
  deriving DecidableEq, Repr

/-- A call that the traversal makes: the application callback CheckIoConnectionEvent,
or the close function of the connection at an address. -/
inductive TraversalCall
  | checkIoConnectionEvent (call : CheckIoConnectionEventCall)
  | connectionCloseFunction (connection : Nat)
  deriving DecidableEq, Repr

/-- What a traversal of the active list leaves behind: the list, the calls of
CheckIoConnectionEvent in the order they were made, the addresses of the
connections the loop body ran on, in that order, and all calls made, callback and
close functions together, in the order they were made. -/
structure TraversalResult where
  active : List ActiveNode
  events : List CheckIoConnectionEventCall
  visited : List Nat
  calls : List TraversalCall
  deriving DecidableEq, Repr

/-- The loop of CloseAllConnectionsForInputWithSameType. `connection` is the loop
pointer; `close` stands for the `connection_close_function` pointers, which are set
by code outside the sources. The loop body runs at most `fuel` times; `none` means
that the fuel ran out or that the loop pointer no longer points into the list.
`input_point` is an EipUint32; the `int` it is compared with is converted to
unsigned, see GetExistingProducerMulticastConnectionFrom. -/
def CloseAllConnectionsForInputWithSameType.loop
    (close : ActiveNode → List ActiveNode → List ActiveNode)
    (input_point : Int) (instance_type : ConnInstanceType) :
    Nat → List ActiveNode → Option Nat → List CheckIoConnectionEventCall → List Nat →
      List TraversalCall → Option TraversalResult
  | _, list, none, events, visited, calls => some ⟨list, events, visited, calls⟩
  | 0, _, some _, _, _, _ => none
  | fuel + 1, list, some a, events, visited, calls =>
    match derefNode a list with
    | none => none
    | some node =>
      if instance_type = node.conn.instance_type
          ∧ EipUint32.ofInt input_point =
              EipUint32.ofInt node.conn.conn_path.producing_path.GetInstanceOrConnPt then
        let connection := nextOf a list
        let call : CheckIoConnectionEventCall :=
          ⟨node.conn.conn_path.consuming_path.GetInstanceOrConnPt,
            node.conn.conn_path.producing_path.GetInstanceOrConnPt,
            IoConnectionEvent.kIoConnectionEventClosed⟩
        CloseAllConnectionsForInputWithSameType.loop close input_point instance_type fuel
          (close node list) connection (events ++ [call]) (visited ++ [a])
          (calls ++ [TraversalCall.checkIoConnectionEvent call,
            TraversalCall.connectionCloseFunction a])
      else
        CloseAllConnectionsForInputWithSameType.loop close input_point instance_type fuel
          list (nextOf a list) events (visited ++ [a]) calls

/-- The function CloseAllConnectionsForInputWithSameType. -/
def CloseAllConnectionsForInputWithSameType
    (close : ActiveNode → List ActiveNode → List ActiveNode)
    (input_point : Int) (instance_type : ConnInstanceType) (fuel : Nat)
    (list : List ActiveNode) : Option TraversalResult :=
  CloseAllConnectionsForInputWithSameType.loop close input_point instance_type fuel list
    (headOf list) [] [] []

/-- The loop of CloseAllConnections. `close` stands for CloseConnection, which is
defined outside the sources. The result is the list that is left and the addresses
CloseConnection was called on, in order; `none` means that the fuel ran out or that
the loop pointer no longer points into the list. -/
def CloseAllConnections.loop (close : ActiveNode → List ActiveNode → List ActiveNode) :
    Nat → List ActiveNode → Option Nat → List Nat → Option (List ActiveNode × List Nat)
  | _, list, none, closed => some (list, closed)
  | 0, _, some _, _ => none
  | fuel + 1, list, some a, closed =>
    match derefNode a list with
    | none => none
    | some node =>
      let list2 := close node list
      CloseAllConnections.loop close fuel list2 (headOf list2) (closed ++ [a])

/-- The function CloseAllConnections. -/
def CloseAllConnections (close : ActiveNode → List ActiveNode → List ActiveNode)
    (fuel : Nat) (list : List ActiveNode) : Option (List ActiveNode × List Nat) :=
  CloseAllConnections.loop close fuel list (headOf list) []

/-- An active list of four connections at addresses 10, 20, 30 and 40: listen-only
connections at 10, 30 and 40, an exclusive owner at 20; all produce input assembly
100 but the last, which produces 101. -/
def sampleNodes : List ActiveNode :=
  [⟨10, { request 153 100 151 true kIOConnTypeMulticast 1 with
            state := kConnectionStateEstablished,
            instance_type := kConnInstanceTypeIoListenOnly }⟩,
   ⟨20, { request 150 100 151 true kIOConnTypeMulticast 2 with
            state := kConnectionStateEstablished,
            instance_type := kConnInstanceTypeIoExclusiveOwner,
            producing_socket := 5 }⟩,
   ⟨30, { request 153 100 151 true kIOConnTypeMulticast 3 with
            state := kConnectionStateEstablished,
            instance_type := kConnInstanceTypeIoListenOnly }⟩,
   ⟨40, { request 153 101 151 true kIOConnTypeMulticast 4 with
            state := kConnectionStateEstablished,
            instance_type := kConnInstanceTypeIoListenOnly }⟩]

/-- The four conditions of a producer master for input point `p` in the words of
the specification: instance type IoExclusiveOwner or IoInputOnly, producing point
equal to `p`, T->O connection type Multicast and a producing socket other than
kEipInvalidSocket. -/
def IsProducerMaster (p : Int) (c : CipConn) : Prop :=
  (c.instance_type = kConnInstanceTypeIoExclusiveOwner
    ∨ c.instance_type = kConnInstanceTypeIoInputOnly)
  ∧ c.conn_path.producing_path.GetInstanceOrConnPt = p
  ∧ c.t_to_o_ncp.ConnectionType = kIOConnTypeMulticast
  ∧ c.producing_socket ≠ kEipInvalidSocket

instance (p : Int) (c : CipConn) : Decidable (IsProducerMaster p c) := by
  unfold IsProducerMaster; infer_instance

/-- The conditions of a non-master producer for input point `p` in the words of the
specification: instance type IoExclusiveOwner or IoInputOnly, producing point equal
to `p`, T->O connection type Multicast and producing socket kEipInvalidSocket. -/
def IsNonControlMaster (p : Int) (c : CipConn) : Prop :=
  (c.instance_type = kConnInstanceTypeIoExclusiveOwner
    ∨ c.instance_type = kConnInstanceTypeIoInputOnly)
  ∧ c.conn_path.producing_path.GetInstanceOrConnPt = p
  ∧ c.t_to_o_ncp.ConnectionType = kIOConnTypeMulticast
  ∧ c.producing_socket = kEipInvalidSocket

instance (p : Int) (c : CipConn) : Decidable (IsNonControlMaster p c) := by
  unfold IsNonControlMaster; infer_instance

/-- The test that GetExistingProducerMulticastConnection makes on a connection,
lines 287 to 292: the producing point is compared with `input_point` as an
EipUint32. -/
def ProducerMasterTest (input_point : Int) (c : CipConn) : Prop :=
  (c.instance_type = kConnInstanceTypeIoExclusiveOwner
    ∨ c.instance_type = kConnInstanceTypeIoInputOnly)
  ∧ EipUint32.ofInt input_point =
      EipUint32.ofInt c.conn_path.producing_path.GetInstanceOrConnPt
  ∧ c.t_to_o_ncp.ConnectionType = kIOConnTypeMulticast
  ∧ kEipInvalidSocket ≠ c.producing_socket

instance (p : Int) (c : CipConn) : Decidable (ProducerMasterTest p c) := by
  unfold ProducerMasterTest; infer_instance

/-- The test that GetNextNonControlMasterConnection makes on a connection, lines 313
to 318. -/
def NonControlMasterTest (input_point : Int) (c : CipConn) : Prop :=
  (c.instance_type = kConnInstanceTypeIoExclusiveOwner
    ∨ c.instance_type = kConnInstanceTypeIoInputOnly)
  ∧ EipUint32.ofInt input_point =
      EipUint32.ofInt c.conn_path.producing_path.GetInstanceOrConnPt
  ∧ c.t_to_o_ncp.ConnectionType = kIOConnTypeMulticast
  ∧ c.producing_socket = kEipInvalidSocket

instance (p : Int) (c : CipConn) : Decidable (NonControlMasterTest p c) := by
  unfold NonControlMasterTest; infer_instance

/-- The test that CloseAllConnectionsForInputWithSameType makes on a connection,
lines 341 and 342. -/
def SameTypeAndInputTest (input_point : Int) (instance_type : ConnInstanceType)
    (n : ActiveNode) : Prop :=
  instance_type = n.conn.instance_type
  ∧ EipUint32.ofInt input_point =
      EipUint32.ofInt n.conn.conn_path.producing_path.GetInstanceOrConnPt

instance (p : Int) (t : ConnInstanceType) (n : ActiveNode) :
    Decidable (SameTypeAndInputTest p t n) := by
  unfold SameTypeAndInputTest; infer_instance

/-- A connection has instance type `t` and producing point `p`, in the words of the
specification. -/
def HasTypeAndInput (p : Int) (t : ConnInstanceType) (n : ActiveNode) : Prop :=
  n.conn.instance_type = t ∧ n.conn.conn_path.producing_path.GetInstanceOrConnPt = p

instance (p : Int) (t : ConnInstanceType) (n : ActiveNode) :
    Decidable (HasTypeAndInput p t n) := by
  unfold HasTypeAndInput; infer_instance

/-- An active list of two multicast connections whose producing point and config
point are -1: an exclusive owner that owns socket 5 and, behind it, an input-only
connection that shares the socket. -/
def negativePointState : State :=
  { State.empty with
    g_active_connection_list :=
      [{ request 150 (-1) (-1) true kIOConnTypeMulticast 7 with
          state := kConnectionStateEstablished,
          instance_type := kConnInstanceTypeIoExclusiveOwner,
          producing_socket := 5 },
       { request 152 (-1) (-1) true kIOConnTypeMulticast 8 with
          state := kConnectionStateEstablished,
          instance_type := kConnInstanceTypeIoInputOnly }] }

/-- A close function that unlinks the connection it is called on and, with it, the
connection at address 30. -/
def closeWithPeer (n : ActiveNode) (list : List ActiveNode) : List ActiveNode :=
  list.filter (fun m => m.addr ≠ n.addr ∧ m.addr ≠ 30)

/-- Two listen-only connections at addresses 10 and 20: the first produces point
-1, the second input assembly 100. -/
def negativePointNodes : List ActiveNode :=
  [⟨10, { request 153 (-1) 151 true kIOConnTypeMulticast 1 with
            state := kConnectionStateEstablished,
            instance_type := kConnInstanceTypeIoListenOnly }⟩,
   ⟨20, { request 153 100 151 true kIOConnTypeMulticast 2 with
            state := kConnectionStateEstablished,
            instance_type := kConnInstanceTypeIoListenOnly }⟩]

/-- The position of the first connection with property `P`, counted from `pos`. -/
def firstPositionFrom (P : CipConn → Prop) [DecidablePred P] : List CipConn → Nat → Option Nat
  | [], _ => none
  | c :: rest, pos => if P c then some pos else firstPositionFrom P rest (pos + 1)

/-- The sample application with a multicast exclusive owner that owns socket 5 and a
multicast input-only connection that shares it; the input-only connection is the
head of the active list. -/
def sharedProducerState : State :=
  (runEvents sampleConf sampleState
    [ConnEvent.forwardOpen (request 150 100 151 true kIOConnTypeMulticast 7) 5,
     ConnEvent.forwardOpen (request 152 100 151 true kIOConnTypeMulticast 8)
       kEipInvalidSocket]).getD sampleState

/-! ## Sequences of calls -/

/-- A call of one of the table-changing functions of appcontype.cc. The tables are
file-static, so code outside this file reaches them only through pointers to
`connection_data` elements; `writes` lists what the close functions, which are
defined outside the sources, store through such pointers. -/
inductive ApiCall
  | configureExclusiveOwnerConnectionPoint (output_assembly input_assembly config_assembly : Int)
  | configureInputOnlyConnectionPoint (output_assembly input_assembly config_assembly : Int)
  | configureListenOnlyConnectionPoint (output_assembly input_assembly config_assembly : Int)
  | getIoConnectionForConnectionData (aConn : CipConn)
  | closeAllConnectionsForInputWithSameType (input_point : Int)
      (instance_type : ConnInstanceType) (writes : List (Slot × CipConn))
  | closeAllConnections (writes : List (Slot × CipConn))
  | destroyIoConnectionData
  deriving DecidableEq, Repr

/-- Stores through slot pointers, one after the other. -/
def State.writeSlots (s : State) : List (Slot × CipConn) → State
  | [] => s
  | w :: rest => (s.modifySlot (fun _ => w.2) w.1).writeSlots rest

/-- Modelled from the spec: the effect of a call on the process-wide variables. For
the two Close functions the close functions they call are code outside the sources:
they unlink the closed connections (spec section 5) and may store into connection
objects (`writes`). `none` means the call ran into undefined behaviour. -/
def applyCall (conf : UserConf) (s : State) : ApiCall → Option State
  | .configureExclusiveOwnerConnectionPoint o i c =>
    some (ConfigureExclusiveOwnerConnectionPoint conf s o i c).1
  | .configureInputOnlyConnectionPoint o i c =>
    some (ConfigureInputOnlyConnectionPoint conf s o i c).1
  | .configureListenOnlyConnectionPoint o i c =>
    some (ConfigureListenOnlyConnectionPoint conf s o i c).1
  | .getIoConnectionForConnectionData aConn =>
    (GetIoConnectionForConnectionData conf s aConn).map (fun r => r.state)
  | .closeAllConnectionsForInputWithSameType input_point instance_type writes =>
    some { s.writeSlots writes with
      g_active_connection_list := (s.g_active_connection_list.filter (fun c =>
        ¬ (instance_type = c.instance_type
          ∧ input_point = c.conn_path.producing_path.GetInstanceOrConnPt))) }
  | .closeAllConnections writes =>
    some { s.writeSlots writes with g_active_connection_list := [] }
  | .destroyIoConnectionData => some (DestroyIoConnectionData s)

/-- A sequence of calls applied from left to right. -/
def runCalls (conf : UserConf) (s : State) : List ApiCall → Option State
  | [] => some s
  | call :: rest => (applyCall conf s call).bind (fun s2 => runCalls conf s2 rest)

/-- No table holds more entries than its capacity. -/
def WithinCapacity (conf : UserConf) (s : State) : Prop :=
  s.g_exclusive_owner.length ≤ conf.CIPSTER_CIP_NUM_EXCLUSIVE_OWNER_CONNS
  ∧ s.g_input_only.length ≤ conf.CIPSTER_CIP_NUM_INPUT_ONLY_CONNS
  ∧ s.g_listen_only.length ≤ conf.CIPSTER_CIP_NUM_LISTEN_ONLY_CONNS

instance (conf : UserConf) (s : State) : Decidable (WithinCapacity conf s) := by
  unfold WithinCapacity; infer_instance

/-- The registered (output_assembly, input_assembly, config_assembly) triples of the
exclusive-owner table, in registration order. -/
def State.exclusiveOwnerTriples (s : State) : List (Int × Int × Int) :=
  s.g_exclusive_owner.map (fun e => (e.output_assembly, e.input_assembly, e.config_assembly))

/-- The registered triples of the input-only table, in registration order. -/
def State.inputOnlyTriples (s : State) : List (Int × Int × Int) :=
  s.g_input_only.map (fun e => (e.output_assembly, e.input_assembly, e.config_assembly))

/-- The registered triples of the listen-only table, in registration order. -/
def State.listenOnlyTriples (s : State) : List (Int × Int × Int) :=
  s.g_listen_only.map (fun e => (e.output_assembly, e.input_assembly, e.config_assembly))

/-- Calls that exercise every function: three registrations for a table with room
for two, an accepted request, both Close functions, a Destroy and a registration
after it. -/
def sampleCalls : List ApiCall :=
  [ApiCall.configureExclusiveOwnerConnectionPoint 150 100 151,
   ApiCall.configureExclusiveOwnerConnectionPoint 150 100 (-1),
   ApiCall.configureExclusiveOwnerConnectionPoint 160 100 151,
   ApiCall.configureInputOnlyConnectionPoint 152 100 151,
   ApiCall.getIoConnectionForConnectionData (request 150 100 151 true kIOConnTypeMulticast 7),
   ApiCall.closeAllConnectionsForInputWithSameType 100 kConnInstanceTypeIoListenOnly [],
   ApiCall.closeAllConnections [(Slot.exclusiveOwner 0, CipConn.fresh)],
   ApiCall.destroyIoConnectionData,
   ApiCall.configureListenOnlyConnectionPoint 153 100 151]

/-! ## The sample application: assembly data -/

/-- Modelled from the spec: the status values named in cipster_api.h (EIP_OK and
EIP_ERROR); the enumeration is declared in typedefs.h, not part of the sources. -/
inductive EipStatus
  | kEipStatusOk
  | kEipStatusError
  deriving DecidableEq, Repr

/-- The four global buffers of the sample application; a byte is a natural number
below 256. -/
structure AssemblyData where
  g_assembly_data064 : List Nat
  g_assembly_data096 : List Nat
  g_assembly_data097 : List Nat
  g_assembly_data09A : List Nat
  deriving DecidableEq, Repr

/-- The buffers have their declared sizes: 128, 128, 64 and 128 bytes. -/
def AssemblyData.WellFormed (d : AssemblyData) : Prop :=
  d.g_assembly_data064.length = 128 ∧ d.g_assembly_data096.length = 128
  ∧ d.g_assembly_data097.length = 64 ∧ d.g_assembly_data09A.length = 128

instance (d : AssemblyData) : Decidable d.WellFormed := by
  unfold AssemblyData.WellFormed; infer_instance

/-- The library function memcpy on two distinct arrays: the first `n` bytes of `dst`
are replaced by the first `n` bytes of `src`; `none` when `n` exceeds the size of
one of the arrays (undefined behaviour). -/
def memcpy (dst src : List Nat) (n : Nat) : Option (List Nat) :=
  if n ≤ dst.length ∧ n ≤ src.length then some (src.take n ++ dst.drop n) else none

/-- The callback AfterAssemblyDataReceived of the sample application, as a function
of `instance->Id()` and the buffers; `sizeof(g_assembly_data064)` is 128. -/
def AfterAssemblyDataReceived (instance_id : Int) (d : AssemblyData) :
    Option (AssemblyData × EipStatus) :=
  let status := EipStatus.kEipStatusOk
  if instance_id = DEMO_APP_OUTPUT_ASSEMBLY_NUM then
    match memcpy d.g_assembly_data064 d.g_assembly_data096 128 with
    | none => none
    | some mirrored => some ({ d with g_assembly_data064 := mirrored }, status)
  else if instance_id = DEMO_APP_EXPLICT_ASSEMBLY_NUM then
    some (d, status)
  else if instance_id = DEMO_APP_CONFIG_ASSEMBLY_NUM then
    some (d, EipStatus.kEipStatusOk)
  else
    some (d, status)

/-- Buffers as in scenario S4 of the spec: the output assembly holds 128 bytes 0xAA,
the other buffers are zero. -/
def sampleData : AssemblyData where
  g_assembly_data064 := List.replicate 128 0
  g_assembly_data096 := List.replicate 128 170
  g_assembly_data097 := List.replicate 64 0
  g_assembly_data09A := List.replicate 128 0

/-- The callback ApplicationInitialization of the sample application: the new
tables and the returned status. The calls of CreateAssemblyInstance create assembly
objects and do not reach the connection point tables, which are file-static in
appcontype.cc; they are left out. -/
def ApplicationInitialization (conf : UserConf) (s : State) : State × EipStatus :=
  (ApplicationInitialization.tables conf s, EipStatus.kEipStatusOk)

/-! ## Which point a stage examines -/

/-- Element `e` at index `i` is the first element of the list with property `P`. -/
def IsFirst {α : Type} (P : α → Prop) (l : List α) (i : Nat) (e : α) : Prop :=
  l[i]? = some e ∧ P e ∧ ∀ j e2, j < i → l[j]? = some e2 → ¬ P e2

/-- The input-only stage hands out a slot, in terms of the table: the first
input-only point whose output assembly is the consuming point of the request has the
producing point as input assembly and the number that the config path reports as
config assembly, and the scan of its connections finds a free one. -/
def InputOnlyAccepts (conf : UserConf) (s : State) (aConn : CipConn) : Prop :=
  ∃ i e j,
    IsFirst (fun e : InputOnlyConnection =>
        e.output_assembly = aConn.conn_path.consuming_path.GetInstanceOrConnPt)
      s.g_input_only i e
    ∧ e.input_assembly = aConn.conn_path.producing_path.GetInstanceOrConnPt
    ∧ e.config_assembly = aConn.conn_path.config_path.GetInstanceOrConnPt
    ∧ scanConnectionData e.connection_data
        conf.CIPSTER_CIP_NUM_LISTEN_ONLY_CONNS_PER_CON_PATH 0 = ScanResult.found j

/-- The listen-only stage is reached past the input-only table and hands out a slot,
in terms of the tables: no input-only point has the consuming point as output
assembly, the request is multicast, the first listen-only point whose output
assembly is the consuming point has the producing point as input assembly and the
number that the config path reports as config assembly, a producer master exists
and the scan of the point's connections finds a free one. -/
def ListenOnlyAccepts (conf : UserConf) (s : State) (aConn : CipConn) : Prop :=
  (∀ e ∈ s.g_input_only,
    e.output_assembly ≠ aConn.conn_path.consuming_path.GetInstanceOrConnPt)
  ∧ aConn.t_to_o_ncp.ConnectionType = kIOConnTypeMulticast
  ∧ ∃ i e j,
    IsFirst (fun e : ListenOnlyConnection =>
        e.output_assembly = aConn.conn_path.consuming_path.GetInstanceOrConnPt)
      s.g_listen_only i e
    ∧ e.input_assembly = aConn.conn_path.producing_path.GetInstanceOrConnPt
    ∧ e.config_assembly = aConn.conn_path.config_path.GetInstanceOrConnPt
    ∧ (GetExistingProducerMulticastConnection s
        aConn.conn_path.producing_path.GetInstanceOrConnPt).isSome = true
    ∧ scanConnectionData e.connection_data
        conf.CIPSTER_CIP_NUM_LISTEN_ONLY_CONNS_PER_CON_PATH 0 = ScanResult.found j

/-- The exclusive-owner point (150, 100, 151) and an input-only point with the same
output and input assemblies, registered with config assembly `n`. -/
def twinState (n : Int) : State :=
  { State.empty with
    g_exclusive_owner := [⟨150, 100, 151, CipConn.fresh⟩]
    g_input_only := [⟨150, 100, n, List.replicate 3 CipConn.fresh⟩] }

/-- Two exclusive-owner points for output 150 and input 100: the first registered
with config assembly `n`, the second with -1. -/
def earlierPointState (n : Int) : State :=
  { State.empty with
    g_exclusive_owner := [⟨150, 100, n, CipConn.fresh⟩, ⟨150, 100, -1, CipConn.fresh⟩] }

theorem EipUint32.ofInt_eq_iff (p x : Int) (hp0 : 0 ≤ p) (hp : p < 4294967296)
    (hx : IsInt x) :
    EipUint32.ofInt p = EipUint32.ofInt x ↔ (x = p ∨ x + 4294967296 = p) := by
  unfold EipUint32.ofInt
  unfold IsInt at hx
  omega

theorem EipUint32.ofInt_eq_iff_of_lt (p x : Int) (hp0 : 0 ≤ p) (hp : p < 2147483648)
    (hx : IsInt x) :
    EipUint32.ofInt p = EipUint32.ofInt x ↔ x = p := by
  unfold EipUint32.ofInt
  unfold IsInt at hx
  omega

theorem EipUint32.ofInt_inj (x y : Int) (hx : IsInt x) (hy : IsInt y) :
    EipUint32.ofInt x = EipUint32.ofInt y ↔ x = y := by
  unfold EipUint32.ofInt
  unfold IsInt at hx hy
  omega

theorem isZero_iff (e : ConnectionManagerStatusCode) :
    e.isZero = true ↔ e = kConnectionManagerStatusCodeSuccess := by
  cases e <;> simp [ConnectionManagerStatusCode.isZero]

theorem finish_outcome (s : State) (aConn : CipConn) (io : Option Slot)
    (e : ConnectionManagerStatusCode) :
    (GetIoConnectionForConnectionData.finish s aConn io e).outcome = ⟨io, e⟩ := by
  cases io <;> rfl

/-- C1: GetIoConnectionForConnectionData consults the stages in the order
exclusive-owner, input-only, listen-only. Its returned slot and extended error are
those of the first stage that returns a slot or sets a non-success error, the stages
after that one are not run, and when no stage is decisive the result is NULL with
InconsistentApplicationPathCombo. -/
theorem GetIoConnectionForConnectionData_stage_order (conf : UserConf) (s : State)
    (aConn : CipConn) :
    (GetIoConnectionForConnectionData conf s aConn).map IoResult.outcome =
      selectStage
        [fun _ => some (getExclusiveOwnerConnection s aConn kConnectionManagerStatusCodeSuccess),
         fun _ => getInputOnlyConnection conf s aConn kConnectionManagerStatusCodeSuccess,
         fun _ => getListenOnlyConnection conf s aConn kConnectionManagerStatusCodeSuccess] := by
  unfold GetIoConnectionForConnectionData
  rcases h1 : getExclusiveOwnerConnection s aConn kConnectionManagerStatusCodeSuccess
    with ⟨io1, e1⟩
  cases io1 with
  | some sl => simp [selectStage, StageResult.decisive, h1, finish_outcome]
  | none =>
    by_cases he1 : kConnectionManagerStatusCodeSuccess = e1
    · subst he1
      simp only [selectStage, StageResult.decisive, h1, if_true]
      cases h2 : getInputOnlyConnection conf s aConn kConnectionManagerStatusCodeSuccess with
      | none => simp
      | some r2 =>
        rcases r2 with ⟨io2, e2⟩
        cases io2 with
        | some sl2 => simp [finish_outcome]
        | none =>
          by_cases he2 : e2 = kConnectionManagerStatusCodeSuccess
          · subst he2
            simp only [ConnectionManagerStatusCode.isZero, if_true]
            cases h3 : getListenOnlyConnection conf s aConn
                kConnectionManagerStatusCodeSuccess with
            | none => simp
            | some r3 =>
              rcases r3 with ⟨io3, e3⟩
              cases io3 with
              | some sl3 => simp [finish_outcome]
              | none =>
                by_cases he3 : e3 = kConnectionManagerStatusCodeSuccess
                · subst he3
                  simp [ConnectionManagerStatusCode.isZero, finish_outcome]
                · have hz : e3.isZero = false := by
                    cases e3 <;> simp_all [ConnectionManagerStatusCode.isZero]
                  simp [hz, he3, finish_outcome]
          · have hz : e2.isZero = false := by
              cases e2 <;> simp_all [ConnectionManagerStatusCode.isZero]
            simp [hz, he2, finish_outcome]
    · have he1b : ¬ (e1 = kConnectionManagerStatusCodeSuccess) := fun h => he1 h.symm
      simp [selectStage, StageResult.decisive, h1, he1, he1b, finish_outcome]

/-! ### The exclusive-owner stage -/

theorem getExclusiveOwnerConnectionFrom_no_match (s : State) (aConn : CipConn)
    (err : ConnectionManagerStatusCode) (l : List ExclusiveOwnerConnection) (k : Nat)
    (h : ∀ e ∈ l, ¬ ExclusiveOwnerMatch e aConn) :
    getExclusiveOwnerConnectionFrom s aConn err l k = ⟨none, err⟩ := by
  induction l generalizing k with
  | nil => rfl
  | cons e rest ih =>
    have he : ¬ ExclusiveOwnerMatch e aConn := h e (List.mem_cons_self _ _)
    unfold ExclusiveOwnerMatch at he
    unfold getExclusiveOwnerConnectionFrom
    rw [if_neg he]
    exact ih (k + 1) (fun e2 h2 => h e2 (List.mem_cons_of_mem _ h2))

theorem getExclusiveOwnerConnectionFrom_first_match (s : State) (aConn : CipConn)
    (err : ConnectionManagerStatusCode) (l : List ExclusiveOwnerConnection) (k i : Nat)
    (e : ExclusiveOwnerConnection) (hi : l[i]? = some e) (hm : ExclusiveOwnerMatch e aConn)
    (hfirst : ∀ j e2, j < i → l[j]? = some e2 → ¬ ExclusiveOwnerMatch e2 aConn) :
    getExclusiveOwnerConnectionFrom s aConn err l k =
      if (GetConnectedOutputAssembly s
            aConn.conn_path.consuming_path.GetInstanceOrConnPt).isSome then
        ⟨none, kConnectionManagerStatusCodeErrorOwnershipConflict⟩
      else ⟨some (Slot.exclusiveOwner (k + i)), err⟩ := by
  induction l generalizing k i with
  | nil => simp at hi
  | cons e0 rest ih =>
    cases i with
    | zero =>
      simp only [List.getElem?_cons_zero, Option.some.injEq] at hi
      subst hi
      unfold ExclusiveOwnerMatch at hm
      unfold getExclusiveOwnerConnectionFrom
      rw [if_pos hm]
      rfl
    | succ n =>
      have h0 : ¬ ExclusiveOwnerMatch e0 aConn := hfirst 0 e0 (Nat.succ_pos n) (by simp)
      unfold ExclusiveOwnerMatch at h0
      unfold getExclusiveOwnerConnectionFrom
      rw [if_neg h0]
      have hi2 : rest[n]? = some e := by simpa using hi
      have := ih (k + 1) n hi2
        (fun j e2 hj h2 => hfirst (j + 1) e2 (Nat.succ_lt_succ hj) (by simpa using h2))
      rw [this]
      have hk : k + 1 + n = k + (n + 1) := by omega
      rw [hk]

theorem getExclusiveOwnerConnectionFrom_conflict (s : State) (aConn : CipConn)
    (err : ConnectionManagerStatusCode) (l : List ExclusiveOwnerConnection) (k : Nat)
    (hm : ∃ e ∈ l, ExclusiveOwnerMatch e aConn)
    (hc : (GetConnectedOutputAssembly s
            aConn.conn_path.consuming_path.GetInstanceOrConnPt).isSome = true) :
    getExclusiveOwnerConnectionFrom s aConn err l k =
      ⟨none, kConnectionManagerStatusCodeErrorOwnershipConflict⟩ := by
  induction l generalizing k with
  | nil => simp at hm
  | cons e0 rest ih =>
    unfold getExclusiveOwnerConnectionFrom
    by_cases h0 : ExclusiveOwnerMatch e0 aConn
    · unfold ExclusiveOwnerMatch at h0
      rw [if_pos h0, if_pos hc]
    · have hrest : ∃ e ∈ rest, ExclusiveOwnerMatch e aConn := by
        obtain ⟨e, he, hme⟩ := hm
        rcases List.mem_cons.mp he with h | h
        · subst h; exact absurd hme h0
        · exact ⟨e, h, hme⟩
      unfold ExclusiveOwnerMatch at h0
      rw [if_neg h0]
      exact ih (k + 1) hrest

theorem exclusive_owner_first_match (conf : UserConf) (s : State)
    (aConn : CipConn) (i : Nat) (e : ExclusiveOwnerConnection)
    (hi : s.g_exclusive_owner[i]? = some e) (hm : ExclusiveOwnerMatch e aConn)
    (hfirst : ∀ j e2, j < i → s.g_exclusive_owner[j]? = some e2 →
      ¬ ExclusiveOwnerMatch e2 aConn)
    (hfree : GetConnectedOutputAssembly s
      aConn.conn_path.consuming_path.GetInstanceOrConnPt = none) :
    GetIoConnectionForConnectionData conf s aConn =
      some ⟨some (Slot.exclusiveOwner i), kConnectionManagerStatusCodeSuccess,
        { aConn with instance_type := kConnInstanceTypeIoExclusiveOwner },
        CopyConnectionData s (Slot.exclusiveOwner i)
          { aConn with instance_type := kConnInstanceTypeIoExclusiveOwner }⟩ := by
  have h1 : getExclusiveOwnerConnection s aConn kConnectionManagerStatusCodeSuccess =
      ⟨some (Slot.exclusiveOwner i), kConnectionManagerStatusCodeSuccess⟩ := by
    unfold getExclusiveOwnerConnection
    rw [getExclusiveOwnerConnectionFrom_first_match s aConn _ _ 0 i e hi hm hfirst, hfree]
    simp
  unfold GetIoConnectionForConnectionData
  simp [h1, GetIoConnectionForConnectionData.finish]

/-- C2: when the request matches a registered exclusive-owner point and
GetConnectedOutputAssembly reports no connection on the consuming point,
GetIoConnectionForConnectionData returns the slot of the first matching point in
registration order, sets the instance type to IoExclusiveOwner and leaves the
extended error at Success, whatever the other two tables hold. -/
theorem GetIoConnectionForConnectionData_exclusive_owner (conf : UserConf) (s : State)
    (aConn : CipConn) (i : Nat) (e : ExclusiveOwnerConnection)
    (hi : s.g_exclusive_owner[i]? = some e) (hm : ExclusiveOwnerMatch e aConn)
    (hfirst : ∀ j e2, j < i → s.g_exclusive_owner[j]? = some e2 →
      ¬ ExclusiveOwnerMatch e2 aConn)
    (hfree : GetConnectedOutputAssembly s
      aConn.conn_path.consuming_path.GetInstanceOrConnPt = none) :
    ∃ r, GetIoConnectionForConnectionData conf s aConn = some r
      ∧ r.io_connection = some (Slot.exclusiveOwner i)
      ∧ r.aConn.instance_type = kConnInstanceTypeIoExclusiveOwner
      ∧ r.extended_error = kConnectionManagerStatusCodeSuccess :=
  ⟨_, exclusive_owner_first_match conf s aConn i e hi hm hfirst hfree, rfl, rfl, rfl⟩

/-- Witness for C2: the sample application, a request for (150, 100, 151). -/
theorem GetIoConnectionForConnectionData_exclusive_owner_witness :
    ∃ r, GetIoConnectionForConnectionData sampleConf sampleState
        (request 150 100 151 true kIOConnTypePointToPoint 7) = some r
      ∧ r.io_connection = some (Slot.exclusiveOwner 0)
      ∧ r.aConn.instance_type = kConnInstanceTypeIoExclusiveOwner
      ∧ r.extended_error = kConnectionManagerStatusCodeSuccess :=
  GetIoConnectionForConnectionData_exclusive_owner sampleConf sampleState
    (request 150 100 151 true kIOConnTypePointToPoint 7) 0
    ⟨150, 100, 151, CipConn.fresh⟩ (by decide) (by decide)
    (fun j e2 hj => absurd hj (Nat.not_lt_zero j)) (by decide)

/-- C3: when the request matches a registered exclusive-owner point while
GetConnectedOutputAssembly reports a connection on the consuming point,
GetIoConnectionForConnectionData returns NULL with ErrorOwnershipConflict, whatever
the input-only and listen-only tables hold; the request and the tables are left as
they were. -/
theorem GetIoConnectionForConnectionData_ownership_conflict (conf : UserConf) (s : State)
    (aConn : CipConn)
    (hm : ∃ e ∈ s.g_exclusive_owner, ExclusiveOwnerMatch e aConn)
    (hbusy : (GetConnectedOutputAssembly s
      aConn.conn_path.consuming_path.GetInstanceOrConnPt).isSome = true) :
    GetIoConnectionForConnectionData conf s aConn =
      some ⟨none, kConnectionManagerStatusCodeErrorOwnershipConflict, aConn, s⟩ := by
  have h1 : getExclusiveOwnerConnection s aConn kConnectionManagerStatusCodeSuccess =
      ⟨none, kConnectionManagerStatusCodeErrorOwnershipConflict⟩ :=
    getExclusiveOwnerConnectionFrom_conflict s aConn _ _ 0 hm hbusy
  unfold GetIoConnectionForConnectionData
  simp [h1, GetIoConnectionForConnectionData.finish]

/-- Witness for C3: the input-only table would accept the request, the
exclusive-owner conflict is reported all the same. -/
theorem GetIoConnectionForConnectionData_ownership_conflict_witness :
    GetIoConnectionForConnectionData sampleConf conflictState
        (request 150 100 151 true kIOConnTypePointToPoint 8) =
      some ⟨none, kConnectionManagerStatusCodeErrorOwnershipConflict,
        request 150 100 151 true kIOConnTypePointToPoint 8, conflictState⟩ :=
  GetIoConnectionForConnectionData_ownership_conflict sampleConf conflictState
    (request 150 100 151 true kIOConnTypePointToPoint 8) (by decide) (by decide)

/-! ### Reachable states -/

theorem GetConnectedOutputAssemblyFrom_none (id : Int) (l : List CipConn) (pos : Nat)
    (h : GetConnectedOutputAssemblyFrom id l pos = none) :
    ∀ c ∈ l, ¬ (c.state = kConnectionStateEstablished
      ∧ c.conn_path.consuming_path.GetInstanceOrConnPt = id) := by
  induction l generalizing pos with
  | nil => intro c hc; simp at hc
  | cons c0 rest ih =>
    unfold GetConnectedOutputAssemblyFrom at h
    split at h
    · simp at h
    · rename_i hc0
      intro c hc
      rcases List.mem_cons.mp hc with hc | hc
      · subst hc; exact hc0
      · exact ih (pos + 1) h c hc

theorem getExclusiveOwnerConnectionFrom_slot (s : State) (aConn : CipConn)
    (err : ConnectionManagerStatusCode) (l : List ExclusiveOwnerConnection) (k : Nat)
    (sl : Slot) (h : (getExclusiveOwnerConnectionFrom s aConn err l k).io_connection = some sl) :
    GetConnectedOutputAssembly s aConn.conn_path.consuming_path.GetInstanceOrConnPt = none := by
  induction l generalizing k with
  | nil => simp [getExclusiveOwnerConnectionFrom] at h
  | cons e rest ih =>
    unfold getExclusiveOwnerConnectionFrom at h
    split at h
    · split at h
      · simp at h
      · rename_i hfree
        simpa using hfree
    · exact ih (k + 1) h

theorem GetIoConnectionForConnectionData_slot_cases (conf : UserConf) (s : State)
    (aConn : CipConn) (r : IoResult) (sl : Slot)
    (h : GetIoConnectionForConnectionData conf s aConn = some r)
    (hsl : r.io_connection = some sl) :
    ((getExclusiveOwnerConnection s aConn
          kConnectionManagerStatusCodeSuccess).io_connection = some sl
        ∧ r.aConn = { aConn with instance_type := kConnInstanceTypeIoExclusiveOwner })
    ∨ ((∃ e2, getInputOnlyConnection conf s aConn kConnectionManagerStatusCodeSuccess =
          some ⟨some sl, e2⟩)
        ∧ r.aConn = { aConn with instance_type := kConnInstanceTypeIoInputOnly })
    ∨ ((∃ e3, getListenOnlyConnection conf s aConn kConnectionManagerStatusCodeSuccess =
          some ⟨some sl, e3⟩)
        ∧ r.aConn = { aConn with instance_type := kConnInstanceTypeIoListenOnly }) := by
  unfold GetIoConnectionForConnectionData at h
  rcases h1 : getExclusiveOwnerConnection s aConn kConnectionManagerStatusCodeSuccess
    with ⟨io1, e1⟩
  rw [h1] at h
  cases io1 with
  | some sl1 =>
    left
    simp only [GetIoConnectionForConnectionData.finish, Option.some.injEq] at h
    subst h
    simp only [Option.some.injEq] at hsl
    subst hsl
    exact ⟨rfl, rfl⟩
  | none =>
    right
    simp only at h
    by_cases he1 : kConnectionManagerStatusCodeSuccess = e1
    · subst he1
      simp only [if_true] at h
      cases h2 : getInputOnlyConnection conf s aConn kConnectionManagerStatusCodeSuccess with
      | none => rw [h2] at h; simp at h
      | some r2 =>
        rw [h2] at h
        rcases r2 with ⟨io2, e2⟩
        cases io2 with
        | some sl2 =>
          left
          simp only [GetIoConnectionForConnectionData.finish, Option.some.injEq] at h
          subst h
          simp only [Option.some.injEq] at hsl
          subst hsl
          exact ⟨⟨e2, rfl⟩, rfl⟩
        | none =>
          right
          simp only at h
          by_cases hz2 : e2.isZero = true
          · have he2 := (isZero_iff e2).mp hz2
            subst he2
            simp only [ConnectionManagerStatusCode.isZero, if_true] at h
            cases h3 : getListenOnlyConnection conf s aConn
                kConnectionManagerStatusCodeSuccess with
            | none => rw [h3] at h; simp at h
            | some r3 =>
              rw [h3] at h
              rcases r3 with ⟨io3, e3⟩
              cases io3 with
              | some sl3 =>
                simp [GetIoConnectionForConnectionData.finish] at h
                subst h
                simp only [Option.some.injEq] at hsl
                subst hsl
                exact ⟨⟨e3, rfl⟩, rfl⟩
              | none =>
                simp only [GetIoConnectionForConnectionData.finish] at h
                split at h <;>
                  (simp only [Option.some.injEq] at h; subst h; simp at hsl)
          · simp only [hz2, GetIoConnectionForConnectionData.finish] at h
            simp at h
            subst h
            simp at hsl
    · simp only [he1, if_false, GetIoConnectionForConnectionData.finish,
        Option.some.injEq] at h
      subst h
      simp at hsl

theorem getListenOnlyConnectionFrom_slot (conf : UserConf) (s : State) (aConn : CipConn)
    (err e3 : ConnectionManagerStatusCode) (l : List ListenOnlyConnection) (k : Nat) (sl : Slot)
    (h : getListenOnlyConnectionFrom conf s aConn err l k = some ⟨some sl, e3⟩) :
    (GetExistingProducerMulticastConnection s
      aConn.conn_path.producing_path.GetInstanceOrConnPt).isSome = true := by
  induction l generalizing k with
  | nil => simp [getListenOnlyConnectionFrom] at h
  | cons e rest ih =>
    unfold getListenOnlyConnectionFrom at h
    split at h
    · split at h
      · simp at h
      · split at h
        · simp at h
        · split at h
          · simp at h
          · rename_i hprod
            simpa [Option.isNone_iff_eq_none, Option.isSome_iff_ne_none] using hprod
    · exact ih (k + 1) h

theorem getListenOnlyConnection_slot (conf : UserConf) (s : State) (aConn : CipConn)
    (err e3 : ConnectionManagerStatusCode) (sl : Slot)
    (h : getListenOnlyConnection conf s aConn err = some ⟨some sl, e3⟩) :
    aConn.t_to_o_ncp.ConnectionType = kIOConnTypeMulticast
    ∧ (GetExistingProducerMulticastConnection s
        aConn.conn_path.producing_path.GetInstanceOrConnPt).isSome = true := by
  unfold getListenOnlyConnection at h
  split at h
  · simp at h
  · rename_i hmc
    exact ⟨not_not.mp hmc, getListenOnlyConnectionFrom_slot conf s aConn err e3 _ 0 sl h⟩

theorem forwardOpen_invariant (conf : UserConf) (s s2 : State) (aConn : CipConn)
    (sock : Int) (h : forwardOpen conf s aConn sock = some s2)
    (hinv : ActiveListInvariant s) : ActiveListInvariant s2 := by
  unfold forwardOpen at h
  cases hget : GetIoConnectionForConnectionData conf s aConn with
  | none => rw [hget] at h; simp at h
  | some r =>
    rw [hget] at h
    simp only at h
    cases hio : r.io_connection with
    | none =>
      rw [hio] at h
      simp only [Option.some.injEq] at h
      subst h
      exact hinv
    | some dst =>
      rw [hio] at h
      simp only [Option.some.injEq] at h
      subst h
      obtain ⟨hest, hpw⟩ := hinv
      refine ⟨?_, ?_⟩
      · intro c hc
        simp only [List.mem_cons] at hc
        rcases hc with hc | hc
        · subst hc; rfl
        · exact hest c hc
      · simp only [List.pairwise_cons]
        refine ⟨?_, hpw⟩
        intro d hd hboth
        obtain ⟨hty, _, hcons⟩ := hboth
        simp only at hty hcons
        rcases GetIoConnectionForConnectionData_slot_cases conf s aConn r dst hget hio with
          hcase | hcase | hcase
        · obtain ⟨hst, hr⟩ := hcase
          have hfree := getExclusiveOwnerConnectionFrom_slot s aConn _ _ 0 dst hst
          have hnone := GetConnectedOutputAssemblyFrom_none _ _ 0 hfree d hd
          apply hnone
          refine ⟨hest d hd, ?_⟩
          rw [hr] at hcons
          exact hcons.symm
        · rw [hcase.2] at hty
          simp at hty
        · rw [hcase.2] at hty
          simp at hty

theorem closeConnection_invariant (s : State) (pos : Nat) (freed : Slot)
    (hinv : ActiveListInvariant s) : ActiveListInvariant (closeConnection s pos freed) := by
  obtain ⟨hest, hpw⟩ := hinv
  have hsub : (closeConnection s pos freed).g_active_connection_list.Sublist
      s.g_active_connection_list := List.eraseIdx_sublist _ _
  exact ⟨fun c hc => hest c (hsub.subset hc), hpw.sublist hsub⟩

theorem runEvents_invariant (conf : UserConf) (evs : List ConnEvent) (s s2 : State)
    (h : runEvents conf s evs = some s2) (hinv : ActiveListInvariant s) :
    ActiveListInvariant s2 := by
  induction evs generalizing s with
  | nil =>
    simp only [runEvents, Option.some.injEq] at h
    subst h
    exact hinv
  | cons ev rest ih =>
    unfold runEvents at h
    cases hstep : applyEvent conf s ev with
    | none => rw [hstep] at h; simp at h
    | some s1 =>
      rw [hstep] at h
      simp only [Option.some_bind] at h
      apply ih s1 h
      cases ev with
      | forwardOpen aConn sock => exact forwardOpen_invariant conf s s1 aConn sock hstep hinv
      | close pos freed =>
        simp only [applyEvent, Option.some.injEq] at hstep
        subst hstep
        exact closeConnection_invariant s pos freed hinv

theorem invariant_of_empty (s : State) (h : s.g_active_connection_list = []) :
    ActiveListInvariant s := by
  unfold ActiveListInvariant
  rw [h]
  exact ⟨fun c hc => absurd hc (List.not_mem_nil c), List.Pairwise.nil⟩

theorem atMostOne_of_pairwise (l : List CipConn) (h : l.Pairwise NotBothOwners) :
    AtMostOneExclusiveOwner l := by
  intro i j c d hij hc hd htc htd heq
  rw [List.pairwise_iff_getElem] at h
  obtain ⟨hi, hci⟩ := List.getElem?_eq_some.mp hc
  obtain ⟨hj, hdj⟩ := List.getElem?_eq_some.mp hd
  have := h i j hi hj hij
  rw [hci, hdj] at this
  exact this ⟨htc, htd, heq⟩

/-- C4: starting with an empty active list and any tables, after every sequence of
opens and closes no two connections in the active list are both IoExclusiveOwner
with the same consuming point. An accepted open links the slot that
GetIoConnectionForConnectionData returned as Established; a close unlinks a
connection. Several exclusive-owner points may be registered for one output
assembly. -/
theorem at_most_one_exclusive_owner (conf : UserConf) (s0 : State)
    (h0 : s0.g_active_connection_list = []) (evs : List ConnEvent) (s : State)
    (hrun : runEvents conf s0 evs = some s) :
    AtMostOneExclusiveOwner s.g_active_connection_list :=
  atMostOne_of_pairwise _ (runEvents_invariant conf evs s0 s hrun (invariant_of_empty s0 h0)).2

/-- Witness for C4: the sample application registers (150, 100, 151) and
(150, 100, -1); the second open for output assembly 150 is refused, so the run ends
with the exclusive owner and the listen-only connection. -/
theorem at_most_one_exclusive_owner_witness :
    ∃ s, runEvents sampleConf sampleState sampleEvents = some s
      ∧ s.g_active_connection_list.map (fun c => c.connection_serial_number) = [9, 7]
      ∧ AtMostOneExclusiveOwner s.g_active_connection_list :=
  ⟨(runEvents sampleConf sampleState sampleEvents).getD sampleState, by rfl, by rfl,
    at_most_one_exclusive_owner sampleConf sampleState rfl sampleEvents _ (by rfl)⟩

/-! ### The input-only and listen-only stages -/

theorem getInputOnlyConnectionFrom_no_output (conf : UserConf) (aConn : CipConn)
    (err : ConnectionManagerStatusCode) (l : List InputOnlyConnection) (k : Nat)
    (h : ∀ e ∈ l, e.output_assembly ≠ aConn.conn_path.consuming_path.GetInstanceOrConnPt) :
    getInputOnlyConnectionFrom conf aConn err l k = some ⟨none, err⟩ := by
  induction l generalizing k with
  | nil => rfl
  | cons e rest ih =>
    unfold getInputOnlyConnectionFrom
    rw [if_neg (h e (List.mem_cons_self _ _))]
    exact ih (k + 1) (fun e2 h2 => h e2 (List.mem_cons_of_mem _ h2))

theorem getInputOnlyConnectionFrom_first (conf : UserConf) (aConn : CipConn)
    (err : ConnectionManagerStatusCode) (l : List InputOnlyConnection) (k i : Nat)
    (e : InputOnlyConnection) (hi : l[i]? = some e)
    (hout : e.output_assembly = aConn.conn_path.consuming_path.GetInstanceOrConnPt)
    (hfirst : ∀ j e2, j < i → l[j]? = some e2 →
      e2.output_assembly ≠ aConn.conn_path.consuming_path.GetInstanceOrConnPt) :
    getInputOnlyConnectionFrom conf aConn err l k =
      getInputOnlyConnectionFrom conf aConn err [e] (k + i) := by
  induction l generalizing k i with
  | nil => simp at hi
  | cons e0 rest ih =>
    cases i with
    | zero =>
      simp only [List.getElem?_cons_zero, Option.some.injEq] at hi
      subst hi
      simp only [getInputOnlyConnectionFrom, if_pos hout, Nat.add_zero]
    | succ n =>
      have h0 := hfirst 0 e0 (Nat.succ_pos n) (by simp)
      have hi2 : rest[n]? = some e := by simpa using hi
      rw [getInputOnlyConnectionFrom, if_neg h0,
        ih (k + 1) n hi2
          (fun j e2 hj h2 => hfirst (j + 1) e2 (Nat.succ_lt_succ hj) (by simpa using h2))]
      have hk : k + 1 + n = k + (n + 1) := by omega
      rw [hk]

theorem getListenOnlyConnectionFrom_no_output (conf : UserConf) (s : State) (aConn : CipConn)
    (err : ConnectionManagerStatusCode) (l : List ListenOnlyConnection) (k : Nat)
    (h : ∀ e ∈ l, e.output_assembly ≠ aConn.conn_path.consuming_path.GetInstanceOrConnPt) :
    getListenOnlyConnectionFrom conf s aConn err l k = some ⟨none, err⟩ := by
  induction l generalizing k with
  | nil => rfl
  | cons e rest ih =>
    unfold getListenOnlyConnectionFrom
    rw [if_neg (h e (List.mem_cons_self _ _))]
    exact ih (k + 1) (fun e2 h2 => h e2 (List.mem_cons_of_mem _ h2))

theorem getListenOnlyConnectionFrom_first (conf : UserConf) (s : State) (aConn : CipConn)
    (err : ConnectionManagerStatusCode) (l : List ListenOnlyConnection) (k i : Nat)
    (e : ListenOnlyConnection) (hi : l[i]? = some e)
    (hout : e.output_assembly = aConn.conn_path.consuming_path.GetInstanceOrConnPt)
    (hfirst : ∀ j e2, j < i → l[j]? = some e2 →
      e2.output_assembly ≠ aConn.conn_path.consuming_path.GetInstanceOrConnPt) :
    getListenOnlyConnectionFrom conf s aConn err l k =
      getListenOnlyConnectionFrom conf s aConn err [e] (k + i) := by
  induction l generalizing k i with
  | nil => simp at hi
  | cons e0 rest ih =>
    cases i with
    | zero =>
      simp only [List.getElem?_cons_zero, Option.some.injEq] at hi
      subst hi
      simp only [getListenOnlyConnectionFrom, if_pos hout, Nat.add_zero]
    | succ n =>
      have h0 := hfirst 0 e0 (Nat.succ_pos n) (by simp)
      have hi2 : rest[n]? = some e := by simpa using hi
      rw [getListenOnlyConnectionFrom, if_neg h0,
        ih (k + 1) n hi2
          (fun j e2 hj h2 => hfirst (j + 1) e2 (Nat.succ_lt_succ hj) (by simpa using h2))]
      have hk : k + 1 + n = k + (n + 1) := by omega
      rw [hk]

/-- C5, as stated, fails for the listen-only stage: the request is not multicast, the
only listen-only point has the consuming point 153 as output assembly and an input
assembly (100) different from the producing point (101), and the stage reports
NonListenOnlyConnectionNotOpened instead of InvalidProducingApplicationPath. -/
theorem path_mismatch_listen_only_counterexample :
    (∃ e, sampleState.g_listen_only[0]? = some e
      ∧ e.output_assembly =
        (request 153 101 151 true kIOConnTypePointToPoint 9).conn_path.consuming_path.GetInstanceOrConnPt
      ∧ e.input_assembly ≠
        (request 153 101 151 true kIOConnTypePointToPoint 9).conn_path.producing_path.GetInstanceOrConnPt)
    ∧ getListenOnlyConnection sampleConf sampleState
        (request 153 101 151 true kIOConnTypePointToPoint 9)
        kConnectionManagerStatusCodeSuccess =
      some ⟨none, kConnectionManagerStatusCodeNonListenOnlyConnectionNotOpened⟩
    ∧ getListenOnlyConnection sampleConf sampleState
        (request 153 101 151 true kIOConnTypePointToPoint 9)
        kConnectionManagerStatusCodeSuccess ≠
      some ⟨none, kConnectionManagerStatusCodeInvalidProducingApplicationPath⟩ := by
  refine ⟨⟨_, rfl, by decide, by decide⟩, by rfl, by decide⟩

/-- C5, amended: in the input-only stage, and in the listen-only stage when the
request is multicast, the first registered point whose output assembly equals the
consuming point decides: if its input assembly differs from the producing point the
stage returns no slot with InvalidProducingApplicationPath, otherwise if its config
assembly differs from the config point the stage returns no slot with
InconsistentApplicationPathCombo. -/
theorem path_mismatch_mapping (conf : UserConf) (s : State) (aConn : CipConn)
    (err : ConnectionManagerStatusCode) (i : Nat) :
    (∀ e : InputOnlyConnection, s.g_input_only[i]? = some e →
      e.output_assembly = aConn.conn_path.consuming_path.GetInstanceOrConnPt →
      (∀ j e2, j < i → s.g_input_only[j]? = some e2 →
        e2.output_assembly ≠ aConn.conn_path.consuming_path.GetInstanceOrConnPt) →
      (e.input_assembly ≠ aConn.conn_path.producing_path.GetInstanceOrConnPt →
        getInputOnlyConnection conf s aConn err =
          some ⟨none, kConnectionManagerStatusCodeInvalidProducingApplicationPath⟩)
      ∧ (e.input_assembly = aConn.conn_path.producing_path.GetInstanceOrConnPt →
        e.config_assembly ≠ aConn.conn_path.config_path.GetInstanceOrConnPt →
        getInputOnlyConnection conf s aConn err =
          some ⟨none, kConnectionManagerStatusCodeInconsistentApplicationPathCombo⟩))
    ∧ (∀ e : ListenOnlyConnection, s.g_listen_only[i]? = some e →
      e.output_assembly = aConn.conn_path.consuming_path.GetInstanceOrConnPt →
      (∀ j e2, j < i → s.g_listen_only[j]? = some e2 →
        e2.output_assembly ≠ aConn.conn_path.consuming_path.GetInstanceOrConnPt) →
      aConn.t_to_o_ncp.ConnectionType = kIOConnTypeMulticast →
      (e.input_assembly ≠ aConn.conn_path.producing_path.GetInstanceOrConnPt →
        getListenOnlyConnection conf s aConn err =
          some ⟨none, kConnectionManagerStatusCodeInvalidProducingApplicationPath⟩)
      ∧ (e.input_assembly = aConn.conn_path.producing_path.GetInstanceOrConnPt →
        e.config_assembly ≠ aConn.conn_path.config_path.GetInstanceOrConnPt →
        getListenOnlyConnection conf s aConn err =
          some ⟨none, kConnectionManagerStatusCodeInconsistentApplicationPathCombo⟩)) := by
  constructor
  · intro e hi hout hfirst
    have hrw : getInputOnlyConnection conf s aConn err =
        getInputOnlyConnectionFrom conf aConn err [e] (0 + i) :=
      getInputOnlyConnectionFrom_first conf aConn err _ 0 i e hi hout hfirst
    constructor
    · intro hin
      rw [hrw, getInputOnlyConnectionFrom, if_pos hout, if_pos hin]
    · intro hin hcfg
      rw [hrw, getInputOnlyConnectionFrom, if_pos hout, if_neg (not_not.mpr hin), if_pos hcfg]
  · intro e hi hout hfirst hmc
    have hrw : getListenOnlyConnection conf s aConn err =
        getListenOnlyConnectionFrom conf s aConn err [e] (0 + i) := by
      unfold getListenOnlyConnection
      rw [if_neg (not_not.mpr hmc)]
      exact getListenOnlyConnectionFrom_first conf s aConn err _ 0 i e hi hout hfirst
    constructor
    · intro hin
      rw [hrw, getListenOnlyConnectionFrom, if_pos hout, if_pos hin]
    · intro hin hcfg
      rw [hrw, getListenOnlyConnectionFrom, if_pos hout, if_neg (not_not.mpr hin), if_pos hcfg]

/-- Witness for C5: the sample application; each request differs from the
registered input-only point (152, 100, 151) or listen-only point (153, 100, 151) in
the producing point, or in the config point only. -/
theorem path_mismatch_mapping_witness :
    getInputOnlyConnection sampleConf sampleState
        (request 152 101 7 true kIOConnTypePointToPoint 9) kConnectionManagerStatusCodeSuccess =
      some ⟨none, kConnectionManagerStatusCodeInvalidProducingApplicationPath⟩
    ∧ getInputOnlyConnection sampleConf sampleState
        (request 152 100 7 true kIOConnTypePointToPoint 9) kConnectionManagerStatusCodeSuccess =
      some ⟨none, kConnectionManagerStatusCodeInconsistentApplicationPathCombo⟩
    ∧ getListenOnlyConnection sampleConf sampleState
        (request 153 101 7 true kIOConnTypeMulticast 9) kConnectionManagerStatusCodeSuccess =
      some ⟨none, kConnectionManagerStatusCodeInvalidProducingApplicationPath⟩
    ∧ getListenOnlyConnection sampleConf sampleState
        (request 153 100 7 true kIOConnTypeMulticast 9) kConnectionManagerStatusCodeSuccess =
      some ⟨none, kConnectionManagerStatusCodeInconsistentApplicationPathCombo⟩ :=
  ⟨((path_mismatch_mapping sampleConf sampleState
        (request 152 101 7 true kIOConnTypePointToPoint 9) kConnectionManagerStatusCodeSuccess 0).1
      ⟨152, 100, 151, List.replicate 3 CipConn.fresh⟩ (by rfl) (by decide)
      (fun j _ hj => absurd hj (Nat.not_lt_zero j))).1 (by decide),
   ((path_mismatch_mapping sampleConf sampleState
        (request 152 100 7 true kIOConnTypePointToPoint 9) kConnectionManagerStatusCodeSuccess 0).1
      ⟨152, 100, 151, List.replicate 3 CipConn.fresh⟩ (by rfl) (by decide)
      (fun j _ hj => absurd hj (Nat.not_lt_zero j))).2 (by decide) (by decide),
   ((path_mismatch_mapping sampleConf sampleState
        (request 153 101 7 true kIOConnTypeMulticast 9) kConnectionManagerStatusCodeSuccess 0).2
      ⟨153, 100, 151, List.replicate 3 CipConn.fresh⟩ (by rfl) (by decide)
      (fun j _ hj => absurd hj (Nat.not_lt_zero j)) (by decide)).1 (by decide),
   ((path_mismatch_mapping sampleConf sampleState
        (request 153 100 7 true kIOConnTypeMulticast 9) kConnectionManagerStatusCodeSuccess 0).2
      ⟨153, 100, 151, List.replicate 3 CipConn.fresh⟩ (by rfl) (by decide)
      (fun j _ hj => absurd hj (Nat.not_lt_zero j)) (by decide)).2 (by decide) (by decide)⟩

/-- C6, the code at the failing input: with two connections per input-only path and
one per listen-only path, the request matches the only input-only point, whose
second connection is NonExistent, and getInputOnlyConnection still returns no slot
and reports TargetObjectOutOfConnections, because its scan stops after
CIPSTER_CIP_NUM_LISTEN_ONLY_CONNS_PER_CON_PATH connections. -/
theorem getInputOnlyConnection_scans_listen_only_count :
    halfUsedState.WellFormed narrowConf
    ∧ (halfUsedState.slot (Slot.inputOnly 0 1)).map (fun c => c.state) =
        some kConnectionStateNonExistent
    ∧ getInputOnlyConnection narrowConf halfUsedState
        (request 152 100 151 true kIOConnTypePointToPoint 9)
        kConnectionManagerStatusCodeSuccess =
      some ⟨none, kConnectionManagerStatusCodeTargetObjectOutOfConnections⟩ := by
  refine ⟨by decide, by rfl, by rfl⟩

/-! ### Listen-only without a producer -/

/-- C7, as stated, fails when an earlier listen-only point shares the output
assembly: the multicast request (153, 100, 151) reaches the listen-only stage,
matches the second registered point on output, input and config, no producer
exists, and the result is InvalidProducingApplicationPath, computed against the
first point (153, 101, 151). -/
theorem listen_only_without_producer_counterexample :
    (request 153 100 151 true kIOConnTypeMulticast 9).t_to_o_ncp.ConnectionType =
      kIOConnTypeMulticast
    ∧ getExclusiveOwnerConnection shadowState (request 153 100 151 true kIOConnTypeMulticast 9)
        kConnectionManagerStatusCodeSuccess = ⟨none, kConnectionManagerStatusCodeSuccess⟩
    ∧ getInputOnlyConnection shadowConf shadowState
        (request 153 100 151 true kIOConnTypeMulticast 9)
        kConnectionManagerStatusCodeSuccess = some ⟨none, kConnectionManagerStatusCodeSuccess⟩
    ∧ (∃ e ∈ shadowState.g_listen_only,
        e.output_assembly = 153 ∧ e.input_assembly = 100 ∧ e.config_assembly = 151)
    ∧ GetExistingProducerMulticastConnection shadowState 100 = none
    ∧ (GetIoConnectionForConnectionData shadowConf shadowState
        (request 153 100 151 true kIOConnTypeMulticast 9)).map IoResult.outcome =
      some ⟨none, kConnectionManagerStatusCodeInvalidProducingApplicationPath⟩ := by
  refine ⟨by rfl, by rfl, by rfl, by decide, by rfl, by rfl⟩

/-- C7, amended: for every multicast request that reaches the listen-only stage, if
the first registered listen-only point whose output assembly equals the consuming
point also matches on input and config assembly and
GetExistingProducerMulticastConnection finds no connection for the producing point,
then GetIoConnectionForConnectionData returns NULL with
NonListenOnlyConnectionNotOpened, whatever the states of the point's slots. -/
theorem listen_only_without_producer (conf : UserConf) (s : State) (aConn : CipConn)
    (i : Nat) (e : ListenOnlyConnection)
    (hmc : aConn.t_to_o_ncp.ConnectionType = kIOConnTypeMulticast)
    (h1 : getExclusiveOwnerConnection s aConn kConnectionManagerStatusCodeSuccess =
      ⟨none, kConnectionManagerStatusCodeSuccess⟩)
    (h2 : getInputOnlyConnection conf s aConn kConnectionManagerStatusCodeSuccess =
      some ⟨none, kConnectionManagerStatusCodeSuccess⟩)
    (hi : s.g_listen_only[i]? = some e)
    (hout : e.output_assembly = aConn.conn_path.consuming_path.GetInstanceOrConnPt)
    (hin : e.input_assembly = aConn.conn_path.producing_path.GetInstanceOrConnPt)
    (hcfg : e.config_assembly = aConn.conn_path.config_path.GetInstanceOrConnPt)
    (hfirst : ∀ j e2, j < i → s.g_listen_only[j]? = some e2 →
      e2.output_assembly ≠ aConn.conn_path.consuming_path.GetInstanceOrConnPt)
    (hnone : GetExistingProducerMulticastConnection s
      aConn.conn_path.producing_path.GetInstanceOrConnPt = none) :
    ∃ r, GetIoConnectionForConnectionData conf s aConn = some r
      ∧ r.io_connection = none
      ∧ r.extended_error = kConnectionManagerStatusCodeNonListenOnlyConnectionNotOpened := by
  have h3 : getListenOnlyConnection conf s aConn kConnectionManagerStatusCodeSuccess =
      some ⟨none, kConnectionManagerStatusCodeNonListenOnlyConnectionNotOpened⟩ := by
    unfold getListenOnlyConnection
    rw [if_neg (not_not.mpr hmc),
      getListenOnlyConnectionFrom_first conf s aConn _ _ 0 i e hi hout hfirst,
      getListenOnlyConnectionFrom, if_pos hout, if_neg (not_not.mpr hin),
      if_neg (not_not.mpr hcfg), hnone]
    rfl
  unfold GetIoConnectionForConnectionData
  simp [h1, h2, h3, ConnectionManagerStatusCode.isZero,
    GetIoConnectionForConnectionData.finish]

/-- Witness for C7: the sample application with nothing open; all three slots of the
listen-only point (153, 100, 151) are free. -/
theorem listen_only_without_producer_witness :
    ∃ r, GetIoConnectionForConnectionData sampleConf sampleState
        (request 153 100 151 true kIOConnTypeMulticast 9) = some r
      ∧ r.io_connection = none
      ∧ r.extended_error = kConnectionManagerStatusCodeNonListenOnlyConnectionNotOpened :=
  listen_only_without_producer sampleConf sampleState
    (request 153 100 151 true kIOConnTypeMulticast 9) 0
    ⟨153, 100, 151, List.replicate 3 CipConn.fresh⟩ (by rfl) (by rfl) (by rfl) (by rfl)
    (by decide) (by decide) (by decide) (fun j _ hj => absurd hj (Nat.not_lt_zero j)) (by rfl)

/-! ### No exclusive-owner slot from the input-only and listen-only stages -/

theorem getInputOnlyConnectionFrom_not_exclusive (conf : UserConf) (aConn : CipConn)
    (err e2 : ConnectionManagerStatusCode) (l : List InputOnlyConnection) (k i : Nat)
    (h : getInputOnlyConnectionFrom conf aConn err l k =
      some ⟨some (Slot.exclusiveOwner i), e2⟩) : False := by
  induction l generalizing k with
  | nil => simp [getInputOnlyConnectionFrom] at h
  | cons e rest ih =>
    unfold getInputOnlyConnectionFrom at h
    split at h
    · split at h
      · simp at h
      · split at h
        · simp at h
        · split at h <;> simp at h
    · exact ih (k + 1) h

theorem getListenOnlyConnectionFrom_not_exclusive (conf : UserConf) (s : State)
    (aConn : CipConn) (err e3 : ConnectionManagerStatusCode) (l : List ListenOnlyConnection)
    (k i : Nat)
    (h : getListenOnlyConnectionFrom conf s aConn err l k =
      some ⟨some (Slot.exclusiveOwner i), e3⟩) : False := by
  induction l generalizing k with
  | nil => simp [getListenOnlyConnectionFrom] at h
  | cons e rest ih =>
    unfold getListenOnlyConnectionFrom at h
    split at h
    · split at h
      · simp at h
      · split at h
        · simp at h
        · split at h
          · simp at h
          · split at h <;> simp at h
    · exact ih (k + 1) h

/-! ### The scan bound of getInputOnlyConnection, the other direction -/

/-- The other direction of the wrong loop bound in getInputOnlyConnection: with one
connection per input-only path and two per listen-only path, a request for a point
whose only connection is in use makes the scan read `connection_data[1]`, past the
end of the array. -/
theorem getInputOnlyConnection_reads_past_the_array :
    fullState.WellFormed wideConf
    ∧ getInputOnlyConnection wideConf fullState
        (request 152 100 151 true kIOConnTypePointToPoint 9)
        kConnectionManagerStatusCodeSuccess = none := by
  refine ⟨by decide, by rfl⟩

/-! ### Result and error -/

theorem getExclusiveOwnerConnectionFrom_slot_error (s : State) (aConn : CipConn)
    (err : ConnectionManagerStatusCode) (l : List ExclusiveOwnerConnection) (k : Nat)
    (sl : Slot) (h : (getExclusiveOwnerConnectionFrom s aConn err l k).io_connection = some sl) :
    (getExclusiveOwnerConnectionFrom s aConn err l k).extended_error = err := by
  induction l generalizing k with
  | nil => rfl
  | cons e rest ih =>
    unfold getExclusiveOwnerConnectionFrom at h ⊢
    split
    · rename_i hm
      rw [if_pos hm] at h
      split
      · rename_i hc
        rw [if_pos hc] at h
        simp at h
      · rfl
    · rename_i hm
      rw [if_neg hm] at h
      exact ih (k + 1) h

theorem getInputOnlyConnectionFrom_slot_error (conf : UserConf) (aConn : CipConn)
    (err e2 : ConnectionManagerStatusCode) (l : List InputOnlyConnection) (k : Nat) (sl : Slot)
    (h : getInputOnlyConnectionFrom conf aConn err l k = some ⟨some sl, e2⟩) : e2 = err := by
  induction l generalizing k with
  | nil => simp [getInputOnlyConnectionFrom] at h
  | cons e rest ih =>
    unfold getInputOnlyConnectionFrom at h
    split at h
    · split at h
      · simp at h
      · split at h
        · simp at h
        · split at h
          · simp only [Option.some.injEq, StageResult.mk.injEq] at h
            exact h.2.symm
          · simp at h
          · simp at h
    · exact ih (k + 1) h

theorem getListenOnlyConnectionFrom_slot_error (conf : UserConf) (s : State) (aConn : CipConn)
    (err e3 : ConnectionManagerStatusCode) (l : List ListenOnlyConnection) (k : Nat) (sl : Slot)
    (h : getListenOnlyConnectionFrom conf s aConn err l k = some ⟨some sl, e3⟩) : e3 = err := by
  induction l generalizing k with
  | nil => simp [getListenOnlyConnectionFrom] at h
  | cons e rest ih =>
    unfold getListenOnlyConnectionFrom at h
    split at h
    · split at h
      · simp at h
      · split at h
        · simp at h
        · split at h
          · simp at h
          · split at h
            · simp only [Option.some.injEq, StageResult.mk.injEq] at h
              exact h.2.symm
            · simp at h
            · simp at h
    · exact ih (k + 1) h

theorem getListenOnlyConnection_slot_error (conf : UserConf) (s : State) (aConn : CipConn)
    (err e3 : ConnectionManagerStatusCode) (sl : Slot)
    (h : getListenOnlyConnection conf s aConn err = some ⟨some sl, e3⟩) : e3 = err := by
  unfold getListenOnlyConnection at h
  split at h
  · simp at h
  · exact getListenOnlyConnectionFrom_slot_error conf s aConn err e3 _ 0 sl h

theorem result_agrees_with_error (conf : UserConf) (s : State) (aConn : CipConn)
    (r : IoResult) (h : GetIoConnectionForConnectionData conf s aConn = some r) :
    r.io_connection = none ↔ r.extended_error ≠ kConnectionManagerStatusCodeSuccess := by
  unfold GetIoConnectionForConnectionData at h
  have hs1 := getExclusiveOwnerConnectionFrom_slot_error s aConn
    kConnectionManagerStatusCodeSuccess s.g_exclusive_owner 0
  rcases h1 : getExclusiveOwnerConnection s aConn kConnectionManagerStatusCodeSuccess
    with ⟨io1, e1⟩
  change ∀ sl, (getExclusiveOwnerConnection s aConn
    kConnectionManagerStatusCodeSuccess).io_connection = some sl →
    (getExclusiveOwnerConnection s aConn
      kConnectionManagerStatusCodeSuccess).extended_error = _ at hs1
  rw [h1] at h hs1
  cases io1 with
  | some sl1 =>
    have he1 : e1 = kConnectionManagerStatusCodeSuccess := hs1 sl1 rfl
    simp only [GetIoConnectionForConnectionData.finish, Option.some.injEq] at h
    subst h
    simp [he1]
  | none =>
    simp only at h
    by_cases he1 : kConnectionManagerStatusCodeSuccess = e1
    · subst he1
      simp only [if_true] at h
      cases h2 : getInputOnlyConnection conf s aConn kConnectionManagerStatusCodeSuccess with
      | none => rw [h2] at h; simp at h
      | some r2 =>
        rw [h2] at h
        rcases r2 with ⟨io2, e2⟩
        cases io2 with
        | some sl2 =>
          have he2 : e2 = kConnectionManagerStatusCodeSuccess :=
            getInputOnlyConnectionFrom_slot_error conf aConn _ e2 _ 0 sl2 h2
          simp only [GetIoConnectionForConnectionData.finish, Option.some.injEq] at h
          subst h
          simp [he2]
        | none =>
          simp only at h
          by_cases hz2 : e2.isZero = true
          · have he2 := (isZero_iff e2).mp hz2
            subst he2
            simp only [ConnectionManagerStatusCode.isZero, if_true] at h
            cases h3 : getListenOnlyConnection conf s aConn
                kConnectionManagerStatusCodeSuccess with
            | none => rw [h3] at h; simp at h
            | some r3 =>
              rw [h3] at h
              rcases r3 with ⟨io3, e3⟩
              cases io3 with
              | some sl3 =>
                have he3 : e3 = kConnectionManagerStatusCodeSuccess :=
                  getListenOnlyConnection_slot_error conf s aConn _ e3 sl3 h3
                simp [GetIoConnectionForConnectionData.finish] at h
                subst h
                simp [he3]
              | none =>
                cases e3 <;>
                  (simp [ConnectionManagerStatusCode.isZero,
                    GetIoConnectionForConnectionData.finish] at h
                   subst h
                   simp)
          · have hne : e2 ≠ kConnectionManagerStatusCodeSuccess :=
              fun hh => hz2 ((isZero_iff e2).mpr hh)
            rw [if_neg hz2] at h
            simp only [GetIoConnectionForConnectionData.finish, Option.some.injEq] at h
            subst h
            simp [hne]
    · have hne : e1 ≠ kConnectionManagerStatusCodeSuccess := fun hh => he1 hh.symm
      simp [he1, GetIoConnectionForConnectionData.finish] at h
      subst h
      simp [hne]

theorem scanConnectionData_in_bounds (connection_data : List CipConn) (n j : Nat)
    (h : j + n ≤ connection_data.length) :
    scanConnectionData connection_data n j ≠ ScanResult.outOfBounds := by
  induction n generalizing j with
  | zero => simp [scanConnectionData]
  | succ n ih =>
    unfold scanConnectionData
    have hj : j < connection_data.length := by omega
    rw [List.getElem?_eq_getElem hj]
    simp only
    split
    · simp
    · exact ih (j + 1) (by omega)

theorem getInputOnlyConnectionFrom_defined (conf : UserConf) (aConn : CipConn)
    (err : ConnectionManagerStatusCode) (l : List InputOnlyConnection) (k : Nat)
    (hwf : ∀ e ∈ l,
      e.connection_data.length = conf.CIPSTER_CIP_NUM_INPUT_ONLY_CONNS_PER_CON_PATH)
    (hle : conf.CIPSTER_CIP_NUM_LISTEN_ONLY_CONNS_PER_CON_PATH ≤
      conf.CIPSTER_CIP_NUM_INPUT_ONLY_CONNS_PER_CON_PATH) :
    ∃ r, getInputOnlyConnectionFrom conf aConn err l k = some r := by
  induction l generalizing k with
  | nil => exact ⟨_, rfl⟩
  | cons e rest ih =>
    unfold getInputOnlyConnectionFrom
    split
    · split
      · exact ⟨_, rfl⟩
      · split
        · exact ⟨_, rfl⟩
        · have hb := scanConnectionData_in_bounds e.connection_data
            conf.CIPSTER_CIP_NUM_LISTEN_ONLY_CONNS_PER_CON_PATH 0
            (by rw [hwf e (List.mem_cons_self _ _)]; omega)
          split
          · exact ⟨_, rfl⟩
          · exact ⟨_, rfl⟩
          · rename_i hscan
            exact absurd hscan hb
    · exact ih (k + 1) (fun e2 h2 => hwf e2 (List.mem_cons_of_mem _ h2))

theorem getListenOnlyConnectionFrom_defined (conf : UserConf) (s : State) (aConn : CipConn)
    (err : ConnectionManagerStatusCode) (l : List ListenOnlyConnection) (k : Nat)
    (hwf : ∀ e ∈ l,
      e.connection_data.length = conf.CIPSTER_CIP_NUM_LISTEN_ONLY_CONNS_PER_CON_PATH) :
    ∃ r, getListenOnlyConnectionFrom conf s aConn err l k = some r := by
  induction l generalizing k with
  | nil => exact ⟨_, rfl⟩
  | cons e rest ih =>
    unfold getListenOnlyConnectionFrom
    split
    · split
      · exact ⟨_, rfl⟩
      · split
        · exact ⟨_, rfl⟩
        · split
          · exact ⟨_, rfl⟩
          · have hb := scanConnectionData_in_bounds e.connection_data
              conf.CIPSTER_CIP_NUM_LISTEN_ONLY_CONNS_PER_CON_PATH 0
              (by rw [hwf e (List.mem_cons_self _ _)]; omega)
            split
            · exact ⟨_, rfl⟩
            · exact ⟨_, rfl⟩
            · rename_i hscan
              exact absurd hscan hb
    · exact ih (k + 1) (fun e2 h2 => hwf e2 (List.mem_cons_of_mem _ h2))

theorem GetIoConnectionForConnectionData_defined (conf : UserConf) (s : State)
    (aConn : CipConn) (hwf : s.WellFormed conf)
    (hle : conf.CIPSTER_CIP_NUM_LISTEN_ONLY_CONNS_PER_CON_PATH ≤
      conf.CIPSTER_CIP_NUM_INPUT_ONLY_CONNS_PER_CON_PATH) :
    ∃ r, GetIoConnectionForConnectionData conf s aConn = some r := by
  obtain ⟨r2, h2⟩ := getInputOnlyConnectionFrom_defined conf aConn
    kConnectionManagerStatusCodeSuccess s.g_input_only 0 hwf.1 hle
  have h3 : ∃ r3, getListenOnlyConnection conf s aConn
      kConnectionManagerStatusCodeSuccess = some r3 := by
    unfold getListenOnlyConnection
    split
    · exact ⟨_, rfl⟩
    · exact getListenOnlyConnectionFrom_defined conf s aConn _ _ 0 hwf.2
  obtain ⟨r3, h3⟩ := h3
  change getInputOnlyConnection conf s aConn kConnectionManagerStatusCodeSuccess = _ at h2
  unfold GetIoConnectionForConnectionData
  rcases h1 : getExclusiveOwnerConnection s aConn kConnectionManagerStatusCodeSuccess
    with ⟨io1, e1⟩
  cases io1 with
  | some sl1 => exact ⟨_, rfl⟩
  | none =>
    simp only
    split
    · rename_i he1
      subst he1
      rw [h2]
      simp only
      split
      · split
        · rename_i hz
          rw [(isZero_iff _).mp hz, h3]
          simp only
          split <;> exact ⟨_, rfl⟩
        · exact ⟨_, rfl⟩
      · exact ⟨_, rfl⟩
    · exact ⟨_, rfl⟩

/-- C12: result and error agree. Whenever GetIoConnectionForConnectionData returns,
it returns NULL if and only if the extended error differs from Success; and it does
return for every request in every state whose `connection_data` arrays have their
declared lengths, provided the scan bound of the input-only stage does not exceed
the length of the input-only arrays. -/
theorem result_and_error_agree (conf : UserConf) (s : State) (aConn : CipConn) :
    (s.WellFormed conf →
      conf.CIPSTER_CIP_NUM_LISTEN_ONLY_CONNS_PER_CON_PATH ≤
        conf.CIPSTER_CIP_NUM_INPUT_ONLY_CONNS_PER_CON_PATH →
      ∃ r, GetIoConnectionForConnectionData conf s aConn = some r)
    ∧ ∀ r, GetIoConnectionForConnectionData conf s aConn = some r →
        ((r.io_connection = none ↔
            r.extended_error ≠ kConnectionManagerStatusCodeSuccess)
          ∧ (r.io_connection.isSome = true →
            r.extended_error = kConnectionManagerStatusCodeSuccess)) := by
  refine ⟨GetIoConnectionForConnectionData_defined conf s aConn, ?_⟩
  intro r h
  have hiff := result_agrees_with_error conf s aConn r h
  refine ⟨hiff, ?_⟩
  intro hsome
  by_contra hne
  have := hiff.mpr hne
  rw [this] at hsome
  simp at hsome

/-- Witness for C12: the sample application, once for an accepted and once for a
rejected request. -/
theorem result_and_error_agree_witness :
    (∃ r, GetIoConnectionForConnectionData sampleConf sampleState
        (request 150 100 151 true kIOConnTypePointToPoint 7) = some r
      ∧ r.io_connection.isSome = true
      ∧ r.extended_error = kConnectionManagerStatusCodeSuccess)
    ∧ (∃ r, GetIoConnectionForConnectionData sampleConf sampleState
        (request 1 2 3 true kIOConnTypePointToPoint 7) = some r
      ∧ r.io_connection = none
      ∧ r.extended_error ≠ kConnectionManagerStatusCodeSuccess)
    ∧ (∃ r, GetIoConnectionForConnectionData sampleConf ownedState
        (request 152 100 151 true kIOConnTypePointToPoint 7) = some r) :=
  ⟨⟨_, rfl, by rfl,
      ((result_and_error_agree sampleConf sampleState
        (request 150 100 151 true kIOConnTypePointToPoint 7)).2 _ rfl).2 (by rfl)⟩,
   ⟨_, rfl, by rfl,
      ((result_and_error_agree sampleConf sampleState
        (request 1 2 3 true kIOConnTypePointToPoint 7)).2 _ rfl).1.mp (by rfl)⟩,
   (result_and_error_agree sampleConf ownedState
      (request 152 100 151 true kIOConnTypePointToPoint 7)).1 (by decide) (by decide)⟩

/-! ### Registration -/

/-- C13: each of the three Configure functions returns true exactly when its table
holds fewer entries than its capacity; when it returns true its table is the old
table with an entry for (output_assembly, input_assembly, config_assembly) appended
and nothing else changes; when it returns false nothing changes. -/
theorem Configure_connection_points (conf : UserConf) (s : State)
    (output_assembly input_assembly config_assembly : Int) :
    (((ConfigureExclusiveOwnerConnectionPoint conf s output_assembly input_assembly
          config_assembly).2 = true ↔
        s.g_exclusive_owner.length < conf.CIPSTER_CIP_NUM_EXCLUSIVE_OWNER_CONNS)
      ∧ ((ConfigureExclusiveOwnerConnectionPoint conf s output_assembly input_assembly
          config_assembly).2 = true →
        ∃ connection_data, (ConfigureExclusiveOwnerConnectionPoint conf s output_assembly
            input_assembly config_assembly).1 =
          { s with g_exclusive_owner := (s.g_exclusive_owner ++
              [⟨output_assembly, input_assembly, config_assembly, connection_data⟩]) })
      ∧ ((ConfigureExclusiveOwnerConnectionPoint conf s output_assembly input_assembly
          config_assembly).2 = false →
        (ConfigureExclusiveOwnerConnectionPoint conf s output_assembly input_assembly
          config_assembly).1 = s))
    ∧ (((ConfigureInputOnlyConnectionPoint conf s output_assembly input_assembly
          config_assembly).2 = true ↔
        s.g_input_only.length < conf.CIPSTER_CIP_NUM_INPUT_ONLY_CONNS)
      ∧ ((ConfigureInputOnlyConnectionPoint conf s output_assembly input_assembly
          config_assembly).2 = true →
        ∃ connection_data, (ConfigureInputOnlyConnectionPoint conf s output_assembly
            input_assembly config_assembly).1 =
          { s with g_input_only := (s.g_input_only ++
              [⟨output_assembly, input_assembly, config_assembly, connection_data⟩]) })
      ∧ ((ConfigureInputOnlyConnectionPoint conf s output_assembly input_assembly
          config_assembly).2 = false →
        (ConfigureInputOnlyConnectionPoint conf s output_assembly input_assembly
          config_assembly).1 = s))
    ∧ (((ConfigureListenOnlyConnectionPoint conf s output_assembly input_assembly
          config_assembly).2 = true ↔
        s.g_listen_only.length < conf.CIPSTER_CIP_NUM_LISTEN_ONLY_CONNS)
      ∧ ((ConfigureListenOnlyConnectionPoint conf s output_assembly input_assembly
          config_assembly).2 = true →
        ∃ connection_data, (ConfigureListenOnlyConnectionPoint conf s output_assembly
            input_assembly config_assembly).1 =
          { s with g_listen_only := (s.g_listen_only ++
              [⟨output_assembly, input_assembly, config_assembly, connection_data⟩]) })
      ∧ ((ConfigureListenOnlyConnectionPoint conf s output_assembly input_assembly
          config_assembly).2 = false →
        (ConfigureListenOnlyConnectionPoint conf s output_assembly input_assembly
          config_assembly).1 = s)) := by
  refine ⟨⟨?_, ?_, ?_⟩, ⟨?_, ?_, ?_⟩, ⟨?_, ?_, ?_⟩⟩
  · unfold ConfigureExclusiveOwnerConnectionPoint; split <;> simp [*]
  · unfold ConfigureExclusiveOwnerConnectionPoint
    split
    · intro _; exact ⟨_, rfl⟩
    · intro h; simp at h
  · unfold ConfigureExclusiveOwnerConnectionPoint; split <;> simp
  · unfold ConfigureInputOnlyConnectionPoint; split <;> simp [*]
  · unfold ConfigureInputOnlyConnectionPoint
    split
    · intro _; exact ⟨_, rfl⟩
    · intro h; simp at h
  · unfold ConfigureInputOnlyConnectionPoint; split <;> simp
  · unfold ConfigureListenOnlyConnectionPoint; split <;> simp [*]
  · unfold ConfigureListenOnlyConnectionPoint
    split
    · intro _; exact ⟨_, rfl⟩
    · intro h; simp at h
  · unfold ConfigureListenOnlyConnectionPoint; split <;> simp

/-- Witness for C13: with room for one input-only point, the first registration on
empty tables succeeds and appends (152, 100, 151); a second one is refused and
leaves the state as it is. -/
theorem Configure_connection_points_witness :
    (∃ connection_data,
      (ConfigureInputOnlyConnectionPoint sampleConf State.empty 152 100 151).1 =
        { State.empty with g_input_only := (State.empty.g_input_only ++
            [⟨152, 100, 151, connection_data⟩]) })
    ∧ (ConfigureInputOnlyConnectionPoint sampleConf sampleState 152 100 7).1 = sampleState :=
  ⟨(Configure_connection_points sampleConf State.empty 152 100 151).2.1.2.1 (by rfl),
   (Configure_connection_points sampleConf sampleState 152 100 7).2.1.2.2 (by rfl)⟩

/-! ### Closing connections while walking the active list -/

theorem derefNode_append (kept rest : List ActiveNode) (n : ActiveNode)
    (hk : ∀ m ∈ kept, m.addr ≠ n.addr) :
    derefNode n.addr (kept ++ n :: rest) = some n := by
  induction kept with
  | nil => simp [derefNode]
  | cons k kept ih =>
    have hka : k.addr ≠ n.addr := hk k (List.mem_cons_self _ _)
    simp only [List.cons_append, derefNode, if_neg hka]
    exact ih (fun m hm => hk m (List.mem_cons_of_mem _ hm))

theorem nextOf_append (kept rest : List ActiveNode) (n : ActiveNode)
    (hk : ∀ m ∈ kept, m.addr ≠ n.addr) :
    nextOf n.addr (kept ++ n :: rest) = headOf rest := by
  induction kept with
  | nil => simp [nextOf, headOf]
  | cons k kept ih =>
    have hka : k.addr ≠ n.addr := hk k (List.mem_cons_self _ _)
    simp only [List.cons_append, nextOf, if_neg hka]
    exact ih (fun m hm => hk m (List.mem_cons_of_mem _ hm))

theorem unlink_append (kept rest : List ActiveNode) (n : ActiveNode)
    (hk : ∀ m ∈ kept, m.addr ≠ n.addr) (hr : ∀ m ∈ rest, m.addr ≠ n.addr) :
    unlink n.addr (kept ++ n :: rest) = kept ++ rest := by
  unfold unlink
  rw [List.filter_append, List.filter_cons]
  have h1 : kept.filter (fun m => decide (m.addr ≠ n.addr)) = kept :=
    List.filter_eq_self.mpr (fun m hm => by simpa using hk m hm)
  have h2 : rest.filter (fun m => decide (m.addr ≠ n.addr)) = rest :=
    List.filter_eq_self.mpr (fun m hm => by simpa using hr m hm)
  rw [h1, h2]
  simp

theorem nodup_split (kept rest : List ActiveNode) (n : ActiveNode)
    (hnd : ((kept ++ n :: rest).map (fun m => m.addr)).Nodup) :
    (∀ m ∈ kept, m.addr ≠ n.addr) ∧ (∀ m ∈ rest, m.addr ≠ n.addr) := by
  rw [List.map_append, List.map_cons, List.nodup_append] at hnd
  obtain ⟨_, hcons, hdisj⟩ := hnd
  rw [List.nodup_cons] at hcons
  constructor
  · intro m hm heq
    exact hdisj (List.mem_map_of_mem _ hm) (by rw [heq]; exact List.mem_cons_self _ _)
  · intro m hm heq
    exact hcons.1 (by rw [← heq]; exact List.mem_map_of_mem _ hm)

theorem filter_decide_cons_pos {α : Type} (q : α → Prop) [DecidablePred q] (x : α)
    (xs : List α) (h : q x) :
    List.filter (fun m => decide (q m)) (x :: xs) = x :: List.filter (fun m => decide (q m)) xs := by
  simp [List.filter_cons, h]

theorem filter_decide_cons_neg {α : Type} (q : α → Prop) [DecidablePred q] (x : α)
    (xs : List α) (h : ¬ q x) :
    List.filter (fun m => decide (q m)) (x :: xs) = List.filter (fun m => decide (q m)) xs := by
  simp [List.filter_cons, h]

theorem CloseAllConnectionsForInputWithSameType_loop_spec
    (close : ActiveNode → List ActiveNode → List ActiveNode)
    (hclose : ∀ n l, close n l = unlink n.addr l)
    (input_point : Int) (instance_type : ConnInstanceType) (suffix : List ActiveNode) :
    ∀ (kept : List ActiveNode) (fuel : Nat) (events : List CheckIoConnectionEventCall)
      (visited : List Nat) (calls : List TraversalCall),
      ((kept ++ suffix).map (fun m => m.addr)).Nodup → suffix.length ≤ fuel →
      CloseAllConnectionsForInputWithSameType.loop close input_point instance_type fuel
          (kept ++ suffix) (headOf suffix) events visited calls =
        some ⟨kept ++ suffix.filter (fun n =>
            ¬ SameTypeAndInputTest input_point instance_type n),
          events ++ (suffix.filter (fun n =>
              SameTypeAndInputTest input_point instance_type n)).map
            (fun n => ⟨n.conn.conn_path.consuming_path.GetInstanceOrConnPt,
              n.conn.conn_path.producing_path.GetInstanceOrConnPt,
              IoConnectionEvent.kIoConnectionEventClosed⟩),
          visited ++ suffix.map (fun m => m.addr),
          calls ++ (suffix.filter (fun n =>
              SameTypeAndInputTest input_point instance_type n)).flatMap
            (fun n => [TraversalCall.checkIoConnectionEvent
                ⟨n.conn.conn_path.consuming_path.GetInstanceOrConnPt,
                  n.conn.conn_path.producing_path.GetInstanceOrConnPt,
                  IoConnectionEvent.kIoConnectionEventClosed⟩,
              TraversalCall.connectionCloseFunction n.addr])⟩ := by
  induction suffix with
  | nil =>
    intro kept fuel events visited calls _ _
    cases fuel <;> simp [CloseAllConnectionsForInputWithSameType.loop, headOf]
  | cons n rest ih =>
    intro kept fuel events visited calls hnd hfuel
    obtain ⟨hk, hr⟩ := nodup_split kept rest n hnd
    cases fuel with
    | zero => simp at hfuel
    | succ fuel =>
      have hfuel2 : rest.length ≤ fuel := by simpa using hfuel
      have hhead : headOf (n :: rest) = some n.addr := rfl
      rw [hhead]
      unfold CloseAllConnectionsForInputWithSameType.loop
      rw [derefNode_append kept rest n hk]
      simp only
      by_cases hm : SameTypeAndInputTest input_point instance_type n
      · have hm2 : instance_type = n.conn.instance_type
            ∧ EipUint32.ofInt input_point =
                EipUint32.ofInt n.conn.conn_path.producing_path.GetInstanceOrConnPt := hm
        rw [if_pos hm2, hclose, unlink_append kept rest n hk hr, nextOf_append kept rest n hk]
        have hnd2 : ((kept ++ rest).map (fun m => m.addr)).Nodup := by
          have hsub : (kept ++ rest).Sublist (kept ++ n :: rest) :=
            List.Sublist.append_left (List.sublist_cons_self n rest) kept
          exact List.Nodup.sublist (hsub.map _) hnd
        rw [ih kept fuel _ _ _ hnd2 hfuel2]
        rw [filter_decide_cons_neg (fun m : ActiveNode =>
              ¬ SameTypeAndInputTest input_point instance_type m)
            n rest (not_not.mpr hm),
          filter_decide_cons_pos (fun m : ActiveNode =>
              SameTypeAndInputTest input_point instance_type m)
            n rest hm]
        simp
      · have hm2 : ¬ (instance_type = n.conn.instance_type
            ∧ EipUint32.ofInt input_point =
                EipUint32.ofInt n.conn.conn_path.producing_path.GetInstanceOrConnPt) := hm
        rw [if_neg hm2, nextOf_append kept rest n hk]
        have hre : kept ++ n :: rest = (kept ++ [n]) ++ rest := by simp
        rw [hre] at hnd ⊢
        rw [ih (kept ++ [n]) fuel _ _ _ hnd hfuel2]
        rw [filter_decide_cons_pos (fun m : ActiveNode =>
              ¬ SameTypeAndInputTest input_point instance_type m)
            n rest hm,
          filter_decide_cons_neg (fun m : ActiveNode =>
              SameTypeAndInputTest input_point instance_type m)
            n rest hm]
        simp

theorem SameTypeAndInputTest_iff (p : Int) (t : ConnInstanceType) (n : ActiveNode)
    (hp0 : 0 ≤ p) (hp : p < 4294967296)
    (hx : IsInt n.conn.conn_path.producing_path.GetInstanceOrConnPt) :
    SameTypeAndInputTest p t n ↔
      n.conn.instance_type = t
      ∧ (n.conn.conn_path.producing_path.GetInstanceOrConnPt = p
        ∨ n.conn.conn_path.producing_path.GetInstanceOrConnPt + 4294967296 = p) := by
  unfold SameTypeAndInputTest
  rw [EipUint32.ofInt_eq_iff p _ hp0 hp hx]
  exact ⟨fun h => ⟨h.1.symm, h.2⟩, fun h => ⟨h.1.symm, h.2⟩⟩

theorem SameTypeAndInputTest_iff_of_lt (p : Int) (t : ConnInstanceType) (n : ActiveNode)
    (hp0 : 0 ≤ p) (hp : p < 2147483648)
    (hx : IsInt n.conn.conn_path.producing_path.GetInstanceOrConnPt) :
    SameTypeAndInputTest p t n ↔ HasTypeAndInput p t n := by
  unfold SameTypeAndInputTest HasTypeAndInput
  rw [EipUint32.ofInt_eq_iff_of_lt p _ hp0 hp hx]
  exact ⟨fun h => ⟨h.1.symm, h.2⟩, fun h => ⟨h.1.symm, h.2⟩⟩

/-- C18, as stated, fails for an input point of 2^31 or more: with input point
4294967295 the listen-only connection at address 10, whose producing point is the
`int` -1, is closed and unlinked, although no connection of the list has producing
point 4294967295, so that the claim has both connections kept. -/
theorem list_integrity_unsigned_counterexample :
    ∃ r, CloseAllConnectionsForInputWithSameType (fun n l => unlink n.addr l) 4294967295
          kConnInstanceTypeIoListenOnly 2 negativePointNodes = some r
      ∧ r.active.map (fun m => m.addr) = [20]
      ∧ (negativePointNodes.filter (fun n =>
          ¬ HasTypeAndInput 4294967295 kConnInstanceTypeIoListenOnly n)).map
            (fun m => m.addr) = [10, 20] :=
  ⟨_, rfl, by rfl, by decide⟩

/-- C18, amended: if every close function unlinks exactly the connection it is called
on, then on an active list of distinct connection objects
CloseAllConnectionsForInputWithSameType ends (any fuel of at least the length of the
list is enough), the list it leaves is the original one without the connections that
have the given instance type and a producing point equal to `p` after conversion to
EipUint32, the others in their original order, and the loop body ran on every
connection of the original list once, in list order. For an EipUint32 `p` and an
`int` producing point x, equal after conversion means x = p or x + 2^32 = p; for `p`
below 2^31 it means x = p, as stated. -/
theorem CloseAllConnectionsForInputWithSameType_list_integrity
    (close : ActiveNode → List ActiveNode → List ActiveNode)
    (hclose : ∀ n l, close n l = unlink n.addr l)
    (input_point : Int) (instance_type : ConnInstanceType) (list : List ActiveNode)
    (hnd : (list.map (fun m => m.addr)).Nodup) (fuel : Nat) (hfuel : list.length ≤ fuel) :
    (∃ r, CloseAllConnectionsForInputWithSameType close input_point instance_type fuel
          list = some r
      ∧ r.active = list.filter (fun n =>
          ¬ SameTypeAndInputTest input_point instance_type n)
      ∧ r.visited = list.map (fun m => m.addr))
    ∧ (∀ n : ActiveNode, 0 ≤ input_point → input_point < 4294967296 →
        IsInt n.conn.conn_path.producing_path.GetInstanceOrConnPt →
        (SameTypeAndInputTest input_point instance_type n ↔
          n.conn.instance_type = instance_type
          ∧ (n.conn.conn_path.producing_path.GetInstanceOrConnPt = input_point
            ∨ n.conn.conn_path.producing_path.GetInstanceOrConnPt + 4294967296 =
                input_point)))
    ∧ (∀ n : ActiveNode, 0 ≤ input_point → input_point < 2147483648 →
        IsInt n.conn.conn_path.producing_path.GetInstanceOrConnPt →
        (SameTypeAndInputTest input_point instance_type n ↔
          HasTypeAndInput input_point instance_type n)) := by
  have h := CloseAllConnectionsForInputWithSameType_loop_spec close hclose input_point
    instance_type list [] fuel [] [] [] (by simpa using hnd) hfuel
  simp only [List.nil_append] at h
  exact ⟨⟨_, h, rfl, rfl⟩,
    fun n hp0 hp hx => SameTypeAndInputTest_iff input_point instance_type n hp0 hp hx,
    fun n hp0 hp hx => SameTypeAndInputTest_iff_of_lt input_point instance_type n hp0 hp hx⟩

/-- Witness for C18: closing the listen-only connections for input assembly 100 in
`sampleNodes` leaves the connections at addresses 20 and 40. -/
theorem CloseAllConnectionsForInputWithSameType_list_integrity_witness :
    ∃ r, CloseAllConnectionsForInputWithSameType (fun n l => unlink n.addr l) 100
          kConnInstanceTypeIoListenOnly 4 sampleNodes = some r
      ∧ r.active = sampleNodes.filter (fun n =>
          ¬ SameTypeAndInputTest 100 kConnInstanceTypeIoListenOnly n)
      ∧ r.visited = sampleNodes.map (fun m => m.addr) :=
  (CloseAllConnectionsForInputWithSameType_list_integrity (fun n l => unlink n.addr l)
    (fun _ _ => rfl) 100 kConnInstanceTypeIoListenOnly sampleNodes (by decide) 4
    (by decide)).1

theorem CloseAllConnections_loop_spec
    (close : ActiveNode → List ActiveNode → List ActiveNode)
    (hclose : ∀ n l, close n l = unlink n.addr l) (list : List ActiveNode) :
    ∀ (fuel : Nat) (closed : List Nat),
      (list.map (fun m => m.addr)).Nodup → list.length ≤ fuel →
      CloseAllConnections.loop close fuel list (headOf list) closed =
        some ([], closed ++ list.map (fun m => m.addr)) := by
  induction list with
  | nil =>
    intro fuel closed _ _
    cases fuel <;> simp [CloseAllConnections.loop, headOf]
  | cons n rest ih =>
    intro fuel closed hnd hfuel
    obtain ⟨hk, hr⟩ := nodup_split [] rest n (by simpa using hnd)
    cases fuel with
    | zero => simp at hfuel
    | succ fuel =>
      have hfuel2 : rest.length ≤ fuel := by simpa using hfuel
      have hhead : headOf (n :: rest) = some n.addr := rfl
      have hd : derefNode n.addr (n :: rest) = some n := derefNode_append [] rest n hk
      have hu : unlink n.addr (n :: rest) = rest := unlink_append [] rest n hk hr
      have hnd2 : (rest.map (fun m => m.addr)).Nodup := by
        rw [List.map_cons, List.nodup_cons] at hnd
        exact hnd.2
      rw [hhead]
      unfold CloseAllConnections.loop
      rw [hd]
      simp only
      rw [hclose, hu, ih fuel _ hnd2 hfuel2]
      simp

/-- C19: if CloseConnection removes the connection it is called on and nothing else,
then on every active list of distinct connection objects CloseAllConnections ends
(any fuel of at least the length of the list is enough), CloseConnection has been
called once on each connection of the original list, head first, and the list is
empty afterwards. -/
theorem CloseAllConnections_closes_all
    (close : ActiveNode → List ActiveNode → List ActiveNode)
    (hclose : ∀ n l, close n l = unlink n.addr l) (list : List ActiveNode)
    (hnd : (list.map (fun m => m.addr)).Nodup) (fuel : Nat) (hfuel : list.length ≤ fuel) :
    CloseAllConnections close fuel list = some ([], list.map (fun m => m.addr)) := by
  have h := CloseAllConnections_loop_spec close hclose list fuel [] hnd hfuel
  simpa [CloseAllConnections] using h

/-- Witness for C19: the four connections of `sampleNodes` are closed in the order
10, 20, 30, 40. -/
theorem CloseAllConnections_closes_all_witness :
    CloseAllConnections (fun n l => unlink n.addr l) 4 sampleNodes =
      some ([], [10, 20, 30, 40]) :=
  CloseAllConnections_closes_all (fun n l => unlink n.addr l) (fun _ _ => rfl) sampleNodes
    (by decide) 4 (by decide)

/-! ### Lookups in the active list -/

theorem firstPositionFrom_eq_some_iff (P : CipConn → Prop) [DecidablePred P]
    (l : List CipConn) (pos k : Nat) :
    firstPositionFrom P l pos = some k ↔
      ∃ i c, k = pos + i ∧ l[i]? = some c ∧ P c
        ∧ ∀ j c2, j < i → l[j]? = some c2 → ¬ P c2 := by
  induction l generalizing pos with
  | nil => simp [firstPositionFrom]
  | cons c0 rest ih =>
    unfold firstPositionFrom
    by_cases h0 : P c0
    · rw [if_pos h0]
      constructor
      · intro h
        simp only [Option.some.injEq] at h
        exact ⟨0, c0, by omega, by simp, h0, fun j _ hj => absurd hj (Nat.not_lt_zero j)⟩
      · rintro ⟨i, c, hk, hi, hP, hfirst⟩
        cases i with
        | zero => simp [hk]
        | succ n => exact absurd h0 (hfirst 0 c0 (Nat.succ_pos n) (by simp))
    · rw [if_neg h0, ih (pos + 1)]
      constructor
      · rintro ⟨i, c, hk, hi, hP, hfirst⟩
        refine ⟨i + 1, c, by omega, by simpa using hi, hP, ?_⟩
        intro j c2 hj hj2
        cases j with
        | zero =>
          simp only [List.getElem?_cons_zero, Option.some.injEq] at hj2
          subst hj2
          exact h0
        | succ m => exact hfirst m c2 (by omega) (by simpa using hj2)
      · rintro ⟨i, c, hk, hi, hP, hfirst⟩
        cases i with
        | zero =>
          simp only [List.getElem?_cons_zero, Option.some.injEq] at hi
          subst hi
          exact absurd hP h0
        | succ n =>
          refine ⟨n, c, by omega, by simpa using hi, hP, ?_⟩
          intro j c2 hj hj2
          exact hfirst (j + 1) c2 (by omega) (by simpa using hj2)

theorem firstPositionFrom_eq_none_iff (P : CipConn → Prop) [DecidablePred P]
    (l : List CipConn) (pos : Nat) :
    firstPositionFrom P l pos = none ↔ ∀ c ∈ l, ¬ P c := by
  induction l generalizing pos with
  | nil => simp [firstPositionFrom]
  | cons c0 rest ih =>
    unfold firstPositionFrom
    by_cases h0 : P c0
    · rw [if_pos h0]
      constructor
      · intro h; simp at h
      · intro h; exact absurd h0 (h c0 (List.mem_cons_self _ _))
    · rw [if_neg h0, ih (pos + 1)]
      simp [h0]

theorem GetExistingProducerMulticastConnectionFrom_eq (p : Int) (l : List CipConn)
    (pos : Nat) :
    GetExistingProducerMulticastConnectionFrom p l pos =
      firstPositionFrom (ProducerMasterTest p) l pos := by
  induction l generalizing pos with
  | nil => rfl
  | cons c rest ih =>
    unfold GetExistingProducerMulticastConnectionFrom firstPositionFrom
    rw [ih (pos + 1)]
    rfl

theorem GetNextNonControlMasterConnectionFrom_eq (p : Int) (l : List CipConn) (pos : Nat) :
    GetNextNonControlMasterConnectionFrom p l pos =
      firstPositionFrom (NonControlMasterTest p) l pos := by
  induction l generalizing pos with
  | nil => rfl
  | cons c rest ih =>
    unfold GetNextNonControlMasterConnectionFrom firstPositionFrom
    rw [ih (pos + 1)]
    rfl

theorem firstPosition_at (P : CipConn → Prop) [DecidablePred P] (l : List CipConn)
    (k : Nat) :
    firstPositionFrom P l 0 = some k ↔
      ∃ c, l[k]? = some c ∧ P c ∧ ∀ j c2, j < k → l[j]? = some c2 → ¬ P c2 := by
  rw [firstPositionFrom_eq_some_iff]
  constructor
  · rintro ⟨i, c, hk, hi, hP, hfirst⟩
    have hki : k = i := by omega
    subst hki
    exact ⟨c, hi, hP, hfirst⟩
  · rintro ⟨c, hi, hP, hfirst⟩
    exact ⟨k, c, by omega, hi, hP, hfirst⟩

/-- C16, as stated, fails for an input point of 2^31 or more: for the EipUint32
4294967295 the lookup returns the head of the active list, whose producing point is
the `int` -1, although no connection of the list has a producing point equal to
4294967295. -/
theorem producer_master_unsigned_counterexample :
    GetExistingProducerMulticastConnection negativePointState 4294967295 = some 0
    ∧ ∀ c ∈ negativePointState.g_active_connection_list,
        c.conn_path.producing_path.GetInstanceOrConnPt = -1
        ∧ ¬ IsProducerMaster 4294967295 c := by
  refine ⟨by rfl, by decide⟩

/-- C16, amended: GetExistingProducerMulticastConnection returns the first connection
in active-list order that has instance type IoExclusiveOwner or IoInputOnly, a
producing point equal to `p` after conversion to EipUint32, T->O connection type
Multicast and a producing socket other than kEipInvalidSocket; it returns NULL if
and only if no connection in the active list satisfies the four conditions. For an
EipUint32 `p` and an `int` producing point x, equal after conversion means x = p or
x + 2^32 = p; for `p` below 2^31 it means x = p, the four conditions as stated. -/
theorem GetExistingProducerMulticastConnection_first_master (s : State) (p : Int) :
    (∀ k, GetExistingProducerMulticastConnection s p = some k ↔
      ∃ c, s.g_active_connection_list[k]? = some c ∧ ProducerMasterTest p c
        ∧ ∀ j c2, j < k → s.g_active_connection_list[j]? = some c2 →
            ¬ ProducerMasterTest p c2)
    ∧ (GetExistingProducerMulticastConnection s p = none ↔
      ∀ c ∈ s.g_active_connection_list, ¬ ProducerMasterTest p c)
    ∧ (∀ c : CipConn, 0 ≤ p → p < 4294967296 →
        IsInt c.conn_path.producing_path.GetInstanceOrConnPt →
        (ProducerMasterTest p c ↔
          (c.instance_type = kConnInstanceTypeIoExclusiveOwner
            ∨ c.instance_type = kConnInstanceTypeIoInputOnly)
          ∧ (c.conn_path.producing_path.GetInstanceOrConnPt = p
            ∨ c.conn_path.producing_path.GetInstanceOrConnPt + 4294967296 = p)
          ∧ c.t_to_o_ncp.ConnectionType = kIOConnTypeMulticast
          ∧ c.producing_socket ≠ kEipInvalidSocket))
    ∧ (∀ c : CipConn, 0 ≤ p → p < 2147483648 →
        IsInt c.conn_path.producing_path.GetInstanceOrConnPt →
        (ProducerMasterTest p c ↔ IsProducerMaster p c)) := by
  refine ⟨fun k => ?_, ?_, ?_, ?_⟩
  · unfold GetExistingProducerMulticastConnection
    rw [GetExistingProducerMulticastConnectionFrom_eq]
    exact firstPosition_at _ _ k
  · unfold GetExistingProducerMulticastConnection
    rw [GetExistingProducerMulticastConnectionFrom_eq]
    exact firstPositionFrom_eq_none_iff _ _ 0
  · intro c hp0 hp hx
    unfold ProducerMasterTest
    rw [EipUint32.ofInt_eq_iff p _ hp0 hp hx]
    constructor
    · rintro ⟨h1, h2, h3, h4⟩
      exact ⟨h1, h2, h3, fun h => h4 h.symm⟩
    · rintro ⟨h1, h2, h3, h4⟩
      exact ⟨h1, h2, h3, fun h => h4 h.symm⟩
  · intro c hp0 hp hx
    unfold ProducerMasterTest IsProducerMaster
    rw [EipUint32.ofInt_eq_iff_of_lt p _ hp0 hp hx]
    constructor
    · rintro ⟨h1, h2, h3, h4⟩
      exact ⟨h1, h2, h3, fun h => h4 h.symm⟩
    · rintro ⟨h1, h2, h3, h4⟩
      exact ⟨h1, h2, h3, fun h => h4 h.symm⟩

/-- Witness for C16: in `sharedProducerState` the head of the active list shares the
socket and is passed over; the exclusive owner at position 1 is the master. -/
theorem GetExistingProducerMulticastConnection_first_master_witness :
    ∃ c, sharedProducerState.g_active_connection_list[1]? = some c
      ∧ ProducerMasterTest 100 c
      ∧ ∀ j c2, j < 1 → sharedProducerState.g_active_connection_list[j]? = some c2 →
          ¬ ProducerMasterTest 100 c2 :=
  ((GetExistingProducerMulticastConnection_first_master sharedProducerState 100).1 1).mp
    (by rfl)

/-- C17, as stated, fails for an input point of 2^31 or more: for the EipUint32
4294967295 the lookup returns the connection at position 1, whose producing point is
the `int` -1, although no connection of the list has a producing point equal to
4294967295. -/
theorem non_master_unsigned_counterexample :
    GetNextNonControlMasterConnection negativePointState 4294967295 = some 1
    ∧ ∀ c ∈ negativePointState.g_active_connection_list,
        c.conn_path.producing_path.GetInstanceOrConnPt = -1
        ∧ ¬ IsNonControlMaster 4294967295 c := by
  refine ⟨by rfl, by decide⟩

/-- C17, amended: GetNextNonControlMasterConnection returns the first connection in
active-list order that has instance type IoExclusiveOwner or IoInputOnly, a
producing point equal to `p` after conversion to EipUint32, T->O connection type
Multicast and producing socket kEipInvalidSocket; it returns NULL if and only if the
active list holds no such connection. For an EipUint32 `p` and an `int` producing
point x, equal after conversion means x = p or x + 2^32 = p; for `p` below 2^31 it
means x = p, the conditions as stated. -/
theorem GetNextNonControlMasterConnection_first_non_master (s : State) (p : Int) :
    (∀ k, GetNextNonControlMasterConnection s p = some k ↔
      ∃ c, s.g_active_connection_list[k]? = some c ∧ NonControlMasterTest p c
        ∧ ∀ j c2, j < k → s.g_active_connection_list[j]? = some c2 →
            ¬ NonControlMasterTest p c2)
    ∧ (GetNextNonControlMasterConnection s p = none ↔
      ∀ c ∈ s.g_active_connection_list, ¬ NonControlMasterTest p c)
    ∧ (∀ c : CipConn, 0 ≤ p → p < 4294967296 →
        IsInt c.conn_path.producing_path.GetInstanceOrConnPt →
        (NonControlMasterTest p c ↔
          (c.instance_type = kConnInstanceTypeIoExclusiveOwner
            ∨ c.instance_type = kConnInstanceTypeIoInputOnly)
          ∧ (c.conn_path.producing_path.GetInstanceOrConnPt = p
            ∨ c.conn_path.producing_path.GetInstanceOrConnPt + 4294967296 = p)
          ∧ c.t_to_o_ncp.ConnectionType = kIOConnTypeMulticast
          ∧ c.producing_socket = kEipInvalidSocket))
    ∧ (∀ c : CipConn, 0 ≤ p → p < 2147483648 →
        IsInt c.conn_path.producing_path.GetInstanceOrConnPt →
        (NonControlMasterTest p c ↔ IsNonControlMaster p c)) := by
  refine ⟨fun k => ?_, ?_, ?_, ?_⟩
  · unfold GetNextNonControlMasterConnection
    rw [GetNextNonControlMasterConnectionFrom_eq]
    exact firstPosition_at _ _ k
  · unfold GetNextNonControlMasterConnection
    rw [GetNextNonControlMasterConnectionFrom_eq]
    exact firstPositionFrom_eq_none_iff _ _ 0
  · intro c hp0 hp hx
    unfold NonControlMasterTest
    rw [EipUint32.ofInt_eq_iff p _ hp0 hp hx]
  · intro c hp0 hp hx
    unfold NonControlMasterTest IsNonControlMaster
    rw [EipUint32.ofInt_eq_iff_of_lt p _ hp0 hp hx]

/-- Witness for C17: in `sharedProducerState` the input-only connection at the head
of the active list is the first non-master for input assembly 100, and there is none
for input assembly 101. -/
theorem GetNextNonControlMasterConnection_first_non_master_witness :
    (∃ c, sharedProducerState.g_active_connection_list[0]? = some c
      ∧ NonControlMasterTest 100 c
      ∧ ∀ j c2, j < 0 → sharedProducerState.g_active_connection_list[j]? = some c2 →
          ¬ NonControlMasterTest 100 c2)
    ∧ ∀ c ∈ sharedProducerState.g_active_connection_list, ¬ NonControlMasterTest 101 c :=
  ⟨((GetNextNonControlMasterConnection_first_non_master sharedProducerState 100).1 0).mp
      (by rfl),
   (GetNextNonControlMasterConnection_first_non_master sharedProducerState 101).2.1.mp
      (by rfl)⟩

/-! ### Listen-only grants -/

/-- C8, as stated, fails in its last two conditions. In `establishedMasterState` a
multicast request for the listen-only point (153, 100, 151) whose producing path reports 100
and differs from the producing path of the exclusive owner gets a slot as
IoListenOnly, although no active connection has a producing path equal to the one of
the request: the lookup compares the numbers that GetInstanceOrConnPt() reports. In
`staleMasterState` the request gets a slot as IoListenOnly although no active
connection is Established: the lookup does not read `state`. -/
theorem listen_only_grant_counterexample :
    ((GetIoConnectionForConnectionData sampleConf establishedMasterState
          { request 153 100 151 true kIOConnTypeMulticast 9 with
            conn_path := { consuming_path := ⟨153, true⟩, producing_path := ⟨100, false⟩,
                           config_path := ⟨151, true⟩ } }).map
        (fun r => (r.io_connection, r.aConn.instance_type)) =
        some (some (Slot.listenOnly 0 0), kConnInstanceTypeIoListenOnly)
      ∧ ∀ M ∈ establishedMasterState.g_active_connection_list,
          M.conn_path.producing_path ≠ (⟨100, false⟩ : CipAppPath))
    ∧ ((GetIoConnectionForConnectionData sampleConf staleMasterState
          (request 153 100 151 true kIOConnTypeMulticast 9)).map
        (fun r => (r.io_connection, r.aConn.instance_type)) =
        some (some (Slot.listenOnly 0 0), kConnInstanceTypeIoListenOnly)
      ∧ ∀ M ∈ staleMasterState.g_active_connection_list,
          M.state ≠ kConnectionStateEstablished) := by
  refine ⟨⟨by rfl, by decide⟩, ⟨by rfl, by decide⟩⟩

/-- C8, amended: whenever GetIoConnectionForConnectionData returns a slot with the
request typed IoListenOnly, the T->O connection type of the request is Multicast and
GetExistingProducerMulticastConnection finds a connection M in the active list for
the producing point of the request: M is an exclusive-owner or input-only
connection, GetInstanceOrConnPt() of its producing path equals, after conversion to
EipUint32, that of the producing path of the request (so the two `int` values are
equal), its T->O connection type is Multicast and it owns a producing socket.
Nothing else of the two producing paths is compared, and `M.state` is not read: M
is Established when every connection of the active list is. -/
theorem listen_only_grant (conf : UserConf) (s : State) (aConn : CipConn) (r : IoResult)
    (sl : Slot)
    (hget : GetIoConnectionForConnectionData conf s aConn = some r)
    (hsl : r.io_connection = some sl)
    (hty : r.aConn.instance_type = kConnInstanceTypeIoListenOnly) :
    aConn.t_to_o_ncp.ConnectionType = kIOConnTypeMulticast
    ∧ ∃ k M, GetExistingProducerMulticastConnection s
          aConn.conn_path.producing_path.GetInstanceOrConnPt = some k
        ∧ s.g_active_connection_list[k]? = some M
        ∧ (M.instance_type = kConnInstanceTypeIoExclusiveOwner
          ∨ M.instance_type = kConnInstanceTypeIoInputOnly)
        ∧ EipUint32.ofInt M.conn_path.producing_path.GetInstanceOrConnPt =
            EipUint32.ofInt aConn.conn_path.producing_path.GetInstanceOrConnPt
        ∧ (IsInt M.conn_path.producing_path.GetInstanceOrConnPt →
            IsInt aConn.conn_path.producing_path.GetInstanceOrConnPt →
            M.conn_path.producing_path.GetInstanceOrConnPt =
              aConn.conn_path.producing_path.GetInstanceOrConnPt)
        ∧ M.t_to_o_ncp.ConnectionType = kIOConnTypeMulticast
        ∧ M.producing_socket ≠ kEipInvalidSocket
        ∧ ((∀ c ∈ s.g_active_connection_list, c.state = kConnectionStateEstablished) →
            M.state = kConnectionStateEstablished) := by
  rcases GetIoConnectionForConnectionData_slot_cases conf s aConn r sl hget hsl with
    hcase | hcase | hcase
  · rw [hcase.2] at hty; simp at hty
  · rw [hcase.2] at hty; simp at hty
  · obtain ⟨⟨e3, h3⟩, _⟩ := hcase
    obtain ⟨hmc, hprod⟩ := getListenOnlyConnection_slot conf s aConn _ e3 sl h3
    refine ⟨hmc, ?_⟩
    obtain ⟨k, hk⟩ := Option.isSome_iff_exists.mp hprod
    have hk2 := hk
    unfold GetExistingProducerMulticastConnection at hk2
    rw [GetExistingProducerMulticastConnectionFrom_eq] at hk2
    obtain ⟨M, hM, ⟨hMty, hMp, hMmc, hMsock⟩, _⟩ := (firstPosition_at _ _ k).mp hk2
    exact ⟨k, M, hk, hM, hMty, hMp.symm,
      fun hx hy => (EipUint32.ofInt_inj _ _ hx hy).mp hMp.symm, hMmc,
      fun h => hMsock h.symm, fun hall => hall M (List.getElem?_mem hM)⟩

/-- Witness for C8: with the exclusive owner of the sample application in the active list,
a multicast request for the listen-only point (153, 100, 151) gets slot 0; the
exclusive owner at the head of the active list is the producer master. -/
theorem listen_only_grant_witness :
    (request 153 100 151 true kIOConnTypeMulticast 9).t_to_o_ncp.ConnectionType =
      kIOConnTypeMulticast
    ∧ ∃ k M, GetExistingProducerMulticastConnection establishedMasterState
          (request 153 100 151 true kIOConnTypeMulticast 9).conn_path.producing_path.GetInstanceOrConnPt
            = some k
        ∧ establishedMasterState.g_active_connection_list[k]? = some M
        ∧ (M.instance_type = kConnInstanceTypeIoExclusiveOwner
          ∨ M.instance_type = kConnInstanceTypeIoInputOnly)
        ∧ EipUint32.ofInt M.conn_path.producing_path.GetInstanceOrConnPt =
            EipUint32.ofInt
              (request 153 100 151 true kIOConnTypeMulticast 9).conn_path.producing_path.GetInstanceOrConnPt
        ∧ (IsInt M.conn_path.producing_path.GetInstanceOrConnPt →
            IsInt (request 153 100 151 true kIOConnTypeMulticast 9).conn_path.producing_path.GetInstanceOrConnPt →
            M.conn_path.producing_path.GetInstanceOrConnPt =
              (request 153 100 151 true kIOConnTypeMulticast 9).conn_path.producing_path.GetInstanceOrConnPt)
        ∧ M.t_to_o_ncp.ConnectionType = kIOConnTypeMulticast
        ∧ M.producing_socket ≠ kEipInvalidSocket
        ∧ ((∀ c ∈ establishedMasterState.g_active_connection_list,
              c.state = kConnectionStateEstablished) →
            M.state = kConnectionStateEstablished) :=
  listen_only_grant sampleConf establishedMasterState (request 153 100 151 true kIOConnTypeMulticast 9)
    ((GetIoConnectionForConnectionData sampleConf establishedMasterState
      (request 153 100 151 true kIOConnTypeMulticast 9)).getD
        ⟨none, kConnectionManagerStatusCodeSuccess, CipConn.fresh, State.empty⟩)
    (Slot.listenOnly 0 0) (by rfl) (by rfl) (by rfl)

/-! ### Sequences of calls: capacity and registered triples -/

theorem map_modify_of_eq {α β : Type} (g : α → β) (f : α → α) (h : ∀ x, g (f x) = g x) :
    ∀ (n : Nat) (l : List α), (List.modify f n l).map g = l.map g := by
  intro n l
  induction l generalizing n with
  | nil => simp
  | cons a rest ih =>
    cases n with
    | zero => simp [h]
    | succ m => simp [ih m]

theorem modifySlot_tables (s : State) (f : CipConn → CipConn) (sl : Slot) :
    ((s.modifySlot f sl).g_exclusive_owner.length = s.g_exclusive_owner.length
      ∧ (s.modifySlot f sl).g_input_only.length = s.g_input_only.length
      ∧ (s.modifySlot f sl).g_listen_only.length = s.g_listen_only.length)
    ∧ ((s.modifySlot f sl).exclusiveOwnerTriples = s.exclusiveOwnerTriples
      ∧ (s.modifySlot f sl).inputOnlyTriples = s.inputOnlyTriples
      ∧ (s.modifySlot f sl).listenOnlyTriples = s.listenOnlyTriples) := by
  cases sl with
  | exclusiveOwner i =>
    refine ⟨⟨by simp [State.modifySlot], rfl, rfl⟩, ⟨?_, rfl, rfl⟩⟩
    show List.map _ (List.modify _ i s.g_exclusive_owner) = _
    apply map_modify_of_eq
    intro x
    rfl
  | inputOnly i j =>
    refine ⟨⟨rfl, by simp [State.modifySlot], rfl⟩, ⟨rfl, ?_, rfl⟩⟩
    show List.map _ (List.modify _ i s.g_input_only) = _
    apply map_modify_of_eq
    intro x
    rfl
  | listenOnly i j =>
    refine ⟨⟨rfl, rfl, by simp [State.modifySlot]⟩, ⟨rfl, rfl, ?_⟩⟩
    show List.map _ (List.modify _ i s.g_listen_only) = _
    apply map_modify_of_eq
    intro x
    rfl

theorem writeSlots_tables (writes : List (Slot × CipConn)) (s : State) :
    ((s.writeSlots writes).g_exclusive_owner.length = s.g_exclusive_owner.length
      ∧ (s.writeSlots writes).g_input_only.length = s.g_input_only.length
      ∧ (s.writeSlots writes).g_listen_only.length = s.g_listen_only.length)
    ∧ ((s.writeSlots writes).exclusiveOwnerTriples = s.exclusiveOwnerTriples
      ∧ (s.writeSlots writes).inputOnlyTriples = s.inputOnlyTriples
      ∧ (s.writeSlots writes).listenOnlyTriples = s.listenOnlyTriples) := by
  induction writes generalizing s with
  | nil => exact ⟨⟨rfl, rfl, rfl⟩, ⟨rfl, rfl, rfl⟩⟩
  | cons w rest ih =>
    have h1 := modifySlot_tables s (fun _ => w.2) w.1
    have h2 := ih (s.modifySlot (fun _ => w.2) w.1)
    unfold State.writeSlots
    refine ⟨⟨h2.1.1.trans h1.1.1, h2.1.2.1.trans h1.1.2.1, h2.1.2.2.trans h1.1.2.2⟩,
      ⟨h2.2.1.trans h1.2.1, h2.2.2.1.trans h1.2.2.1, h2.2.2.2.trans h1.2.2.2⟩⟩

theorem GetIoConnectionForConnectionData_state (conf : UserConf) (s : State)
    (aConn : CipConn) (r : IoResult)
    (h : GetIoConnectionForConnectionData conf s aConn = some r) :
    r.state = s ∨ ∃ dst c, r.state = s.modifySlot (fun _ => c) dst := by
  have hfin : ∀ a io e, (GetIoConnectionForConnectionData.finish s a io e).state = s
      ∨ ∃ dst c, (GetIoConnectionForConnectionData.finish s a io e).state =
        s.modifySlot (fun _ => c) dst := by
    intro a io e
    cases io with
    | none => left; rfl
    | some dst => right; exact ⟨dst, a, rfl⟩
  unfold GetIoConnectionForConnectionData at h
  simp only at h
  repeat' split at h
  all_goals first
    | (simp at h; done)
    | (simp only [Option.some.injEq] at h; subst h; exact hfin _ _ _)

theorem GetIoConnectionForConnectionData_tables (conf : UserConf) (s : State)
    (aConn : CipConn) (r : IoResult)
    (h : GetIoConnectionForConnectionData conf s aConn = some r) :
    (r.state.g_exclusive_owner.length = s.g_exclusive_owner.length
      ∧ r.state.g_input_only.length = s.g_input_only.length
      ∧ r.state.g_listen_only.length = s.g_listen_only.length)
    ∧ (r.state.exclusiveOwnerTriples = s.exclusiveOwnerTriples
      ∧ r.state.inputOnlyTriples = s.inputOnlyTriples
      ∧ r.state.listenOnlyTriples = s.listenOnlyTriples) := by
  rcases GetIoConnectionForConnectionData_state conf s aConn r h with hs | ⟨dst, c, hs⟩
  · rw [hs]; exact ⟨⟨rfl, rfl, rfl⟩, ⟨rfl, rfl, rfl⟩⟩
  · rw [hs]; exact modifySlot_tables s _ dst

theorem Configure_triples (conf : UserConf) (s : State) (o i c : Int) :
    ((ConfigureExclusiveOwnerConnectionPoint conf s o i c).1.exclusiveOwnerTriples =
        (if (ConfigureExclusiveOwnerConnectionPoint conf s o i c).2 = true
          then s.exclusiveOwnerTriples ++ [(o, i, c)] else s.exclusiveOwnerTriples)
      ∧ (ConfigureExclusiveOwnerConnectionPoint conf s o i c).1.inputOnlyTriples =
        s.inputOnlyTriples
      ∧ (ConfigureExclusiveOwnerConnectionPoint conf s o i c).1.listenOnlyTriples =
        s.listenOnlyTriples)
    ∧ ((ConfigureInputOnlyConnectionPoint conf s o i c).1.exclusiveOwnerTriples =
        s.exclusiveOwnerTriples
      ∧ (ConfigureInputOnlyConnectionPoint conf s o i c).1.inputOnlyTriples =
        (if (ConfigureInputOnlyConnectionPoint conf s o i c).2 = true
          then s.inputOnlyTriples ++ [(o, i, c)] else s.inputOnlyTriples)
      ∧ (ConfigureInputOnlyConnectionPoint conf s o i c).1.listenOnlyTriples =
        s.listenOnlyTriples)
    ∧ ((ConfigureListenOnlyConnectionPoint conf s o i c).1.exclusiveOwnerTriples =
        s.exclusiveOwnerTriples
      ∧ (ConfigureListenOnlyConnectionPoint conf s o i c).1.inputOnlyTriples =
        s.inputOnlyTriples
      ∧ (ConfigureListenOnlyConnectionPoint conf s o i c).1.listenOnlyTriples =
        (if (ConfigureListenOnlyConnectionPoint conf s o i c).2 = true
          then s.listenOnlyTriples ++ [(o, i, c)] else s.listenOnlyTriples)) := by
  refine ⟨⟨?_, ?_, ?_⟩, ⟨?_, ?_, ?_⟩, ⟨?_, ?_, ?_⟩⟩
  all_goals first
    | (unfold ConfigureExclusiveOwnerConnectionPoint
       split <;> simp [State.exclusiveOwnerTriples, State.inputOnlyTriples,
         State.listenOnlyTriples])
    | (unfold ConfigureInputOnlyConnectionPoint
       split <;> simp [State.exclusiveOwnerTriples, State.inputOnlyTriples,
         State.listenOnlyTriples])
    | (unfold ConfigureListenOnlyConnectionPoint
       split <;> simp [State.exclusiveOwnerTriples, State.inputOnlyTriples,
         State.listenOnlyTriples])

theorem Configure_lengths (conf : UserConf) (s : State) (o i c : Int)
    (hc : WithinCapacity conf s) :
    WithinCapacity conf (ConfigureExclusiveOwnerConnectionPoint conf s o i c).1
    ∧ WithinCapacity conf (ConfigureInputOnlyConnectionPoint conf s o i c).1
    ∧ WithinCapacity conf (ConfigureListenOnlyConnectionPoint conf s o i c).1 := by
  obtain ⟨h1, h2, h3⟩ := hc
  refine ⟨?_, ?_, ?_⟩
  · unfold ConfigureExclusiveOwnerConnectionPoint
    split
    · exact ⟨by simp only [List.length_append, List.length_singleton]; omega, h2, h3⟩
    · exact ⟨h1, h2, h3⟩
  · unfold ConfigureInputOnlyConnectionPoint
    split
    · exact ⟨h1, by simp only [List.length_append, List.length_singleton]; omega, h3⟩
    · exact ⟨h1, h2, h3⟩
  · unfold ConfigureListenOnlyConnectionPoint
    split
    · exact ⟨h1, h2, by simp only [List.length_append, List.length_singleton]; omega⟩
    · exact ⟨h1, h2, h3⟩

theorem applyCall_within_capacity (conf : UserConf) (s s2 : State) (call : ApiCall)
    (h : applyCall conf s call = some s2) (hc : WithinCapacity conf s) :
    WithinCapacity conf s2 := by
  cases call with
  | configureExclusiveOwnerConnectionPoint o i c =>
    simp only [applyCall, Option.some.injEq] at h
    subst h
    exact (Configure_lengths conf s o i c hc).1
  | configureInputOnlyConnectionPoint o i c =>
    simp only [applyCall, Option.some.injEq] at h
    subst h
    exact (Configure_lengths conf s o i c hc).2.1
  | configureListenOnlyConnectionPoint o i c =>
    simp only [applyCall, Option.some.injEq] at h
    subst h
    exact (Configure_lengths conf s o i c hc).2.2
  | getIoConnectionForConnectionData aConn =>
    simp only [applyCall, Option.map_eq_some'] at h
    obtain ⟨r, hr, hs⟩ := h
    subst hs
    obtain ⟨⟨l1, l2, l3⟩, _⟩ := GetIoConnectionForConnectionData_tables conf s aConn r hr
    unfold WithinCapacity at hc ⊢
    rw [l1, l2, l3]
    exact hc
  | closeAllConnectionsForInputWithSameType p t writes =>
    simp only [applyCall, Option.some.injEq] at h
    subst h
    obtain ⟨⟨l1, l2, l3⟩, _⟩ := writeSlots_tables writes s
    unfold WithinCapacity at hc ⊢
    simp only
    rw [l1, l2, l3]
    exact hc
  | closeAllConnections writes =>
    simp only [applyCall, Option.some.injEq] at h
    subst h
    obtain ⟨⟨l1, l2, l3⟩, _⟩ := writeSlots_tables writes s
    unfold WithinCapacity at hc ⊢
    simp only
    rw [l1, l2, l3]
    exact hc
  | destroyIoConnectionData =>
    simp only [applyCall, Option.some.injEq] at h
    subst h
    exact ⟨Nat.zero_le _, Nat.zero_le _, Nat.zero_le _⟩

theorem runCalls_within_capacity (conf : UserConf) (calls : List ApiCall) (s s2 : State)
    (h : runCalls conf s calls = some s2) (hc : WithinCapacity conf s) :
    WithinCapacity conf s2 := by
  induction calls generalizing s with
  | nil =>
    simp only [runCalls, Option.some.injEq] at h
    subst h
    exact hc
  | cons call rest ih =>
    unfold runCalls at h
    cases hstep : applyCall conf s call with
    | none => rw [hstep] at h; simp at h
    | some s1 =>
      rw [hstep] at h
      simp only [Option.some_bind] at h
      exact ih s1 h (applyCall_within_capacity conf s s1 call hstep hc)

/-- C14: starting from empty tables, after every sequence of Configure calls,
GetIoConnectionForConnectionData calls, Close calls and DestroyIoConnectionData
calls, each of the three tables holds at most as many entries as its capacity. -/
theorem capacity_invariant (conf : UserConf) (s0 : State)
    (h0 : s0.g_exclusive_owner = [] ∧ s0.g_input_only = [] ∧ s0.g_listen_only = [])
    (calls : List ApiCall) (s : State) (hrun : runCalls conf s0 calls = some s) :
    WithinCapacity conf s := by
  apply runCalls_within_capacity conf calls s0 s hrun
  obtain ⟨h1, h2, h3⟩ := h0
  unfold WithinCapacity
  rw [h1, h2, h3]
  exact ⟨Nat.zero_le _, Nat.zero_le _, Nat.zero_le _⟩

/-- Witness for C14: `sampleCalls` registers three exclusive-owner points where there
is room for two; the third registration is refused. -/
theorem capacity_invariant_witness :
    ∃ s, runCalls sampleConf State.empty sampleCalls = some s
      ∧ WithinCapacity sampleConf s
      ∧ ((runCalls sampleConf State.empty (sampleCalls.take 4)).map
          (fun s4 => s4.exclusiveOwnerTriples)) = some [(150, 100, 151), (150, 100, -1)] :=
  ⟨(runCalls sampleConf State.empty sampleCalls).getD State.empty, by rfl,
    capacity_invariant sampleConf State.empty ⟨rfl, rfl, rfl⟩ sampleCalls _ (by rfl), by rfl⟩

theorem applyCall_triples (conf : UserConf) (s s2 : State) (call : ApiCall)
    (hcall : call ≠ ApiCall.destroyIoConnectionData)
    (h : applyCall conf s call = some s2) :
    (∃ t, s2.exclusiveOwnerTriples = s.exclusiveOwnerTriples ++ t)
    ∧ (∃ t, s2.inputOnlyTriples = s.inputOnlyTriples ++ t)
    ∧ (∃ t, s2.listenOnlyTriples = s.listenOnlyTriples ++ t) := by
  have hself : ∀ l : List (Int × Int × Int), ∃ t, l = l ++ t := fun l => ⟨[], by simp⟩
  have hif : ∀ (b : Bool) (l : List (Int × Int × Int)) (x : Int × Int × Int),
      ∃ t, (if b = true then l ++ [x] else l) = l ++ t := by
    intro b l x
    cases b
    · exact ⟨[], by simp⟩
    · exact ⟨[x], by simp⟩
  cases call with
  | configureExclusiveOwnerConnectionPoint o i c =>
    simp only [applyCall, Option.some.injEq] at h
    subst h
    obtain ⟨⟨h1, h2, h3⟩, _, _⟩ := Configure_triples conf s o i c
    rw [h1, h2, h3]
    exact ⟨hif _ _ _, hself _, hself _⟩
  | configureInputOnlyConnectionPoint o i c =>
    simp only [applyCall, Option.some.injEq] at h
    subst h
    obtain ⟨_, ⟨h1, h2, h3⟩, _⟩ := Configure_triples conf s o i c
    rw [h1, h2, h3]
    exact ⟨hself _, hif _ _ _, hself _⟩
  | configureListenOnlyConnectionPoint o i c =>
    simp only [applyCall, Option.some.injEq] at h
    subst h
    obtain ⟨_, _, ⟨h1, h2, h3⟩⟩ := Configure_triples conf s o i c
    rw [h1, h2, h3]
    exact ⟨hself _, hself _, hif _ _ _⟩
  | getIoConnectionForConnectionData aConn =>
    simp only [applyCall, Option.map_eq_some'] at h
    obtain ⟨r, hr, hs⟩ := h
    subst hs
    obtain ⟨_, h1, h2, h3⟩ := GetIoConnectionForConnectionData_tables conf s aConn r hr
    rw [h1, h2, h3]
    exact ⟨hself _, hself _, hself _⟩
  | closeAllConnectionsForInputWithSameType p t writes =>
    simp only [applyCall, Option.some.injEq] at h
    subst h
    obtain ⟨_, h1, h2, h3⟩ := writeSlots_tables writes s
    exact ⟨⟨[], by rw [← h1]; simp [State.exclusiveOwnerTriples]⟩,
      ⟨[], by rw [← h2]; simp [State.inputOnlyTriples]⟩,
      ⟨[], by rw [← h3]; simp [State.listenOnlyTriples]⟩⟩
  | closeAllConnections writes =>
    simp only [applyCall, Option.some.injEq] at h
    subst h
    obtain ⟨_, h1, h2, h3⟩ := writeSlots_tables writes s
    exact ⟨⟨[], by rw [← h1]; simp [State.exclusiveOwnerTriples]⟩,
      ⟨[], by rw [← h2]; simp [State.inputOnlyTriples]⟩,
      ⟨[], by rw [← h3]; simp [State.listenOnlyTriples]⟩⟩
  | destroyIoConnectionData => exact absurd rfl hcall

/-- C15: registered triples are immutable. GetIoConnectionForConnectionData, whether
it returns a slot or NULL, leaves the triples of all three tables as they were; a
successful Configure call appends its triple to its own table and leaves the other
two tables alone; and after every call other than DestroyIoConnectionData the old
triples of each table are still there, in the same order, at the front of the
table. -/
theorem registered_triples_immutable (conf : UserConf) (s : State) :
    (∀ aConn r, GetIoConnectionForConnectionData conf s aConn = some r →
      r.state.exclusiveOwnerTriples = s.exclusiveOwnerTriples
      ∧ r.state.inputOnlyTriples = s.inputOnlyTriples
      ∧ r.state.listenOnlyTriples = s.listenOnlyTriples)
    ∧ (∀ o i c, (ConfigureExclusiveOwnerConnectionPoint conf s o i c).2 = true →
      (ConfigureExclusiveOwnerConnectionPoint conf s o i c).1.exclusiveOwnerTriples =
        s.exclusiveOwnerTriples ++ [(o, i, c)]
      ∧ (ConfigureExclusiveOwnerConnectionPoint conf s o i c).1.inputOnlyTriples =
        s.inputOnlyTriples
      ∧ (ConfigureExclusiveOwnerConnectionPoint conf s o i c).1.listenOnlyTriples =
        s.listenOnlyTriples)
    ∧ (∀ o i c, (ConfigureInputOnlyConnectionPoint conf s o i c).2 = true →
      (ConfigureInputOnlyConnectionPoint conf s o i c).1.exclusiveOwnerTriples =
        s.exclusiveOwnerTriples
      ∧ (ConfigureInputOnlyConnectionPoint conf s o i c).1.inputOnlyTriples =
        s.inputOnlyTriples ++ [(o, i, c)]
      ∧ (ConfigureInputOnlyConnectionPoint conf s o i c).1.listenOnlyTriples =
        s.listenOnlyTriples)
    ∧ (∀ o i c, (ConfigureListenOnlyConnectionPoint conf s o i c).2 = true →
      (ConfigureListenOnlyConnectionPoint conf s o i c).1.exclusiveOwnerTriples =
        s.exclusiveOwnerTriples
      ∧ (ConfigureListenOnlyConnectionPoint conf s o i c).1.inputOnlyTriples =
        s.inputOnlyTriples
      ∧ (ConfigureListenOnlyConnectionPoint conf s o i c).1.listenOnlyTriples =
        s.listenOnlyTriples ++ [(o, i, c)])
    ∧ (∀ call s2, call ≠ ApiCall.destroyIoConnectionData →
      applyCall conf s call = some s2 →
      (∃ t, s2.exclusiveOwnerTriples = s.exclusiveOwnerTriples ++ t)
      ∧ (∃ t, s2.inputOnlyTriples = s.inputOnlyTriples ++ t)
      ∧ (∃ t, s2.listenOnlyTriples = s.listenOnlyTriples ++ t)) := by
  refine ⟨?_, ?_, ?_, ?_, ?_⟩
  · intro aConn r h
    exact (GetIoConnectionForConnectionData_tables conf s aConn r h).2
  · intro o i c hok
    obtain ⟨⟨h1, h2, h3⟩, _, _⟩ := Configure_triples conf s o i c
    rw [if_pos hok] at h1
    exact ⟨h1, h2, h3⟩
  · intro o i c hok
    obtain ⟨_, ⟨h1, h2, h3⟩, _⟩ := Configure_triples conf s o i c
    rw [if_pos hok] at h2
    exact ⟨h1, h2, h3⟩
  · intro o i c hok
    obtain ⟨_, _, ⟨h1, h2, h3⟩⟩ := Configure_triples conf s o i c
    rw [if_pos hok] at h3
    exact ⟨h1, h2, h3⟩
  · intro call s2 hcall h
    exact applyCall_triples conf s s2 call hcall h

/-- Witness for C15: on the sample application an accepted request leaves the three
lists of triples as they were, and a registration on empty tables appends its
triple. -/
theorem registered_triples_immutable_witness :
    (∃ r, GetIoConnectionForConnectionData sampleConf sampleState
        (request 150 100 151 true kIOConnTypePointToPoint 7) = some r
      ∧ r.io_connection = some (Slot.exclusiveOwner 0)
      ∧ r.state.exclusiveOwnerTriples = [(150, 100, 151), (150, 100, -1)]
      ∧ r.state.inputOnlyTriples = [(152, 100, 151)]
      ∧ r.state.listenOnlyTriples = [(153, 100, 151)])
    ∧ (ConfigureListenOnlyConnectionPoint sampleConf State.empty 153 100 151).1.listenOnlyTriples
        = [(153, 100, 151)] :=
  ⟨⟨_, rfl, by rfl,
      ((registered_triples_immutable sampleConf sampleState).1
        (request 150 100 151 true kIOConnTypePointToPoint 7) _ rfl)⟩,
   ((registered_triples_immutable sampleConf State.empty).2.2.2.1 153 100 151 (by rfl)).2.2⟩

/-! ### The sample application mirrors output data to input data -/

/-- C20: for every content of the four buffers, AfterAssemblyDataReceived on the
output assembly instance 150 returns kEipStatusOk, afterwards the 128 bytes of the
input buffer g_assembly_data064 are the 128 bytes of the output buffer
g_assembly_data096, and the output, config and explicit buffers are unchanged. -/
theorem AfterAssemblyDataReceived_mirrors_output (d : AssemblyData) (hwf : d.WellFormed) :
    ∃ d2, AfterAssemblyDataReceived 150 d = some (d2, EipStatus.kEipStatusOk)
      ∧ d2.g_assembly_data064.length = 128
      ∧ (∀ i, i < 128 → d2.g_assembly_data064[i]? = d.g_assembly_data096[i]?)
      ∧ d2.g_assembly_data096 = d.g_assembly_data096
      ∧ d2.g_assembly_data097 = d.g_assembly_data097
      ∧ d2.g_assembly_data09A = d.g_assembly_data09A := by
  obtain ⟨h64, h96, _, _⟩ := hwf
  have hcopy : memcpy d.g_assembly_data064 d.g_assembly_data096 128 =
      some d.g_assembly_data096 := by
    unfold memcpy
    rw [if_pos ⟨by omega, by omega⟩]
    have ht : d.g_assembly_data096.take 128 = d.g_assembly_data096 :=
      List.take_of_length_le (by omega)
    have hd : d.g_assembly_data064.drop 128 = [] := List.drop_of_length_le (by omega)
    rw [ht, hd, List.append_nil]
  refine ⟨{ d with g_assembly_data064 := d.g_assembly_data096 }, ?_, h96, ?_, rfl, rfl, rfl⟩
  · unfold AfterAssemblyDataReceived
    simp only [DEMO_APP_OUTPUT_ASSEMBLY_NUM, if_true, hcopy]
  · intro i _
    rfl

/-- Witness for C20: the buffers of scenario S4. -/
theorem AfterAssemblyDataReceived_mirrors_output_witness :
    ∃ d2, AfterAssemblyDataReceived 150 sampleData = some (d2, EipStatus.kEipStatusOk)
      ∧ d2.g_assembly_data064.length = 128
      ∧ (∀ i, i < 128 → d2.g_assembly_data064[i]? = sampleData.g_assembly_data096[i]?)
      ∧ d2.g_assembly_data096 = sampleData.g_assembly_data096
      ∧ d2.g_assembly_data097 = sampleData.g_assembly_data097
      ∧ d2.g_assembly_data09A = sampleData.g_assembly_data09A :=
  AfterAssemblyDataReceived_mirrors_output sampleData
    ⟨List.length_replicate _ _, List.length_replicate _ _, List.length_replicate _ _,
      List.length_replicate _ _⟩

/-! ### Close notification -/

/-- C23, as stated, fails in two ways. With input point 4294967295 the application is
notified for the listen-only connection at address 10 of `negativePointNodes`, whose
producing point is the `int` -1, although no connection has producing point
4294967295. With a close function that unlinks a second connection as well, the
listen-only connection at address 30 of `sampleNodes` produces input assembly 100
like the one at address 10, and the application is notified for the latter only. -/
theorem close_notification_counterexample :
    (∃ r, CloseAllConnectionsForInputWithSameType (fun n l => unlink n.addr l) 4294967295
          kConnInstanceTypeIoListenOnly 2 negativePointNodes = some r
      ∧ r.events = [⟨153, -1, IoConnectionEvent.kIoConnectionEventClosed⟩]
      ∧ negativePointNodes.filter (fun n =>
          HasTypeAndInput 4294967295 kConnInstanceTypeIoListenOnly n) = [])
    ∧ (∃ r, CloseAllConnectionsForInputWithSameType closeWithPeer 100
          kConnInstanceTypeIoListenOnly 4 sampleNodes = some r
      ∧ r.calls =
        [TraversalCall.checkIoConnectionEvent
            ⟨153, 100, IoConnectionEvent.kIoConnectionEventClosed⟩,
          TraversalCall.connectionCloseFunction 10]
      ∧ (sampleNodes.filter (fun n =>
          HasTypeAndInput 100 kConnInstanceTypeIoListenOnly n)).map (fun m => m.addr) =
        [10, 30]) :=
  ⟨⟨_, rfl, by rfl, by decide⟩, ⟨_, rfl, by rfl, by decide⟩⟩

/-- C23, amended: if every close function unlinks exactly the connection it is called
on, then during CloseAllConnectionsForInputWithSameType on an active list of distinct
connection objects CheckIoConnectionEvent( consuming point, producing point, Closed )
is called once for each connection that has the given instance type and a producing
point equal to `p` after conversion to EipUint32, in active-list order and right
before the close function of that connection, and it is called for no other
connection. For an EipUint32 `p` and an `int` producing point x, equal after
conversion means x = p or x + 2^32 = p; for `p` below 2^31 it means x = p. -/
theorem CloseAllConnectionsForInputWithSameType_notifies
    (close : ActiveNode → List ActiveNode → List ActiveNode)
    (hclose : ∀ n l, close n l = unlink n.addr l)
    (input_point : Int) (instance_type : ConnInstanceType) (list : List ActiveNode)
    (hnd : (list.map (fun m => m.addr)).Nodup) (fuel : Nat) (hfuel : list.length ≤ fuel) :
    (∃ r, CloseAllConnectionsForInputWithSameType close input_point instance_type fuel
          list = some r
      ∧ r.events = (list.filter (fun n =>
            SameTypeAndInputTest input_point instance_type n)).map
          (fun n => ⟨n.conn.conn_path.consuming_path.GetInstanceOrConnPt,
            n.conn.conn_path.producing_path.GetInstanceOrConnPt,
            IoConnectionEvent.kIoConnectionEventClosed⟩)
      ∧ r.calls = (list.filter (fun n =>
            SameTypeAndInputTest input_point instance_type n)).flatMap
          (fun n => [TraversalCall.checkIoConnectionEvent
              ⟨n.conn.conn_path.consuming_path.GetInstanceOrConnPt,
                n.conn.conn_path.producing_path.GetInstanceOrConnPt,
                IoConnectionEvent.kIoConnectionEventClosed⟩,
            TraversalCall.connectionCloseFunction n.addr]))
    ∧ (∀ n : ActiveNode, 0 ≤ input_point → input_point < 4294967296 →
        IsInt n.conn.conn_path.producing_path.GetInstanceOrConnPt →
        (SameTypeAndInputTest input_point instance_type n ↔
          n.conn.instance_type = instance_type
          ∧ (n.conn.conn_path.producing_path.GetInstanceOrConnPt = input_point
            ∨ n.conn.conn_path.producing_path.GetInstanceOrConnPt + 4294967296 =
                input_point)))
    ∧ (∀ n : ActiveNode, 0 ≤ input_point → input_point < 2147483648 →
        IsInt n.conn.conn_path.producing_path.GetInstanceOrConnPt →
        (SameTypeAndInputTest input_point instance_type n ↔
          HasTypeAndInput input_point instance_type n)) := by
  have h := CloseAllConnectionsForInputWithSameType_loop_spec close hclose input_point
    instance_type list [] fuel [] [] [] (by simpa using hnd) hfuel
  simp only [List.nil_append] at h
  exact ⟨⟨_, h, rfl, rfl⟩,
    fun n hp0 hp hx => SameTypeAndInputTest_iff input_point instance_type n hp0 hp hx,
    fun n hp0 hp hx => SameTypeAndInputTest_iff_of_lt input_point instance_type n hp0 hp hx⟩

/-- Witness for C23: closing the listen-only connections for input assembly 100 in
`sampleNodes` notifies the application for the connections at addresses 10 and 30,
each time right before the connection is closed. -/
theorem CloseAllConnectionsForInputWithSameType_notifies_witness :
    ∃ r, CloseAllConnectionsForInputWithSameType (fun n l => unlink n.addr l) 100
          kConnInstanceTypeIoListenOnly 4 sampleNodes = some r
      ∧ r.events = [⟨153, 100, IoConnectionEvent.kIoConnectionEventClosed⟩,
          ⟨153, 100, IoConnectionEvent.kIoConnectionEventClosed⟩]
      ∧ r.calls =
        [TraversalCall.checkIoConnectionEvent
            ⟨153, 100, IoConnectionEvent.kIoConnectionEventClosed⟩,
          TraversalCall.connectionCloseFunction 10,
          TraversalCall.checkIoConnectionEvent
            ⟨153, 100, IoConnectionEvent.kIoConnectionEventClosed⟩,
          TraversalCall.connectionCloseFunction 30] :=
  (CloseAllConnectionsForInputWithSameType_notifies (fun n l => unlink n.addr l)
    (fun _ _ => rfl) 100 kConnInstanceTypeIoListenOnly sampleNodes (by decide) 4
    (by decide)).1

/-! ### The sample application: callbacks -/

/-- C21: the sample application accepts any received data. For buffers of their
declared sizes AfterAssemblyDataReceived returns kEipStatusOk for every instance
id, and for every instance id other than 150 the four buffers are left as they
were. -/
theorem AfterAssemblyDataReceived_accepts_all (instance_id : Int) (d : AssemblyData)
    (hwf : d.WellFormed) :
    ∃ d2, AfterAssemblyDataReceived instance_id d = some (d2, EipStatus.kEipStatusOk)
      ∧ (instance_id ≠ 150 → d2 = d) := by
  unfold AfterAssemblyDataReceived
  by_cases h150 : instance_id = DEMO_APP_OUTPUT_ASSEMBLY_NUM
  · have hcopy : ∃ m, memcpy d.g_assembly_data064 d.g_assembly_data096 128 = some m := by
      unfold memcpy
      rw [if_pos ⟨by rw [hwf.1], by rw [hwf.2.1]⟩]
      exact ⟨_, rfl⟩
    obtain ⟨m, hm⟩ := hcopy
    simp only [if_pos h150, hm]
    exact ⟨_, rfl, fun hne => absurd h150 hne⟩
  · simp only [if_neg h150]
    split
    · exact ⟨d, rfl, fun _ => rfl⟩
    · split
      · exact ⟨d, rfl, fun _ => rfl⟩
      · exact ⟨d, rfl, fun _ => rfl⟩

/-- Witness for C21: the config assembly instance 151 with the buffers of scenario
S4. -/
theorem AfterAssemblyDataReceived_accepts_all_witness :
    ∃ d2, AfterAssemblyDataReceived 151 sampleData = some (d2, EipStatus.kEipStatusOk)
      ∧ ((151 : Int) ≠ 150 → d2 = sampleData) :=
  AfterAssemblyDataReceived_accepts_all 151 sampleData
    ⟨List.length_replicate _ _, List.length_replicate _ _, List.length_replicate _ _,
      List.length_replicate _ _⟩

/-- C22: starting from empty connection point tables with room for at least two
exclusive-owner points, one input-only and one listen-only point,
ApplicationInitialization returns kEipStatusOk and leaves the exclusive-owner table
with the triples (150, 100, 151), (150, 100, -1), the input-only table with
(152, 100, 151) and the listen-only table with (153, 100, 151), in that order. -/
theorem ApplicationInitialization_registers (conf : UserConf) (s : State)
    (h0 : s.g_exclusive_owner = [] ∧ s.g_input_only = [] ∧ s.g_listen_only = [])
    (heo : 2 ≤ conf.CIPSTER_CIP_NUM_EXCLUSIVE_OWNER_CONNS)
    (hio : 1 ≤ conf.CIPSTER_CIP_NUM_INPUT_ONLY_CONNS)
    (hlo : 1 ≤ conf.CIPSTER_CIP_NUM_LISTEN_ONLY_CONNS) :
    (ApplicationInitialization conf s).2 = EipStatus.kEipStatusOk
    ∧ (ApplicationInitialization conf s).1.exclusiveOwnerTriples =
        [(150, 100, 151), (150, 100, -1)]
    ∧ (ApplicationInitialization conf s).1.inputOnlyTriples = [(152, 100, 151)]
    ∧ (ApplicationInitialization conf s).1.listenOnlyTriples = [(153, 100, 151)] := by
  obtain ⟨h1, h2, h3⟩ := h0
  have heo0 : 0 < conf.CIPSTER_CIP_NUM_EXCLUSIVE_OWNER_CONNS := by omega
  have heo1 : 1 < conf.CIPSTER_CIP_NUM_EXCLUSIVE_OWNER_CONNS := by omega
  have hio0 : 0 < conf.CIPSTER_CIP_NUM_INPUT_ONLY_CONNS := by omega
  have hlo0 : 0 < conf.CIPSTER_CIP_NUM_LISTEN_ONLY_CONNS := by omega
  refine ⟨rfl, ?_, ?_, ?_⟩ <;>
    simp [ApplicationInitialization, ApplicationInitialization.tables,
      ConfigureExclusiveOwnerConnectionPoint, ConfigureInputOnlyConnectionPoint,
      ConfigureListenOnlyConnectionPoint, State.exclusiveOwnerTriples,
      State.inputOnlyTriples, State.listenOnlyTriples, h1, h2, h3, heo0, heo1, hio0, hlo0,
      DEMO_APP_OUTPUT_ASSEMBLY_NUM, DEMO_APP_INPUT_ASSEMBLY_NUM, DEMO_APP_CONFIG_ASSEMBLY_NUM,
      DEMO_APP_HEARBEAT_INPUT_ONLY_ASSEMBLY_NUM, DEMO_APP_HEARBEAT_LISTEN_ONLY_ASSEMBLY_NUM]

/-- Witness for C22: the capacities 2, 1 and 1 of `sampleConf`. -/
theorem ApplicationInitialization_registers_witness :
    (ApplicationInitialization sampleConf State.empty).2 = EipStatus.kEipStatusOk
    ∧ (ApplicationInitialization sampleConf State.empty).1.exclusiveOwnerTriples =
        [(150, 100, 151), (150, 100, -1)]
    ∧ (ApplicationInitialization sampleConf State.empty).1.inputOnlyTriples =
        [(152, 100, 151)]
    ∧ (ApplicationInitialization sampleConf State.empty).1.listenOnlyTriples =
        [(153, 100, 151)] :=
  ApplicationInitialization_registers sampleConf State.empty ⟨rfl, rfl, rfl⟩
    (by decide) (by decide) (by decide)

/-! ### Listen-only requests must be multicast -/

/-- C24: for a request whose T->O connection type is not Multicast,
getListenOnlyConnection returns no slot and sets NonListenOnlyConnectionNotOpened,
whatever the tables and the active list hold; so every such request that reaches
the listen-only stage is rejected by GetIoConnectionForConnectionData with that
status. -/
theorem listen_only_requires_multicast (conf : UserConf) (s : State) (aConn : CipConn)
    (hmc : aConn.t_to_o_ncp.ConnectionType ≠ kIOConnTypeMulticast) :
    (∀ err, getListenOnlyConnection conf s aConn err =
      some ⟨none, kConnectionManagerStatusCodeNonListenOnlyConnectionNotOpened⟩)
    ∧ (getExclusiveOwnerConnection s aConn kConnectionManagerStatusCodeSuccess =
          ⟨none, kConnectionManagerStatusCodeSuccess⟩ →
        getInputOnlyConnection conf s aConn kConnectionManagerStatusCodeSuccess =
          some ⟨none, kConnectionManagerStatusCodeSuccess⟩ →
        ∃ r, GetIoConnectionForConnectionData conf s aConn = some r
          ∧ r.io_connection = none
          ∧ r.extended_error =
            kConnectionManagerStatusCodeNonListenOnlyConnectionNotOpened) := by
  have h3 : ∀ err, getListenOnlyConnection conf s aConn err =
      some ⟨none, kConnectionManagerStatusCodeNonListenOnlyConnectionNotOpened⟩ := by
    intro err
    unfold getListenOnlyConnection
    rw [if_pos hmc]
  refine ⟨h3, ?_⟩
  intro h1 h2
  unfold GetIoConnectionForConnectionData
  simp [h1, h2, h3, ConnectionManagerStatusCode.isZero,
    GetIoConnectionForConnectionData.finish]

/-- Witness for C24: a point-to-point request for the listen-only point
(153, 100, 151) of the sample application. -/
theorem listen_only_requires_multicast_witness :
    ∃ r, GetIoConnectionForConnectionData sampleConf ownedState
        (request 153 100 151 true kIOConnTypePointToPoint 9) = some r
      ∧ r.io_connection = none
      ∧ r.extended_error = kConnectionManagerStatusCodeNonListenOnlyConnectionNotOpened :=
  (listen_only_requires_multicast sampleConf ownedState
    (request 153 100 151 true kIOConnTypePointToPoint 9) (by decide)).2 (by rfl) (by rfl)

/-! ### The request object after a failure -/

/-- C25, the code at the failing input: the multicast request (153, 100, 151) on the
sample application with nothing open is rejected with
NonListenOnlyConnectionNotOpened, and its instance type, kConnInstanceTypeExplicit
before the call, is kConnInstanceTypeIoListenOnly after it. -/
theorem failure_assigns_listen_only_type :
    (request 153 100 151 true kIOConnTypeMulticast 9).instance_type =
      kConnInstanceTypeExplicit
    ∧ ∃ r, GetIoConnectionForConnectionData sampleConf sampleState
          (request 153 100 151 true kIOConnTypeMulticast 9) = some r
        ∧ r.io_connection = none
        ∧ r.extended_error = kConnectionManagerStatusCodeNonListenOnlyConnectionNotOpened
        ∧ r.aConn.instance_type = kConnInstanceTypeIoListenOnly := by
  refine ⟨rfl, _, rfl, by rfl, by rfl, by rfl⟩

/-- Where GetIoConnectionForConnectionData leaves the request as it was: a NULL
result changes the instance type only when it is the listen-only stage that
returned NULL with an error. -/
theorem failure_instance_type_cases (conf : UserConf) (s : State) (aConn : CipConn)
    (r : IoResult) (h : GetIoConnectionForConnectionData conf s aConn = some r)
    (hnull : r.io_connection = none) :
    r.aConn = aConn
    ∨ (r.aConn = { aConn with instance_type := kConnInstanceTypeIoListenOnly }
      ∧ getListenOnlyConnection conf s aConn kConnectionManagerStatusCodeSuccess =
          some ⟨none, r.extended_error⟩
      ∧ r.extended_error ≠ kConnectionManagerStatusCodeSuccess) := by
  unfold GetIoConnectionForConnectionData at h
  rcases h1 : getExclusiveOwnerConnection s aConn kConnectionManagerStatusCodeSuccess
    with ⟨io1, e1⟩
  rw [h1] at h
  cases io1 with
  | some sl1 =>
    simp only [GetIoConnectionForConnectionData.finish, Option.some.injEq] at h
    subst h
    simp at hnull
  | none =>
    simp only at h
    by_cases he1 : kConnectionManagerStatusCodeSuccess = e1
    · subst he1
      simp only [if_true] at h
      cases h2 : getInputOnlyConnection conf s aConn kConnectionManagerStatusCodeSuccess with
      | none => rw [h2] at h; simp at h
      | some r2 =>
        rw [h2] at h
        rcases r2 with ⟨io2, e2⟩
        cases io2 with
        | some sl2 =>
          simp only [GetIoConnectionForConnectionData.finish, Option.some.injEq] at h
          subst h
          simp at hnull
        | none =>
          simp only at h
          by_cases hz2 : e2.isZero = true
          · have he2 := (isZero_iff e2).mp hz2
            subst he2
            simp only [ConnectionManagerStatusCode.isZero, if_true] at h
            cases h3 : getListenOnlyConnection conf s aConn
                kConnectionManagerStatusCodeSuccess with
            | none => rw [h3] at h; simp at h
            | some r3 =>
              rw [h3] at h
              rcases r3 with ⟨io3, e3⟩
              cases io3 with
              | some sl3 =>
                simp [GetIoConnectionForConnectionData.finish] at h
                subst h
                simp at hnull
              | none =>
                cases e3 <;>
                  (simp [ConnectionManagerStatusCode.isZero,
                    GetIoConnectionForConnectionData.finish] at h
                   subst h
                   simp)
          · rw [if_neg hz2] at h
            simp only [GetIoConnectionForConnectionData.finish, Option.some.injEq] at h
            subst h
            left; rfl
    · simp only [he1, if_false, GetIoConnectionForConnectionData.finish,
        Option.some.injEq] at h
      subst h
      left; rfl

/-! ### Slots: which one is returned and what is written -/

theorem modifySlot_slot_same (s : State) (f : CipConn → CipConn) (sl : Slot) :
    (s.modifySlot f sl).slot sl = (s.slot sl).map f := by
  cases sl with
  | exclusiveOwner i =>
    simp only [State.slot, State.modifySlot, List.getElem?_modify_eq]
    cases s.g_exclusive_owner[i]? <;> rfl
  | inputOnly i j =>
    simp only [State.slot, State.modifySlot, List.getElem?_modify_eq]
    cases hi : s.g_input_only[i]? with
    | none => rfl
    | some e =>
      simp only [Option.map_eq_map, Option.map_some', Option.some_bind,
        List.getElem?_modify_eq]
  | listenOnly i j =>
    simp only [State.slot, State.modifySlot, List.getElem?_modify_eq]
    cases hi : s.g_listen_only[i]? with
    | none => rfl
    | some e =>
      simp only [Option.map_eq_map, Option.map_some', Option.some_bind,
        List.getElem?_modify_eq]

theorem modifySlot_slot_other (s : State) (f : CipConn → CipConn) (sl sl2 : Slot)
    (h : sl2 ≠ sl) : (s.modifySlot f sl).slot sl2 = s.slot sl2 := by
  cases sl with
  | exclusiveOwner i =>
    cases sl2 with
    | exclusiveOwner i2 =>
      have hne : i ≠ i2 := fun hh => h (by rw [hh])
      simp only [State.slot, State.modifySlot, List.getElem?_modify_ne _ _ hne]
    | inputOnly i2 j2 => rfl
    | listenOnly i2 j2 => rfl
  | inputOnly i j =>
    cases sl2 with
    | exclusiveOwner i2 => rfl
    | inputOnly i2 j2 =>
      by_cases hi : i = i2
      · subst hi
        have hj : j ≠ j2 := fun hh => h (by rw [hh])
        simp only [State.slot, State.modifySlot, List.getElem?_modify_eq]
        cases s.g_input_only[i]? with
        | none => rfl
        | some e =>
          simp only [Option.map_eq_map, Option.map_some', Option.some_bind,
            List.getElem?_modify_ne _ _ hj]
      · simp only [State.slot, State.modifySlot, List.getElem?_modify_ne _ _ hi]
    | listenOnly i2 j2 => rfl
  | listenOnly i j =>
    cases sl2 with
    | exclusiveOwner i2 => rfl
    | inputOnly i2 j2 => rfl
    | listenOnly i2 j2 =>
      by_cases hi : i = i2
      · subst hi
        have hj : j ≠ j2 := fun hh => h (by rw [hh])
        simp only [State.slot, State.modifySlot, List.getElem?_modify_eq]
        cases s.g_listen_only[i]? with
        | none => rfl
        | some e =>
          simp only [Option.map_eq_map, Option.map_some', Option.some_bind,
            List.getElem?_modify_ne _ _ hj]
      · simp only [State.slot, State.modifySlot, List.getElem?_modify_ne _ _ hi]

theorem scanConnectionData_found (connection_data : List CipConn) (n j0 j : Nat)
    (h : scanConnectionData connection_data n j0 = ScanResult.found j) :
    j0 ≤ j ∧ j < j0 + n
    ∧ (∃ c, connection_data[j]? = some c ∧ c.state = kConnectionStateNonExistent)
    ∧ ∀ j2 c2, j0 ≤ j2 → j2 < j → connection_data[j2]? = some c2 →
        c2.state ≠ kConnectionStateNonExistent := by
  induction n generalizing j0 with
  | zero => simp [scanConnectionData] at h
  | succ n ih =>
    unfold scanConnectionData at h
    cases hc : connection_data[j0]? with
    | none => rw [hc] at h; simp at h
    | some c =>
      rw [hc] at h
      simp only at h
      by_cases hs : kConnectionStateNonExistent = c.state
      · rw [if_pos hs] at h
        simp only [ScanResult.found.injEq] at h
        subst h
        exact ⟨Nat.le_refl _, by omega, ⟨c, hc, hs.symm⟩, fun j2 c2 h1 h2 => by omega⟩
      · rw [if_neg hs] at h
        obtain ⟨hle, hlt, hex, hlow⟩ := ih (j0 + 1) h
        refine ⟨by omega, by omega, hex, ?_⟩
        intro j2 c2 h1 h2 hj2
        by_cases hj : j2 = j0
        · subst hj
          rw [hc] at hj2
          simp only [Option.some.injEq] at hj2
          subst hj2
          exact fun hh => hs hh.symm
        · exact hlow j2 c2 (by omega) h2 hj2

theorem getExclusiveOwnerConnectionFrom_slot_shape (s : State) (aConn : CipConn)
    (err : ConnectionManagerStatusCode) (l : List ExclusiveOwnerConnection) (k : Nat)
    (sl : Slot) (h : (getExclusiveOwnerConnectionFrom s aConn err l k).io_connection = some sl) :
    ∃ i e, sl = Slot.exclusiveOwner (k + i) ∧ l[i]? = some e := by
  induction l generalizing k with
  | nil => simp [getExclusiveOwnerConnectionFrom] at h
  | cons e0 rest ih =>
    unfold getExclusiveOwnerConnectionFrom at h
    split at h
    · split at h
      · simp at h
      · simp only [Option.some.injEq] at h
        exact ⟨0, e0, h.symm, by simp⟩
    · obtain ⟨i, e, hsl, hi⟩ := ih (k + 1) h
      exact ⟨i + 1, e, by rw [hsl]; congr 1; omega, by simpa using hi⟩

theorem getInputOnlyConnectionFrom_slot_shape (conf : UserConf) (aConn : CipConn)
    (err e2 : ConnectionManagerStatusCode) (l : List InputOnlyConnection) (k : Nat) (sl : Slot)
    (h : getInputOnlyConnectionFrom conf aConn err l k = some ⟨some sl, e2⟩) :
    ∃ i j ent, sl = Slot.inputOnly (k + i) j ∧ l[i]? = some ent
      ∧ j < conf.CIPSTER_CIP_NUM_LISTEN_ONLY_CONNS_PER_CON_PATH
      ∧ (∃ c, ent.connection_data[j]? = some c ∧ c.state = kConnectionStateNonExistent)
      ∧ ∀ j2 c2, j2 < j → ent.connection_data[j2]? = some c2 →
          c2.state ≠ kConnectionStateNonExistent := by
  induction l generalizing k with
  | nil => simp [getInputOnlyConnectionFrom] at h
  | cons e0 rest ih =>
    unfold getInputOnlyConnectionFrom at h
    split at h
    · split at h
      · simp at h
      · split at h
        · simp at h
        · split at h
          · rename_i j hscan
            simp only [Option.some.injEq, StageResult.mk.injEq] at h
            obtain ⟨_, hlt, hex, hlow⟩ := scanConnectionData_found _ _ 0 j hscan
            exact ⟨0, j, e0, h.1.symm, by simp, by omega, hex,
              fun j2 c2 hj2 hc2 => hlow j2 c2 (Nat.zero_le _) hj2 hc2⟩
          · simp at h
          · simp at h
    · obtain ⟨i, j, ent, hsl, hi, hrest⟩ := ih (k + 1) h
      exact ⟨i + 1, j, ent, by rw [hsl]; congr 1; omega, by simpa using hi, hrest⟩

theorem getListenOnlyConnectionFrom_slot_shape (conf : UserConf) (s : State)
    (aConn : CipConn) (err e3 : ConnectionManagerStatusCode) (l : List ListenOnlyConnection)
    (k : Nat) (sl : Slot)
    (h : getListenOnlyConnectionFrom conf s aConn err l k = some ⟨some sl, e3⟩) :
    ∃ i j ent, sl = Slot.listenOnly (k + i) j ∧ l[i]? = some ent
      ∧ j < conf.CIPSTER_CIP_NUM_LISTEN_ONLY_CONNS_PER_CON_PATH
      ∧ (∃ c, ent.connection_data[j]? = some c ∧ c.state = kConnectionStateNonExistent)
      ∧ ∀ j2 c2, j2 < j → ent.connection_data[j2]? = some c2 →
          c2.state ≠ kConnectionStateNonExistent := by
  induction l generalizing k with
  | nil => simp [getListenOnlyConnectionFrom] at h
  | cons e0 rest ih =>
    unfold getListenOnlyConnectionFrom at h
    split at h
    · split at h
      · simp at h
      · split at h
        · simp at h
        · split at h
          · simp at h
          · split at h
            · rename_i j hscan
              simp only [Option.some.injEq, StageResult.mk.injEq] at h
              obtain ⟨_, hlt, hex, hlow⟩ := scanConnectionData_found _ _ 0 j hscan
              exact ⟨0, j, e0, h.1.symm, by simp, by omega, hex,
                fun j2 c2 hj2 hc2 => hlow j2 c2 (Nat.zero_le _) hj2 hc2⟩
            · simp at h
            · simp at h
    · obtain ⟨i, j, ent, hsl, hi, hrest⟩ := ih (k + 1) h
      exact ⟨i + 1, j, ent, by rw [hsl]; congr 1; omega, by simpa using hi, hrest⟩

theorem getListenOnlyConnection_slot_shape (conf : UserConf) (s : State)
    (aConn : CipConn) (err e3 : ConnectionManagerStatusCode) (sl : Slot)
    (h : getListenOnlyConnection conf s aConn err = some ⟨some sl, e3⟩) :
    ∃ i j ent, sl = Slot.listenOnly i j ∧ s.g_listen_only[i]? = some ent
      ∧ j < conf.CIPSTER_CIP_NUM_LISTEN_ONLY_CONNS_PER_CON_PATH
      ∧ (∃ c, ent.connection_data[j]? = some c ∧ c.state = kConnectionStateNonExistent)
      ∧ ∀ j2 c2, j2 < j → ent.connection_data[j2]? = some c2 →
          c2.state ≠ kConnectionStateNonExistent := by
  unfold getListenOnlyConnection at h
  split at h
  · simp at h
  · obtain ⟨i, j, ent, hsl, hrest⟩ :=
      getListenOnlyConnectionFrom_slot_shape conf s aConn err e3 _ 0 sl h
    exact ⟨i, j, ent, by rw [hsl]; congr 1; omega, hrest⟩

/-- The slot a call returns, with the table it comes from, the instance type that
goes with it and what the slot held before the call. -/
theorem returned_slot_cases (conf : UserConf) (s : State) (aConn : CipConn)
    (r : IoResult) (sl : Slot)
    (h : GetIoConnectionForConnectionData conf s aConn = some r)
    (hsl : r.io_connection = some sl) :
    (r.aConn = { aConn with instance_type := kConnInstanceTypeIoExclusiveOwner }
      ∧ ∃ i e, sl = Slot.exclusiveOwner i ∧ s.g_exclusive_owner[i]? = some e)
    ∨ (r.aConn = { aConn with instance_type := kConnInstanceTypeIoInputOnly }
      ∧ ∃ i j ent, sl = Slot.inputOnly i j ∧ s.g_input_only[i]? = some ent
        ∧ j < conf.CIPSTER_CIP_NUM_LISTEN_ONLY_CONNS_PER_CON_PATH
        ∧ (∃ c, ent.connection_data[j]? = some c ∧ c.state = kConnectionStateNonExistent)
        ∧ ∀ j2 c2, j2 < j → ent.connection_data[j2]? = some c2 →
            c2.state ≠ kConnectionStateNonExistent)
    ∨ (r.aConn = { aConn with instance_type := kConnInstanceTypeIoListenOnly }
      ∧ ∃ i j ent, sl = Slot.listenOnly i j ∧ s.g_listen_only[i]? = some ent
        ∧ j < conf.CIPSTER_CIP_NUM_LISTEN_ONLY_CONNS_PER_CON_PATH
        ∧ (∃ c, ent.connection_data[j]? = some c ∧ c.state = kConnectionStateNonExistent)
        ∧ ∀ j2 c2, j2 < j → ent.connection_data[j2]? = some c2 →
            c2.state ≠ kConnectionStateNonExistent) := by
  rcases GetIoConnectionForConnectionData_slot_cases conf s aConn r sl h hsl with
    hcase | hcase | hcase
  · left
    obtain ⟨hst, hr⟩ := hcase
    obtain ⟨i, e, hs, hi⟩ := getExclusiveOwnerConnectionFrom_slot_shape s aConn _ _ 0 sl hst
    exact ⟨hr, i, e, by rw [hs]; congr 1; omega, hi⟩
  · right; left
    obtain ⟨⟨e2, h2⟩, hr⟩ := hcase
    obtain ⟨i, j, ent, hs, hrest⟩ :=
      getInputOnlyConnectionFrom_slot_shape conf aConn _ e2 _ 0 sl h2
    exact ⟨hr, i, j, ent, by rw [hs]; congr 1; omega, hrest⟩
  · right; right
    obtain ⟨⟨e3, h3⟩, hr⟩ := hcase
    exact ⟨hr, getListenOnlyConnection_slot_shape conf s aConn _ e3 sl h3⟩

theorem GetIoConnectionForConnectionData_state_eq (conf : UserConf) (s : State)
    (aConn : CipConn) (r : IoResult)
    (h : GetIoConnectionForConnectionData conf s aConn = some r) :
    r.state = (match r.io_connection with
      | some dst => CopyConnectionData s dst r.aConn
      | none => s) := by
  have hfin : ∀ a io e,
      (GetIoConnectionForConnectionData.finish s a io e).state =
        (match (GetIoConnectionForConnectionData.finish s a io e).io_connection with
          | some dst => CopyConnectionData s dst
              (GetIoConnectionForConnectionData.finish s a io e).aConn
          | none => s) := by
    intro a io e
    cases io <;> rfl
  unfold GetIoConnectionForConnectionData at h
  simp only at h
  repeat' split at h
  all_goals first
    | (simp at h; done)
    | (simp only [Option.some.injEq] at h; subst h; exact hfin _ _ _)

/-- C26: slot frame. When GetIoConnectionForConnectionData returns NULL the tables
and the active list are as before. When it returns a slot, that slot holds the
request's data with the instance type just assigned, the type is IoExclusiveOwner,
IoInputOnly or IoListenOnly according to the table the slot belongs to, every other
slot of the three tables holds what it held before. -/
theorem slot_frame (conf : UserConf) (s : State) (aConn : CipConn) (r : IoResult)
    (h : GetIoConnectionForConnectionData conf s aConn = some r) :
    (r.io_connection = none → r.state = s)
    ∧ (∀ sl, r.io_connection = some sl →
        r.state.slot sl = some r.aConn
        ∧ r.aConn = { aConn with instance_type := r.aConn.instance_type }
        ∧ (((∃ i, sl = Slot.exclusiveOwner i)
              ∧ r.aConn.instance_type = kConnInstanceTypeIoExclusiveOwner)
            ∨ ((∃ i j, sl = Slot.inputOnly i j)
              ∧ r.aConn.instance_type = kConnInstanceTypeIoInputOnly)
            ∨ ((∃ i j, sl = Slot.listenOnly i j)
              ∧ r.aConn.instance_type = kConnInstanceTypeIoListenOnly))
        ∧ (∀ sl2, sl2 ≠ sl → r.state.slot sl2 = s.slot sl2)) := by
  have hstate := GetIoConnectionForConnectionData_state_eq conf s aConn r h
  constructor
  · intro hnone
    rw [hnone] at hstate
    exact hstate
  · intro sl hsl
    rw [hsl] at hstate
    simp only [CopyConnectionData] at hstate
    have hother : ∀ sl2, sl2 ≠ sl → r.state.slot sl2 = s.slot sl2 := by
      intro sl2 hne
      rw [hstate]
      exact modifySlot_slot_other s _ sl sl2 hne
    have hsame : r.state.slot sl = (s.slot sl).map (fun _ => r.aConn) := by
      rw [hstate]
      exact modifySlot_slot_same s _ sl
    rcases returned_slot_cases conf s aConn r sl h hsl with hc | hc | hc
    · obtain ⟨hr, i, e, hs, hi⟩ := hc
      refine ⟨?_, by rw [hr], Or.inl ⟨⟨i, hs⟩, by rw [hr]⟩, hother⟩
      rw [hsame, hs]
      simp [State.slot, hi]
    · obtain ⟨hr, i, j, ent, hs, hi, _, ⟨c, hc, _⟩, _⟩ := hc
      refine ⟨?_, by rw [hr], Or.inr (Or.inl ⟨⟨i, j, hs⟩, by rw [hr]⟩), hother⟩
      rw [hsame, hs]
      simp [State.slot, hi, hc]
    · obtain ⟨hr, i, j, ent, hs, hi, _, ⟨c, hc, _⟩, _⟩ := hc
      refine ⟨?_, by rw [hr], Or.inr (Or.inr ⟨⟨i, j, hs⟩, by rw [hr]⟩), hother⟩
      rw [hsame, hs]
      simp [State.slot, hi, hc]

/-- Witness for C26: on the sample application the request (150, 100, 151) gets the
slot of the first exclusive-owner point; afterwards that slot holds the request
with instance type IoExclusiveOwner and the slot of the second point is
untouched. -/
theorem slot_frame_witness :
    ∃ r, GetIoConnectionForConnectionData sampleConf sampleState
          (request 150 100 151 true kIOConnTypePointToPoint 7) = some r
      ∧ r.state.slot (Slot.exclusiveOwner 0) = some r.aConn
      ∧ r.aConn = { request 150 100 151 true kIOConnTypePointToPoint 7 with
          instance_type := kConnInstanceTypeIoExclusiveOwner }
      ∧ r.state.slot (Slot.exclusiveOwner 1) = sampleState.slot (Slot.exclusiveOwner 1) :=
  ⟨_, rfl,
    ((slot_frame sampleConf sampleState (request 150 100 151 true kIOConnTypePointToPoint 7)
      _ rfl).2 (Slot.exclusiveOwner 0) (by rfl)).1,
    by rfl,
    ((slot_frame sampleConf sampleState (request 150 100 151 true kIOConnTypePointToPoint 7)
      _ rfl).2 (Slot.exclusiveOwner 0) (by rfl)).2.2.2 (Slot.exclusiveOwner 1) (by decide)⟩

/-! ### First-match shadowing -/

/-- C27, as stated, fails for the listen-only stage when the request is not
multicast: (153, 101, 151) is registered before (153, 100, 151), the point-to-point
request (153, 100, 151) matches the later point exactly, and the stage reports
NonListenOnlyConnectionNotOpened, not the mismatch status
InvalidProducingApplicationPath computed against the earlier point. -/
theorem first_match_shadowing_counterexample :
    shadowState.listenOnlyTriples = [(153, 101, 151), (153, 100, 151)]
    ∧ (request 153 100 151 true kIOConnTypePointToPoint 9).conn_path.consuming_path.GetInstanceOrConnPt
        = 153
    ∧ (request 153 100 151 true kIOConnTypePointToPoint 9).conn_path.producing_path.GetInstanceOrConnPt
        = 100
    ∧ (request 153 100 151 true kIOConnTypePointToPoint 9).conn_path.config_path.GetInstanceOrConnPt
        = 151
    ∧ getListenOnlyConnection shadowConf shadowState
        (request 153 100 151 true kIOConnTypePointToPoint 9)
        kConnectionManagerStatusCodeSuccess =
      some ⟨none, kConnectionManagerStatusCodeNonListenOnlyConnectionNotOpened⟩
    ∧ getListenOnlyConnection shadowConf shadowState
        (request 153 100 151 true kIOConnTypePointToPoint 9)
        kConnectionManagerStatusCodeSuccess ≠
      some ⟨none, kConnectionManagerStatusCodeInvalidProducingApplicationPath⟩ := by
  refine ⟨by rfl, by rfl, by rfl, by rfl, by rfl, by decide⟩

/-- C27, amended: the input-only stage, and the listen-only stage when the request
is multicast, is decided by the first registered point whose output assembly equals
the consuming point: the stage gives what it gives on a table that holds this point
alone. If this point differs from the request in the input or the config assembly,
a request that exactly matches a later point with the same output assembly is
rejected with the mismatch status computed against the earlier point
(InvalidProducingApplicationPath for the input assembly, else
InconsistentApplicationPathCombo), so no slot of the later point is returned. -/
theorem first_match_shadowing (conf : UserConf) (s : State) (aConn : CipConn)
    (err : ConnectionManagerStatusCode) (i : Nat) :
    (∀ e : InputOnlyConnection, s.g_input_only[i]? = some e →
      e.output_assembly = aConn.conn_path.consuming_path.GetInstanceOrConnPt →
      (∀ j e0, j < i → s.g_input_only[j]? = some e0 →
        e0.output_assembly ≠ aConn.conn_path.consuming_path.GetInstanceOrConnPt) →
      getInputOnlyConnection conf s aConn err =
        getInputOnlyConnectionFrom conf aConn err [e] i
      ∧ ∀ (i2 : Nat) (e2 : InputOnlyConnection), i < i2 → s.g_input_only[i2]? = some e2 →
          e2.output_assembly = aConn.conn_path.consuming_path.GetInstanceOrConnPt →
          e2.input_assembly = aConn.conn_path.producing_path.GetInstanceOrConnPt →
          e2.config_assembly = aConn.conn_path.config_path.GetInstanceOrConnPt →
          (e.input_assembly ≠ aConn.conn_path.producing_path.GetInstanceOrConnPt
            ∨ e.config_assembly ≠ aConn.conn_path.config_path.GetInstanceOrConnPt) →
          getInputOnlyConnection conf s aConn err =
            some ⟨none,
              if e.input_assembly ≠ aConn.conn_path.producing_path.GetInstanceOrConnPt
              then kConnectionManagerStatusCodeInvalidProducingApplicationPath
              else kConnectionManagerStatusCodeInconsistentApplicationPathCombo⟩)
    ∧ (aConn.t_to_o_ncp.ConnectionType = kIOConnTypeMulticast →
      ∀ e : ListenOnlyConnection, s.g_listen_only[i]? = some e →
      e.output_assembly = aConn.conn_path.consuming_path.GetInstanceOrConnPt →
      (∀ j e0, j < i → s.g_listen_only[j]? = some e0 →
        e0.output_assembly ≠ aConn.conn_path.consuming_path.GetInstanceOrConnPt) →
      getListenOnlyConnection conf s aConn err =
        getListenOnlyConnectionFrom conf s aConn err [e] i
      ∧ ∀ (i2 : Nat) (e2 : ListenOnlyConnection), i < i2 → s.g_listen_only[i2]? = some e2 →
          e2.output_assembly = aConn.conn_path.consuming_path.GetInstanceOrConnPt →
          e2.input_assembly = aConn.conn_path.producing_path.GetInstanceOrConnPt →
          e2.config_assembly = aConn.conn_path.config_path.GetInstanceOrConnPt →
          (e.input_assembly ≠ aConn.conn_path.producing_path.GetInstanceOrConnPt
            ∨ e.config_assembly ≠ aConn.conn_path.config_path.GetInstanceOrConnPt) →
          getListenOnlyConnection conf s aConn err =
            some ⟨none,
              if e.input_assembly ≠ aConn.conn_path.producing_path.GetInstanceOrConnPt
              then kConnectionManagerStatusCodeInvalidProducingApplicationPath
              else kConnectionManagerStatusCodeInconsistentApplicationPathCombo⟩) := by
  constructor
  · intro e hi hout hfirst
    have hrw : getInputOnlyConnection conf s aConn err =
        getInputOnlyConnectionFrom conf aConn err [e] i := by
      have := getInputOnlyConnectionFrom_first conf aConn err _ 0 i e hi hout hfirst
      rw [Nat.zero_add] at this
      exact this
    refine ⟨hrw, ?_⟩
    intro i2 e2 _ _ _ _ _ hdiff
    rw [hrw, getInputOnlyConnectionFrom, if_pos hout]
    by_cases hin : e.input_assembly ≠ aConn.conn_path.producing_path.GetInstanceOrConnPt
    · rw [if_pos hin, if_pos hin]
    · have hcfg : e.config_assembly ≠ aConn.conn_path.config_path.GetInstanceOrConnPt := by
        rcases hdiff with hd | hd
        · exact absurd hd hin
        · exact hd
      rw [if_neg hin, if_pos hcfg, if_neg hin]
  · intro hmc e hi hout hfirst
    have hrw : getListenOnlyConnection conf s aConn err =
        getListenOnlyConnectionFrom conf s aConn err [e] i := by
      unfold getListenOnlyConnection
      rw [if_neg (not_not.mpr hmc)]
      have := getListenOnlyConnectionFrom_first conf s aConn err _ 0 i e hi hout hfirst
      rw [Nat.zero_add] at this
      exact this
    refine ⟨hrw, ?_⟩
    intro i2 e2 _ _ _ _ _ hdiff
    rw [hrw, getListenOnlyConnectionFrom, if_pos hout]
    by_cases hin : e.input_assembly ≠ aConn.conn_path.producing_path.GetInstanceOrConnPt
    · rw [if_pos hin, if_pos hin]
    · have hcfg : e.config_assembly ≠ aConn.conn_path.config_path.GetInstanceOrConnPt := by
        rcases hdiff with hd | hd
        · exact absurd hd hin
        · exact hd
      rw [if_neg hin, if_pos hcfg, if_neg hin]

/-- Witness for C27: with the listen-only points (153, 101, 151) and (153, 100, 151)
registered in this order, the multicast request (153, 100, 151) is rejected with
InvalidProducingApplicationPath. -/
theorem first_match_shadowing_witness :
    getListenOnlyConnection shadowConf shadowState
        (request 153 100 151 true kIOConnTypeMulticast 9)
        kConnectionManagerStatusCodeSuccess =
      some ⟨none, kConnectionManagerStatusCodeInvalidProducingApplicationPath⟩ :=
  ((first_match_shadowing shadowConf shadowState
      (request 153 100 151 true kIOConnTypeMulticast 9)
      kConnectionManagerStatusCodeSuccess 0).2 (by rfl)
    ⟨153, 101, 151, List.replicate 3 CipConn.fresh⟩ (by rfl) (by decide)
    (fun j _ hj => absurd hj (Nat.not_lt_zero j))).2 1
    ⟨153, 100, 151, List.replicate 3 CipConn.fresh⟩ (by decide) (by rfl) (by decide)
    (by decide) (by decide) (Or.inl (by decide))

/-! ### No in-use slot is handed out -/

/-- C28: every slot that GetIoConnectionForConnectionData returns from the
input-only or the listen-only table was in state NonExistent before the call, and no
slot of its point with a lower index was. -/
theorem no_in_use_slot_handed_out (conf : UserConf) (s : State) (aConn : CipConn)
    (r : IoResult) (h : GetIoConnectionForConnectionData conf s aConn = some r) :
    (∀ i j, r.io_connection = some (Slot.inputOnly i j) →
      ∃ ent c, s.g_input_only[i]? = some ent ∧ ent.connection_data[j]? = some c
        ∧ c.state = kConnectionStateNonExistent
        ∧ ∀ j2 c2, j2 < j → ent.connection_data[j2]? = some c2 →
            c2.state ≠ kConnectionStateNonExistent)
    ∧ (∀ i j, r.io_connection = some (Slot.listenOnly i j) →
      ∃ ent c, s.g_listen_only[i]? = some ent ∧ ent.connection_data[j]? = some c
        ∧ c.state = kConnectionStateNonExistent
        ∧ ∀ j2 c2, j2 < j → ent.connection_data[j2]? = some c2 →
            c2.state ≠ kConnectionStateNonExistent) := by
  constructor
  · intro i j hsl
    rcases returned_slot_cases conf s aConn r _ h hsl with hc | hc | hc
    · obtain ⟨_, i2, e, hs, _⟩ := hc
      cases hs
    · obtain ⟨_, i2, j2, ent, hs, hi, _, ⟨c, hc, hst⟩, hlow⟩ := hc
      cases hs
      exact ⟨ent, c, hi, hc, hst, hlow⟩
    · obtain ⟨_, i2, j2, ent, hs, _⟩ := hc
      cases hs
  · intro i j hsl
    rcases returned_slot_cases conf s aConn r _ h hsl with hc | hc | hc
    · obtain ⟨_, i2, e, hs, _⟩ := hc
      cases hs
    · obtain ⟨_, i2, j2, ent, hs, _⟩ := hc
      cases hs
    · obtain ⟨_, i2, j2, ent, hs, hi, _, ⟨c, hc, hst⟩, hlow⟩ := hc
      cases hs
      exact ⟨ent, c, hi, hc, hst, hlow⟩

/-- Witness for C28: in `sharedProducerState` the first connection of the input-only
point is in use; a second request for the point gets the connection with index 1. -/
theorem no_in_use_slot_handed_out_witness :
    ∃ ent c, sharedProducerState.g_input_only[0]? = some ent
      ∧ ent.connection_data[1]? = some c
      ∧ c.state = kConnectionStateNonExistent
      ∧ ∀ j2 c2, j2 < 1 → ent.connection_data[j2]? = some c2 →
          c2.state ≠ kConnectionStateNonExistent :=
  (no_in_use_slot_handed_out sampleConf sharedProducerState
    (request 152 100 151 true kIOConnTypeMulticast 9) _ rfl).1 0 1 (by rfl)

/-! ### Master and non-master lookups; config point lookup -/

/-- C29: for every active list and input point, the two lookups never return the
same connection, and a connection returned by either of them has instance type
IoExclusiveOwner or IoInputOnly, so neither IoListenOnly nor explicit messaging.
Both lookups only read the active list: they return a position and no new state. -/
theorem master_lookups_disjoint (s : State) (p : Int) :
    (∀ k1 k2, GetExistingProducerMulticastConnection s p = some k1 →
      GetNextNonControlMasterConnection s p = some k2 → k1 ≠ k2)
    ∧ (∀ k, GetExistingProducerMulticastConnection s p = some k →
      ∃ c, s.g_active_connection_list[k]? = some c
        ∧ c.instance_type ≠ kConnInstanceTypeIoListenOnly
        ∧ c.instance_type ≠ kConnInstanceTypeExplicit)
    ∧ (∀ k, GetNextNonControlMasterConnection s p = some k →
      ∃ c, s.g_active_connection_list[k]? = some c
        ∧ c.instance_type ≠ kConnInstanceTypeIoListenOnly
        ∧ c.instance_type ≠ kConnInstanceTypeExplicit) := by
  have hmaster : ∀ k, GetExistingProducerMulticastConnection s p = some k →
      ∃ c, s.g_active_connection_list[k]? = some c ∧ ProducerMasterTest p c := by
    intro k hk
    unfold GetExistingProducerMulticastConnection at hk
    rw [GetExistingProducerMulticastConnectionFrom_eq, firstPositionFrom_eq_some_iff] at hk
    obtain ⟨i, c, hki, hi, hP, _⟩ := hk
    have : k = i := by omega
    subst this
    exact ⟨c, hi, hP⟩
  have hnon : ∀ k, GetNextNonControlMasterConnection s p = some k →
      ∃ c, s.g_active_connection_list[k]? = some c ∧ NonControlMasterTest p c := by
    intro k hk
    unfold GetNextNonControlMasterConnection at hk
    rw [GetNextNonControlMasterConnectionFrom_eq, firstPositionFrom_eq_some_iff] at hk
    obtain ⟨i, c, hki, hi, hP, _⟩ := hk
    have : k = i := by omega
    subst this
    exact ⟨c, hi, hP⟩
  have htype : ∀ c : CipConn, (c.instance_type = kConnInstanceTypeIoExclusiveOwner
      ∨ c.instance_type = kConnInstanceTypeIoInputOnly) →
      c.instance_type ≠ kConnInstanceTypeIoListenOnly
        ∧ c.instance_type ≠ kConnInstanceTypeExplicit := by
    intro c hc
    rcases hc with hc | hc <;> rw [hc] <;> exact ⟨by decide, by decide⟩
  refine ⟨?_, ?_, ?_⟩
  · intro k1 k2 h1 h2 heq
    subst heq
    obtain ⟨c1, hc1, hm⟩ := hmaster k1 h1
    obtain ⟨c2, hc2, hn⟩ := hnon k1 h2
    rw [hc1] at hc2
    simp only [Option.some.injEq] at hc2
    subst hc2
    exact hm.2.2.2 hn.2.2.2.symm
  · intro k hk
    obtain ⟨c, hc, hm⟩ := hmaster k hk
    exact ⟨c, hc, htype c hm.1⟩
  · intro k hk
    obtain ⟨c, hc, hn⟩ := hnon k hk
    exact ⟨c, hc, htype c hn.1⟩

/-- Witness for C29: in `sharedProducerState` the master lookup for input assembly
100 returns the exclusive owner at position 1 and the non-master lookup the
input-only connection at position 0. -/
theorem master_lookups_disjoint_witness :
    GetExistingProducerMulticastConnection sharedProducerState 100 = some 1
    ∧ GetNextNonControlMasterConnection sharedProducerState 100 = some 0
    ∧ (1 : Nat) ≠ 0 :=
  ⟨by rfl, by rfl,
    (master_lookups_disjoint sharedProducerState 100).1 1 0 (by rfl) (by rfl)⟩

theorem ConnectionWithSameConfigPointExistsFrom_eq (k : Int) (l : List CipConn) (pos : Nat) :
    ConnectionWithSameConfigPointExistsFrom k l pos =
      firstPositionFrom (fun c => EipUint32.ofInt k =
        EipUint32.ofInt c.conn_path.config_path.GetInstanceOrConnPt) l pos := by
  induction l generalizing pos with
  | nil => rfl
  | cons c rest ih =>
    unfold ConnectionWithSameConfigPointExistsFrom firstPositionFrom
    rw [ih (pos + 1)]

/-- C30, as stated, fails for a config point of 2^31 or more: for the EipUint32
4294967295 the function returns true on an active list whose connections all have
the `int` -1 as config point, none of them equal to 4294967295. -/
theorem config_point_unsigned_counterexample :
    ConnectionWithSameConfigPointExists negativePointState 4294967295 = true
    ∧ ∀ c ∈ negativePointState.g_active_connection_list,
        c.conn_path.config_path.GetInstanceOrConnPt = -1
        ∧ c.conn_path.config_path.GetInstanceOrConnPt ≠ 4294967295 := by
  refine ⟨by rfl, by decide⟩

/-- C30, amended: ConnectionWithSameConfigPointExists returns true if and only if
some connection in the active list, whatever its instance type and state, has a
config point equal to `k` after conversion to EipUint32; it returns false on an
empty active list. It only reads the list: it returns a flag and no new state. For
an EipUint32 `k` and an `int` config point x, equal after conversion means x = k or
x + 2^32 = k; for `k` below 2^31 it means x = k, as stated. -/
theorem ConnectionWithSameConfigPointExists_iff (s : State) (k : Int) :
    (ConnectionWithSameConfigPointExists s k = true ↔
      ∃ c ∈ s.g_active_connection_list,
        EipUint32.ofInt k = EipUint32.ofInt c.conn_path.config_path.GetInstanceOrConnPt)
    ∧ (s.g_active_connection_list = [] → ConnectionWithSameConfigPointExists s k = false)
    ∧ (∀ c : CipConn, 0 ≤ k → k < 4294967296 →
        IsInt c.conn_path.config_path.GetInstanceOrConnPt →
        (EipUint32.ofInt k = EipUint32.ofInt c.conn_path.config_path.GetInstanceOrConnPt ↔
          (c.conn_path.config_path.GetInstanceOrConnPt = k
            ∨ c.conn_path.config_path.GetInstanceOrConnPt + 4294967296 = k)))
    ∧ (∀ c : CipConn, 0 ≤ k → k < 2147483648 →
        IsInt c.conn_path.config_path.GetInstanceOrConnPt →
        (EipUint32.ofInt k = EipUint32.ofInt c.conn_path.config_path.GetInstanceOrConnPt ↔
          c.conn_path.config_path.GetInstanceOrConnPt = k)) := by
  have hiff : ConnectionWithSameConfigPointExists s k = true ↔
      ∃ c ∈ s.g_active_connection_list,
        EipUint32.ofInt k =
          EipUint32.ofInt c.conn_path.config_path.GetInstanceOrConnPt := by
    unfold ConnectionWithSameConfigPointExists
    rw [ConnectionWithSameConfigPointExistsFrom_eq]
    cases hfp : firstPositionFrom
        (fun c => EipUint32.ofInt k =
          EipUint32.ofInt c.conn_path.config_path.GetInstanceOrConnPt)
        s.g_active_connection_list 0 with
    | none =>
      have hnone := (firstPositionFrom_eq_none_iff _ _ 0).mp hfp
      simp only [Option.isSome_none, Bool.false_eq_true, false_iff, not_exists, not_and]
      exact hnone
    | some pos =>
      obtain ⟨i, c, _, hi, hP, _⟩ := (firstPositionFrom_eq_some_iff _ _ 0 pos).mp hfp
      simp only [Option.isSome_some, true_iff]
      exact ⟨c, List.getElem?_mem hi, hP⟩
  refine ⟨hiff, ?_, fun c hk0 hk hx => EipUint32.ofInt_eq_iff k _ hk0 hk hx,
    fun c hk0 hk hx => EipUint32.ofInt_eq_iff_of_lt k _ hk0 hk hx⟩
  intro hempty
  cases hb : ConnectionWithSameConfigPointExists s k with
  | false => rfl
  | true =>
    obtain ⟨c, hc, _⟩ := hiff.mp hb
    rw [hempty] at hc
    simp at hc

/-- Witness for C30: the connections of `sharedProducerState` have config point 151,
and the sample application right after start-up has no active connection. -/
theorem ConnectionWithSameConfigPointExists_iff_witness :
    (∃ c ∈ sharedProducerState.g_active_connection_list,
      EipUint32.ofInt 151 = EipUint32.ofInt c.conn_path.config_path.GetInstanceOrConnPt)
    ∧ ConnectionWithSameConfigPointExists sampleState 151 = false :=
  ⟨(ConnectionWithSameConfigPointExists_iff sharedProducerState 151).1.mp (by rfl),
   (ConnectionWithSameConfigPointExists_iff sampleState 151).2.1 (by rfl)⟩

/-! ### The outcome of a call in terms of the first point each stage examines -/

theorem isFirst_or_none {α : Type} (P : α → Prop) [DecidablePred P] (l : List α) :
    (∀ e ∈ l, ¬ P e) ∨ ∃ i e, IsFirst P l i e := by
  induction l with
  | nil => left; simp
  | cons e0 rest ih =>
    by_cases h0 : P e0
    · right
      exact ⟨0, e0, by simp, h0, fun j _ hj => absurd hj (Nat.not_lt_zero j)⟩
    · rcases ih with hnone | ⟨i, e, hi, hP, hfirst⟩
      · left
        intro e he
        rcases List.mem_cons.mp he with h | h
        · subst h; exact h0
        · exact hnone e h
      · right
        refine ⟨i + 1, e, by simpa using hi, hP, ?_⟩
        intro j e2 hj hj2
        cases j with
        | zero =>
          simp only [List.getElem?_cons_zero, Option.some.injEq] at hj2
          subst hj2
          exact h0
        | succ m => exact hfirst m e2 (by omega) (by simpa using hj2)

theorem isFirst_unique {α : Type} (P : α → Prop) (l : List α) (i i2 : Nat) (e e2 : α)
    (h : IsFirst P l i e) (h2 : IsFirst P l i2 e2) : i = i2 ∧ e = e2 := by
  have hi : i = i2 := by
    rcases Nat.lt_trichotomy i i2 with hlt | heq | hgt
    · exact absurd h.2.1 (h2.2.2 i e hlt h.1)
    · exact heq
    · exact absurd h2.2.1 (h.2.2 i2 e2 hgt h2.1)
  subst hi
  have := h.1.symm.trans h2.1
  simp only [Option.some.injEq] at this
  exact ⟨rfl, this⟩

theorem isFirst_mem {α : Type} (P : α → Prop) (l : List α) (i : Nat) (e : α)
    (h : IsFirst P l i e) : e ∈ l :=
  List.getElem?_mem h.1

theorem getExclusiveOwnerConnection_first (s : State) (aConn : CipConn) (i : Nat)
    (e : ExclusiveOwnerConnection)
    (h : IsFirst (fun e => ExclusiveOwnerMatch e aConn) s.g_exclusive_owner i e) :
    getExclusiveOwnerConnection s aConn kConnectionManagerStatusCodeSuccess =
      if (GetConnectedOutputAssembly s
            aConn.conn_path.consuming_path.GetInstanceOrConnPt).isSome then
        ⟨none, kConnectionManagerStatusCodeErrorOwnershipConflict⟩
      else ⟨some (Slot.exclusiveOwner i), kConnectionManagerStatusCodeSuccess⟩ := by
  unfold getExclusiveOwnerConnection
  rw [getExclusiveOwnerConnectionFrom_first_match s aConn _ _ 0 i e h.1 h.2.1 h.2.2]
  simp

theorem getInputOnlyConnection_first (conf : UserConf) (s : State) (aConn : CipConn)
    (err : ConnectionManagerStatusCode) (i : Nat) (e : InputOnlyConnection)
    (h : IsFirst (fun e : InputOnlyConnection =>
        e.output_assembly = aConn.conn_path.consuming_path.GetInstanceOrConnPt)
      s.g_input_only i e) :
    getInputOnlyConnection conf s aConn err =
      if e.input_assembly ≠ aConn.conn_path.producing_path.GetInstanceOrConnPt then
        some ⟨none, kConnectionManagerStatusCodeInvalidProducingApplicationPath⟩
      else if e.config_assembly ≠ aConn.conn_path.config_path.GetInstanceOrConnPt then
        some ⟨none, kConnectionManagerStatusCodeInconsistentApplicationPathCombo⟩
      else
        match scanConnectionData e.connection_data
            conf.CIPSTER_CIP_NUM_LISTEN_ONLY_CONNS_PER_CON_PATH 0 with
        | ScanResult.found j => some ⟨some (Slot.inputOnly i j), err⟩
        | ScanResult.exhausted =>
          some ⟨none, kConnectionManagerStatusCodeTargetObjectOutOfConnections⟩
        | ScanResult.outOfBounds => none := by
  unfold getInputOnlyConnection
  rw [getInputOnlyConnectionFrom_first conf aConn err _ 0 i e h.1 h.2.1 h.2.2]
  simp only [getInputOnlyConnectionFrom, if_pos h.2.1, Nat.zero_add]

theorem getListenOnlyConnection_first (conf : UserConf) (s : State) (aConn : CipConn)
    (err : ConnectionManagerStatusCode) (i : Nat) (e : ListenOnlyConnection)
    (hmc : aConn.t_to_o_ncp.ConnectionType = kIOConnTypeMulticast)
    (h : IsFirst (fun e : ListenOnlyConnection =>
        e.output_assembly = aConn.conn_path.consuming_path.GetInstanceOrConnPt)
      s.g_listen_only i e) :
    getListenOnlyConnection conf s aConn err =
      if e.input_assembly ≠ aConn.conn_path.producing_path.GetInstanceOrConnPt then
        some ⟨none, kConnectionManagerStatusCodeInvalidProducingApplicationPath⟩
      else if e.config_assembly ≠ aConn.conn_path.config_path.GetInstanceOrConnPt then
        some ⟨none, kConnectionManagerStatusCodeInconsistentApplicationPathCombo⟩
      else if (GetExistingProducerMulticastConnection s
            aConn.conn_path.producing_path.GetInstanceOrConnPt).isNone then
        some ⟨none, kConnectionManagerStatusCodeNonListenOnlyConnectionNotOpened⟩
      else
        match scanConnectionData e.connection_data
            conf.CIPSTER_CIP_NUM_LISTEN_ONLY_CONNS_PER_CON_PATH 0 with
        | ScanResult.found j => some ⟨some (Slot.listenOnly i j), err⟩
        | ScanResult.exhausted =>
          some ⟨none, kConnectionManagerStatusCodeTargetObjectOutOfConnections⟩
        | ScanResult.outOfBounds => none := by
  unfold getListenOnlyConnection
  rw [if_neg (not_not.mpr hmc),
    getListenOnlyConnectionFrom_first conf s aConn err _ 0 i e h.1 h.2.1 h.2.2]
  simp only [getListenOnlyConnectionFrom, if_pos h.2.1, Nat.zero_add]

theorem getListenOnlyConnection_no_output (conf : UserConf) (s : State) (aConn : CipConn)
    (err : ConnectionManagerStatusCode)
    (hmc : aConn.t_to_o_ncp.ConnectionType = kIOConnTypeMulticast)
    (h : ∀ e ∈ s.g_listen_only,
      e.output_assembly ≠ aConn.conn_path.consuming_path.GetInstanceOrConnPt) :
    getListenOnlyConnection conf s aConn err = some ⟨none, err⟩ := by
  unfold getListenOnlyConnection
  rw [if_neg (not_not.mpr hmc)]
  exact getListenOnlyConnectionFrom_no_output conf s aConn err _ 0 h

theorem getListenOnlyConnection_not_multicast (conf : UserConf) (s : State)
    (aConn : CipConn) (err : ConnectionManagerStatusCode)
    (hmc : aConn.t_to_o_ncp.ConnectionType ≠ kIOConnTypeMulticast) :
    getListenOnlyConnection conf s aConn err =
      some ⟨none, kConnectionManagerStatusCodeNonListenOnlyConnectionNotOpened⟩ := by
  unfold getListenOnlyConnection
  rw [if_pos hmc]

theorem result_of_exclusive_owner_slot (conf : UserConf) (s : State) (aConn : CipConn)
    (sl : Slot) (e1 : ConnectionManagerStatusCode)
    (h1 : getExclusiveOwnerConnection s aConn kConnectionManagerStatusCodeSuccess =
      ⟨some sl, e1⟩) :
    ∃ r, GetIoConnectionForConnectionData conf s aConn = some r
      ∧ r.io_connection = some sl ∧ r.extended_error = e1
      ∧ r.aConn.instance_type = kConnInstanceTypeIoExclusiveOwner := by
  unfold GetIoConnectionForConnectionData
  simp [h1, GetIoConnectionForConnectionData.finish]

theorem result_of_exclusive_owner_error (conf : UserConf) (s : State) (aConn : CipConn)
    (e1 : ConnectionManagerStatusCode)
    (h1 : getExclusiveOwnerConnection s aConn kConnectionManagerStatusCodeSuccess =
      ⟨none, e1⟩)
    (he : e1 ≠ kConnectionManagerStatusCodeSuccess) :
    ∃ r, GetIoConnectionForConnectionData conf s aConn = some r
      ∧ r.io_connection = none ∧ r.extended_error = e1 := by
  unfold GetIoConnectionForConnectionData
  simp [h1, GetIoConnectionForConnectionData.finish, Ne.symm he]

theorem result_of_input_only_slot (conf : UserConf) (s : State) (aConn : CipConn)
    (sl : Slot) (e2 : ConnectionManagerStatusCode)
    (h1 : getExclusiveOwnerConnection s aConn kConnectionManagerStatusCodeSuccess =
      ⟨none, kConnectionManagerStatusCodeSuccess⟩)
    (h2 : getInputOnlyConnection conf s aConn kConnectionManagerStatusCodeSuccess =
      some ⟨some sl, e2⟩) :
    ∃ r, GetIoConnectionForConnectionData conf s aConn = some r
      ∧ r.io_connection = some sl ∧ r.extended_error = e2
      ∧ r.aConn.instance_type = kConnInstanceTypeIoInputOnly := by
  unfold GetIoConnectionForConnectionData
  simp [h1, h2, GetIoConnectionForConnectionData.finish]

theorem result_of_input_only_error (conf : UserConf) (s : State) (aConn : CipConn)
    (e2 : ConnectionManagerStatusCode)
    (h1 : getExclusiveOwnerConnection s aConn kConnectionManagerStatusCodeSuccess =
      ⟨none, kConnectionManagerStatusCodeSuccess⟩)
    (h2 : getInputOnlyConnection conf s aConn kConnectionManagerStatusCodeSuccess =
      some ⟨none, e2⟩)
    (he : e2 ≠ kConnectionManagerStatusCodeSuccess) :
    ∃ r, GetIoConnectionForConnectionData conf s aConn = some r
      ∧ r.io_connection = none ∧ r.extended_error = e2 := by
  have hz : e2.isZero = false := by
    cases e2 <;> simp_all [ConnectionManagerStatusCode.isZero]
  unfold GetIoConnectionForConnectionData
  simp [h1, h2, hz, GetIoConnectionForConnectionData.finish]

theorem result_of_input_only_undefined (conf : UserConf) (s : State) (aConn : CipConn)
    (h1 : getExclusiveOwnerConnection s aConn kConnectionManagerStatusCodeSuccess =
      ⟨none, kConnectionManagerStatusCodeSuccess⟩)
    (h2 : getInputOnlyConnection conf s aConn kConnectionManagerStatusCodeSuccess = none) :
    GetIoConnectionForConnectionData conf s aConn = none := by
  unfold GetIoConnectionForConnectionData
  simp [h1, h2]

theorem result_of_listen_only_slot (conf : UserConf) (s : State) (aConn : CipConn)
    (sl : Slot) (e3 : ConnectionManagerStatusCode)
    (h1 : getExclusiveOwnerConnection s aConn kConnectionManagerStatusCodeSuccess =
      ⟨none, kConnectionManagerStatusCodeSuccess⟩)
    (h2 : getInputOnlyConnection conf s aConn kConnectionManagerStatusCodeSuccess =
      some ⟨none, kConnectionManagerStatusCodeSuccess⟩)
    (h3 : getListenOnlyConnection conf s aConn kConnectionManagerStatusCodeSuccess =
      some ⟨some sl, e3⟩) :
    ∃ r, GetIoConnectionForConnectionData conf s aConn = some r
      ∧ r.io_connection = some sl ∧ r.extended_error = e3
      ∧ r.aConn.instance_type = kConnInstanceTypeIoListenOnly := by
  unfold GetIoConnectionForConnectionData
  simp [h1, h2, h3, ConnectionManagerStatusCode.isZero,
    GetIoConnectionForConnectionData.finish]

theorem result_of_listen_only_error (conf : UserConf) (s : State) (aConn : CipConn)
    (e3 : ConnectionManagerStatusCode)
    (h1 : getExclusiveOwnerConnection s aConn kConnectionManagerStatusCodeSuccess =
      ⟨none, kConnectionManagerStatusCodeSuccess⟩)
    (h2 : getInputOnlyConnection conf s aConn kConnectionManagerStatusCodeSuccess =
      some ⟨none, kConnectionManagerStatusCodeSuccess⟩)
    (h3 : getListenOnlyConnection conf s aConn kConnectionManagerStatusCodeSuccess =
      some ⟨none, e3⟩)
    (he : e3 ≠ kConnectionManagerStatusCodeSuccess) :
    ∃ r, GetIoConnectionForConnectionData conf s aConn = some r
      ∧ r.io_connection = none ∧ r.extended_error = e3 := by
  have hz : e3.isZero = false := by
    cases e3 <;> simp_all [ConnectionManagerStatusCode.isZero]
  unfold GetIoConnectionForConnectionData
  simp [h1, h2, h3, hz, ConnectionManagerStatusCode.isZero,
    GetIoConnectionForConnectionData.finish]

theorem result_of_no_stage (conf : UserConf) (s : State) (aConn : CipConn)
    (h1 : getExclusiveOwnerConnection s aConn kConnectionManagerStatusCodeSuccess =
      ⟨none, kConnectionManagerStatusCodeSuccess⟩)
    (h2 : getInputOnlyConnection conf s aConn kConnectionManagerStatusCodeSuccess =
      some ⟨none, kConnectionManagerStatusCodeSuccess⟩)
    (h3 : getListenOnlyConnection conf s aConn kConnectionManagerStatusCodeSuccess =
      some ⟨none, kConnectionManagerStatusCodeSuccess⟩) :
    ∃ r, GetIoConnectionForConnectionData conf s aConn = some r
      ∧ r.io_connection = none
      ∧ r.extended_error = kConnectionManagerStatusCodeInconsistentApplicationPathCombo := by
  unfold GetIoConnectionForConnectionData
  simp [h1, h2, h3, ConnectionManagerStatusCode.isZero,
    GetIoConnectionForConnectionData.finish]

theorem result_of_listen_only_undefined (conf : UserConf) (s : State) (aConn : CipConn)
    (h1 : getExclusiveOwnerConnection s aConn kConnectionManagerStatusCodeSuccess =
      ⟨none, kConnectionManagerStatusCodeSuccess⟩)
    (h2 : getInputOnlyConnection conf s aConn kConnectionManagerStatusCodeSuccess =
      some ⟨none, kConnectionManagerStatusCodeSuccess⟩)
    (h3 : getListenOnlyConnection conf s aConn kConnectionManagerStatusCodeSuccess = none) :
    GetIoConnectionForConnectionData conf s aConn = none := by
  unfold GetIoConnectionForConnectionData
  simp [h1, h2, h3, ConnectionManagerStatusCode.isZero]

theorem getExclusiveOwnerConnection_no_match (s : State) (aConn : CipConn)
    (h : ∀ e ∈ s.g_exclusive_owner, ¬ ExclusiveOwnerMatch e aConn) :
    getExclusiveOwnerConnection s aConn kConnectionManagerStatusCodeSuccess =
      ⟨none, kConnectionManagerStatusCodeSuccess⟩ :=
  getExclusiveOwnerConnectionFrom_no_match s aConn _ _ 0 h

theorem getInputOnlyConnection_no_output (conf : UserConf) (s : State) (aConn : CipConn)
    (err : ConnectionManagerStatusCode)
    (h : ∀ e ∈ s.g_input_only,
      e.output_assembly ≠ aConn.conn_path.consuming_path.GetInstanceOrConnPt) :
    getInputOnlyConnection conf s aConn err = some ⟨none, err⟩ :=
  getInputOnlyConnectionFrom_no_output conf aConn err _ 0 h

/-! ### Requests for unregistered triples -/

/-- C9, as stated, fails in three ways on the sample application. None of the
triples is registered. The point-to-point request (1, 2, 3) is rejected with
NonListenOnlyConnectionNotOpened; the multicast request (152, 101, 151) is rejected
with InvalidProducingApplicationPath, because 152 is the output assembly of an
input-only point; a request for (150, 100) without a config path is accepted by the
exclusive-owner point registered with config assembly -1, whatever number other than
-1 and 151 its absent config path reports. -/
theorem unregistered_triple_counterexample :
    (¬ TripleRegistered sampleState (request 1 2 3 true kIOConnTypePointToPoint 9)
      ∧ (GetIoConnectionForConnectionData sampleConf sampleState
          (request 1 2 3 true kIOConnTypePointToPoint 9)).map IoResult.outcome =
        some ⟨none, kConnectionManagerStatusCodeNonListenOnlyConnectionNotOpened⟩)
    ∧ (¬ TripleRegistered sampleState (request 152 101 151 true kIOConnTypeMulticast 9)
      ∧ (GetIoConnectionForConnectionData sampleConf sampleState
          (request 152 101 151 true kIOConnTypeMulticast 9)).map IoResult.outcome =
        some ⟨none, kConnectionManagerStatusCodeInvalidProducingApplicationPath⟩)
    ∧ (∀ n : Int, n ≠ -1 → n ≠ 151 →
      ¬ TripleRegistered sampleState (request 150 100 n false kIOConnTypeMulticast 9)
      ∧ (GetIoConnectionForConnectionData sampleConf sampleState
          (request 150 100 n false kIOConnTypeMulticast 9)).map IoResult.outcome =
        some ⟨some (Slot.exclusiveOwner 1), kConnectionManagerStatusCodeSuccess⟩) := by
  refine ⟨⟨by decide, by rfl⟩, ⟨by decide, by rfl⟩, ?_⟩
  intro n hn1 hn2
  constructor
  · rintro (⟨e, he, _, _, hc⟩ | ⟨e, he, ho, _, _⟩ | ⟨e, he, ho, _, _⟩)
    · have hmem : e = ⟨150, 100, 151, CipConn.fresh⟩ ∨ e = ⟨150, 100, -1, CipConn.fresh⟩ := by
        simpa [sampleState, ApplicationInitialization.tables,
          ConfigureExclusiveOwnerConnectionPoint, ConfigureInputOnlyConnectionPoint,
          ConfigureListenOnlyConnectionPoint, sampleConf, State.empty] using he
      rcases hmem with h | h
      · subst h; exact hn2 hc.symm
      · subst h; exact hn1 hc.symm
    · have hmem : e = ⟨152, 100, 151, List.replicate 3 CipConn.fresh⟩ := by
        simpa [sampleState, ApplicationInitialization.tables,
          ConfigureExclusiveOwnerConnectionPoint, ConfigureInputOnlyConnectionPoint,
          ConfigureListenOnlyConnectionPoint, sampleConf, State.empty] using he
      subst hmem
      simp [request, CipAppPath.GetInstanceOrConnPt] at ho
    · have hmem : e = ⟨153, 100, 151, List.replicate 3 CipConn.fresh⟩ := by
        simpa [sampleState, ApplicationInitialization.tables,
          ConfigureExclusiveOwnerConnectionPoint, ConfigureInputOnlyConnectionPoint,
          ConfigureListenOnlyConnectionPoint, sampleConf, State.empty] using he
      subst hmem
      simp [request, CipAppPath.GetInstanceOrConnPt] at ho
  · rw [exclusive_owner_first_match sampleConf sampleState
      (request 150 100 n false kIOConnTypeMulticast 9) 1 ⟨150, 100, -1, CipConn.fresh⟩
      (by rfl) ⟨rfl, rfl, Or.inr ⟨rfl, rfl⟩⟩ ?_ (by rfl)]
    · rfl
    · intro j e2 hj h2 hm
      have hj0 : j = 0 := by omega
      subst hj0
      have h3 : some (⟨150, 100, 151, CipConn.fresh⟩ : ExclusiveOwnerConnection) = some e2 := h2
      cases h3
      obtain ⟨_, _, hc⟩ := hm
      rcases hc with hc | ⟨hc, _⟩
      · exact hn2 hc.symm
      · exact absurd hc (by decide)

/-- C9, amended: for every request whose triple is not registered in any of the three
tables the call returns, and it returns NULL with InconsistentApplicationPathCombo
if and only if (1) no exclusive-owner point with the request's consuming and
producing points is registered with config assembly -1 while the request has no
config path, and (2) either the first input-only point whose output assembly is the
consuming point has the producing point as input assembly, or no input-only point
has the consuming point as output assembly, the request is multicast and the first
listen-only point whose output assembly is the consuming point, if there is one, has
the producing point as input assembly. -/
theorem unregistered_triple (conf : UserConf) (s : State) (aConn : CipConn)
    (hreg : ¬ TripleRegistered s aConn) :
    ∃ r, GetIoConnectionForConnectionData conf s aConn = some r
      ∧ ((r.io_connection = none
          ∧ r.extended_error = kConnectionManagerStatusCodeInconsistentApplicationPathCombo) ↔
        ((aConn.conn_path.config_path.HasAny = false →
            ∀ e ∈ s.g_exclusive_owner,
              ¬ (e.output_assembly = aConn.conn_path.consuming_path.GetInstanceOrConnPt
                ∧ e.input_assembly = aConn.conn_path.producing_path.GetInstanceOrConnPt
                ∧ e.config_assembly = -1))
          ∧ ((∃ i e, IsFirst (fun e : InputOnlyConnection =>
                  e.output_assembly = aConn.conn_path.consuming_path.GetInstanceOrConnPt)
                s.g_input_only i e
              ∧ e.input_assembly = aConn.conn_path.producing_path.GetInstanceOrConnPt)
            ∨ ((∀ e ∈ s.g_input_only,
                  e.output_assembly ≠ aConn.conn_path.consuming_path.GetInstanceOrConnPt)
              ∧ aConn.t_to_o_ncp.ConnectionType = kIOConnTypeMulticast
              ∧ ∀ i e, IsFirst (fun e : ListenOnlyConnection =>
                    e.output_assembly = aConn.conn_path.consuming_path.GetInstanceOrConnPt)
                  s.g_listen_only i e →
                e.input_assembly = aConn.conn_path.producing_path.GetInstanceOrConnPt)))) := by
  by_cases hopt : ∃ e ∈ s.g_exclusive_owner, ExclusiveOwnerMatch e aConn
  · have hcondF : ¬ (aConn.conn_path.config_path.HasAny = false →
        ∀ e ∈ s.g_exclusive_owner,
          ¬ (e.output_assembly = aConn.conn_path.consuming_path.GetInstanceOrConnPt
            ∧ e.input_assembly = aConn.conn_path.producing_path.GetInstanceOrConnPt
            ∧ e.config_assembly = -1)) := by
      obtain ⟨e, he, ho, hi, hc⟩ := hopt
      rcases hc with hc | ⟨hc, hany⟩
      · exact absurd (Or.inl ⟨e, he, ho, hi, hc⟩) hreg
      · intro h; exact h hany e he ⟨ho, hi, hc⟩
    rcases isFirst_or_none (fun e => ExclusiveOwnerMatch e aConn) s.g_exclusive_owner with
      hnone | ⟨i, e, hfirst⟩
    · obtain ⟨e, he, hm⟩ := hopt
      exact absurd hm (hnone e he)
    · have h1 := getExclusiveOwnerConnection_first s aConn i e hfirst
      by_cases hconf : (GetConnectedOutputAssembly s
          aConn.conn_path.consuming_path.GetInstanceOrConnPt).isSome = true
      · rw [if_pos hconf] at h1
        obtain ⟨r, hr, _, herr⟩ :=
          result_of_exclusive_owner_error conf s aConn _ h1 (by decide)
        refine ⟨r, hr, ?_⟩
        rw [herr]
        exact ⟨fun h => absurd h.2 (by decide), fun h => absurd h.1 hcondF⟩
      · rw [if_neg hconf] at h1
        obtain ⟨r, hr, hio, _⟩ := result_of_exclusive_owner_slot conf s aConn _ _ h1
        refine ⟨r, hr, ?_⟩
        rw [hio]
        exact ⟨fun h => absurd h.1 (by simp), fun h => absurd h.1 hcondF⟩
  · have h1 := getExclusiveOwnerConnection_no_match s aConn
      (fun e he hm => hopt ⟨e, he, hm⟩)
    have hcondT : aConn.conn_path.config_path.HasAny = false →
        ∀ e ∈ s.g_exclusive_owner,
          ¬ (e.output_assembly = aConn.conn_path.consuming_path.GetInstanceOrConnPt
            ∧ e.input_assembly = aConn.conn_path.producing_path.GetInstanceOrConnPt
            ∧ e.config_assembly = -1) :=
      fun hany e he hm => hopt ⟨e, he, hm.1, hm.2.1, Or.inr ⟨hm.2.2, hany⟩⟩
    rcases isFirst_or_none (fun e : InputOnlyConnection =>
        e.output_assembly = aConn.conn_path.consuming_path.GetInstanceOrConnPt)
      s.g_input_only with hnoInput | ⟨i, e, hfirst⟩
    · have h2 := getInputOnlyConnection_no_output conf s aConn
        kConnectionManagerStatusCodeSuccess hnoInput
      by_cases hmc : aConn.t_to_o_ncp.ConnectionType = kIOConnTypeMulticast
      · rcases isFirst_or_none (fun e : ListenOnlyConnection =>
            e.output_assembly = aConn.conn_path.consuming_path.GetInstanceOrConnPt)
          s.g_listen_only with hnoLO | ⟨i, e, hfirst⟩
        · have h3 := getListenOnlyConnection_no_output conf s aConn
            kConnectionManagerStatusCodeSuccess hmc hnoLO
          obtain ⟨r, hr, hio, herr⟩ := result_of_no_stage conf s aConn h1 h2 h3
          refine ⟨r, hr, ?_⟩
          rw [hio, herr]
          refine ⟨fun _ => ⟨hcondT, Or.inr ⟨hnoInput, hmc, ?_⟩⟩, fun _ => ⟨rfl, rfl⟩⟩
          intro i e h
          exact absurd h.2.1 (hnoLO e (isFirst_mem _ _ i e h))
        · have h3 := getListenOnlyConnection_first conf s aConn
            kConnectionManagerStatusCodeSuccess i e hmc hfirst
          by_cases hin : e.input_assembly =
              aConn.conn_path.producing_path.GetInstanceOrConnPt
          · have hcfg : e.config_assembly ≠
                aConn.conn_path.config_path.GetInstanceOrConnPt :=
              fun hc => hreg (Or.inr (Or.inr
                ⟨e, isFirst_mem _ _ i e hfirst, hfirst.2.1, hin, hc⟩))
            rw [if_neg (not_not.mpr hin), if_pos hcfg] at h3
            obtain ⟨r, hr, hio, herr⟩ :=
              result_of_listen_only_error conf s aConn _ h1 h2 h3 (by decide)
            refine ⟨r, hr, ?_⟩
            rw [hio, herr]
            refine ⟨fun _ => ⟨hcondT, Or.inr ⟨hnoInput, hmc, ?_⟩⟩, fun _ => ⟨rfl, rfl⟩⟩
            intro i2 e2 h
            obtain ⟨_, he⟩ := isFirst_unique _ _ _ _ _ _ h hfirst
            rw [he]
            exact hin
          · rw [if_pos hin] at h3
            obtain ⟨r, hr, _, herr⟩ :=
              result_of_listen_only_error conf s aConn _ h1 h2 h3 (by decide)
            refine ⟨r, hr, ?_⟩
            rw [herr]
            refine ⟨fun h => absurd h.2 (by decide), ?_⟩
            rintro ⟨_, ⟨i2, e2, h, _⟩ | ⟨_, _, h⟩⟩
            · exact absurd h.2.1 (hnoInput e2 (isFirst_mem _ _ i2 e2 h))
            · exact absurd (h i e hfirst) hin
      · have h3 := getListenOnlyConnection_not_multicast conf s aConn
          kConnectionManagerStatusCodeSuccess hmc
        obtain ⟨r, hr, _, herr⟩ :=
          result_of_listen_only_error conf s aConn _ h1 h2 h3 (by decide)
        refine ⟨r, hr, ?_⟩
        rw [herr]
        refine ⟨fun h => absurd h.2 (by decide), ?_⟩
        rintro ⟨_, ⟨i2, e2, h, _⟩ | ⟨_, h, _⟩⟩
        · exact absurd h.2.1 (hnoInput e2 (isFirst_mem _ _ i2 e2 h))
        · exact absurd h hmc
    · have h2 := getInputOnlyConnection_first conf s aConn
        kConnectionManagerStatusCodeSuccess i e hfirst
      by_cases hin : e.input_assembly = aConn.conn_path.producing_path.GetInstanceOrConnPt
      · have hcfg : e.config_assembly ≠ aConn.conn_path.config_path.GetInstanceOrConnPt :=
          fun hc => hreg (Or.inr (Or.inl
            ⟨e, isFirst_mem _ _ i e hfirst, hfirst.2.1, hin, hc⟩))
        rw [if_neg (not_not.mpr hin), if_pos hcfg] at h2
        obtain ⟨r, hr, hio, herr⟩ :=
          result_of_input_only_error conf s aConn _ h1 h2 (by decide)
        refine ⟨r, hr, ?_⟩
        rw [hio, herr]
        exact ⟨fun _ => ⟨hcondT, Or.inl ⟨i, e, hfirst, hin⟩⟩, fun _ => ⟨rfl, rfl⟩⟩
      · rw [if_pos hin] at h2
        obtain ⟨r, hr, _, herr⟩ :=
          result_of_input_only_error conf s aConn _ h1 h2 (by decide)
        refine ⟨r, hr, ?_⟩
        rw [herr]
        refine ⟨fun h => absurd h.2 (by decide), ?_⟩
        rintro ⟨_, ⟨i2, e2, h, hin2⟩ | ⟨h, _⟩⟩
        · obtain ⟨_, he⟩ := isFirst_unique _ _ _ _ _ _ h hfirst
          rw [he] at hin2
          exact absurd hin2 hin
        · exact absurd hfirst.2.1 (h e (isFirst_mem _ _ i e hfirst))

/-- Witness for C9: the sample application and the point-to-point request
(152, 100, 7), which is not registered: the input-only point (152, 100, 151) is the
first with output assembly 152 and has input assembly 100, so the request is
rejected with InconsistentApplicationPathCombo. -/
theorem unregistered_triple_witness :
    ∃ r, GetIoConnectionForConnectionData sampleConf sampleState
        (request 152 100 7 true kIOConnTypePointToPoint 9) = some r
      ∧ r.io_connection = none
      ∧ r.extended_error = kConnectionManagerStatusCodeInconsistentApplicationPathCombo := by
  obtain ⟨r, hr, hiff⟩ := unregistered_triple sampleConf sampleState
    (request 152 100 7 true kIOConnTypePointToPoint 9) (by decide)
  refine ⟨r, hr, hiff.mpr ⟨fun h => absurd h (by decide), Or.inl
    ⟨0, ⟨152, 100, 151, List.replicate 3 CipConn.fresh⟩,
      ⟨by rfl, by rfl, fun j _ hj => absurd hj (Nat.not_lt_zero j)⟩, by rfl⟩⟩⟩

/-- A call hands out a slot exactly when the exclusive-owner stage takes the request
(some point matches and nothing is connected on the consuming point), or no
exclusive-owner point matches and the input-only or the listen-only stage accepts. -/
theorem accepted_iff (conf : UserConf) (s : State) (aConn : CipConn) (r : IoResult)
    (hget : GetIoConnectionForConnectionData conf s aConn = some r) :
    r.io_connection ≠ none ↔
      ((∃ e ∈ s.g_exclusive_owner, ExclusiveOwnerMatch e aConn)
        ∧ GetConnectedOutputAssembly s
            aConn.conn_path.consuming_path.GetInstanceOrConnPt = none)
      ∨ ((∀ e ∈ s.g_exclusive_owner, ¬ ExclusiveOwnerMatch e aConn)
        ∧ (InputOnlyAccepts conf s aConn ∨ ListenOnlyAccepts conf s aConn)) := by
  have same : ∀ r2, GetIoConnectionForConnectionData conf s aConn = some r2 → r2 = r :=
    fun r2 h2 => Option.some.inj (h2.symm.trans hget)
  rcases isFirst_or_none (fun e => ExclusiveOwnerMatch e aConn) s.g_exclusive_owner with
    hnone | ⟨i, e, hfirst⟩
  · have h1 := getExclusiveOwnerConnection_no_match s aConn hnone
    have hEO : ¬ ((∃ e ∈ s.g_exclusive_owner, ExclusiveOwnerMatch e aConn)
        ∧ GetConnectedOutputAssembly s
            aConn.conn_path.consuming_path.GetInstanceOrConnPt = none) :=
      fun h => by
        obtain ⟨⟨e, he, hm⟩, _⟩ := h
        exact hnone e he hm
    rcases isFirst_or_none (fun e : InputOnlyConnection =>
        e.output_assembly = aConn.conn_path.consuming_path.GetInstanceOrConnPt)
      s.g_input_only with hnoInput | ⟨i, e, hfirst⟩
    · have h2 := getInputOnlyConnection_no_output conf s aConn
        kConnectionManagerStatusCodeSuccess hnoInput
      have hInput : ¬ InputOnlyAccepts conf s aConn := by
        rintro ⟨i, e, j, h, _⟩
        exact hnoInput e (isFirst_mem _ _ i e h) h.2.1
      by_cases hmc : aConn.t_to_o_ncp.ConnectionType = kIOConnTypeMulticast
      · rcases isFirst_or_none (fun e : ListenOnlyConnection =>
            e.output_assembly = aConn.conn_path.consuming_path.GetInstanceOrConnPt)
          s.g_listen_only with hnoLO | ⟨i, e, hfirst⟩
        · have h3 := getListenOnlyConnection_no_output conf s aConn
            kConnectionManagerStatusCodeSuccess hmc hnoLO
          obtain ⟨r2, hr2, hio, _⟩ := result_of_no_stage conf s aConn h1 h2 h3
          have := same r2 hr2
          subst this
          rw [hio]
          refine ⟨fun h => absurd rfl h, ?_⟩
          rintro (h | ⟨_, h | ⟨_, _, i, e, j, h, _⟩⟩)
          · exact absurd h hEO
          · exact absurd h hInput
          · exact absurd h.2.1 (hnoLO e (isFirst_mem _ _ i e h))
        · have h3 := getListenOnlyConnection_first conf s aConn
            kConnectionManagerStatusCodeSuccess i e hmc hfirst
          by_cases hin : e.input_assembly =
              aConn.conn_path.producing_path.GetInstanceOrConnPt
          · by_cases hcfg : e.config_assembly =
                aConn.conn_path.config_path.GetInstanceOrConnPt
            · by_cases hprod : (GetExistingProducerMulticastConnection s
                  aConn.conn_path.producing_path.GetInstanceOrConnPt).isNone = true
              · rw [if_neg (not_not.mpr hin), if_neg (not_not.mpr hcfg), if_pos hprod] at h3
                obtain ⟨r2, hr2, hio, _⟩ :=
                  result_of_listen_only_error conf s aConn _ h1 h2 h3 (by decide)
                have := same r2 hr2
                subst this
                rw [hio]
                refine ⟨fun h => absurd rfl h, ?_⟩
                rintro (h | ⟨_, h | ⟨_, _, i2, e2, j, h, _, _, hp, _⟩⟩)
                · exact absurd h hEO
                · exact absurd h hInput
                · rw [Option.isNone_iff_eq_none] at hprod
                  rw [hprod] at hp
                  simp at hp
              · rw [if_neg (not_not.mpr hin), if_neg (not_not.mpr hcfg), if_neg hprod] at h3
                have hsome : (GetExistingProducerMulticastConnection s
                    aConn.conn_path.producing_path.GetInstanceOrConnPt).isSome = true := by
                  cases hp : GetExistingProducerMulticastConnection s
                      aConn.conn_path.producing_path.GetInstanceOrConnPt with
                  | none => rw [hp] at hprod; simp at hprod
                  | some k => rfl
                cases hscan : scanConnectionData e.connection_data
                    conf.CIPSTER_CIP_NUM_LISTEN_ONLY_CONNS_PER_CON_PATH 0 with
                | found j =>
                  rw [hscan] at h3
                  obtain ⟨r2, hr2, hio, _⟩ :=
                    result_of_listen_only_slot conf s aConn _ _ h1 h2 h3
                  have := same r2 hr2
                  subst this
                  rw [hio]
                  exact ⟨fun _ => Or.inr ⟨hnone, Or.inr
                    ⟨hnoInput, hmc, i, e, j, hfirst, hin, hcfg, hsome, hscan⟩⟩, fun _ => by simp⟩
                | exhausted =>
                  rw [hscan] at h3
                  obtain ⟨r2, hr2, hio, _⟩ :=
                    result_of_listen_only_error conf s aConn _ h1 h2 h3 (by decide)
                  have := same r2 hr2
                  subst this
                  rw [hio]
                  refine ⟨fun h => absurd rfl h, ?_⟩
                  rintro (h | ⟨_, h | ⟨_, _, i2, e2, j, h, _, _, _, hs⟩⟩)
                  · exact absurd h hEO
                  · exact absurd h hInput
                  · obtain ⟨_, he⟩ := isFirst_unique _ _ _ _ _ _ h hfirst
                    rw [he, hscan] at hs
                    cases hs
                | outOfBounds =>
                  rw [hscan] at h3
                  rw [result_of_listen_only_undefined conf s aConn h1 h2 h3] at hget
                  cases hget
            · rw [if_neg (not_not.mpr hin), if_pos hcfg] at h3
              obtain ⟨r2, hr2, hio, _⟩ :=
                result_of_listen_only_error conf s aConn _ h1 h2 h3 (by decide)
              have := same r2 hr2
              subst this
              rw [hio]
              refine ⟨fun h => absurd rfl h, ?_⟩
              rintro (h | ⟨_, h | ⟨_, _, i2, e2, j, h, _, hc, _⟩⟩)
              · exact absurd h hEO
              · exact absurd h hInput
              · obtain ⟨_, he⟩ := isFirst_unique _ _ _ _ _ _ h hfirst
                rw [he] at hc
                exact absurd hc hcfg
          · rw [if_pos hin] at h3
            obtain ⟨r2, hr2, hio, _⟩ :=
              result_of_listen_only_error conf s aConn _ h1 h2 h3 (by decide)
            have := same r2 hr2
            subst this
            rw [hio]
            refine ⟨fun h => absurd rfl h, ?_⟩
            rintro (h | ⟨_, h | ⟨_, _, i2, e2, j, h, hi2, _⟩⟩)
            · exact absurd h hEO
            · exact absurd h hInput
            · obtain ⟨_, he⟩ := isFirst_unique _ _ _ _ _ _ h hfirst
              rw [he] at hi2
              exact absurd hi2 hin
      · have h3 := getListenOnlyConnection_not_multicast conf s aConn
          kConnectionManagerStatusCodeSuccess hmc
        obtain ⟨r2, hr2, hio, _⟩ :=
          result_of_listen_only_error conf s aConn _ h1 h2 h3 (by decide)
        have := same r2 hr2
        subst this
        rw [hio]
        refine ⟨fun h => absurd rfl h, ?_⟩
        rintro (h | ⟨_, h | ⟨_, h, _⟩⟩)
        · exact absurd h hEO
        · exact absurd h hInput
        · exact absurd h hmc
    · have h2 := getInputOnlyConnection_first conf s aConn
        kConnectionManagerStatusCodeSuccess i e hfirst
      have hLO : ¬ ListenOnlyAccepts conf s aConn :=
        fun h => h.1 e (isFirst_mem _ _ i e hfirst) hfirst.2.1
      by_cases hin : e.input_assembly = aConn.conn_path.producing_path.GetInstanceOrConnPt
      · by_cases hcfg : e.config_assembly =
            aConn.conn_path.config_path.GetInstanceOrConnPt
        · rw [if_neg (not_not.mpr hin), if_neg (not_not.mpr hcfg)] at h2
          cases hscan : scanConnectionData e.connection_data
              conf.CIPSTER_CIP_NUM_LISTEN_ONLY_CONNS_PER_CON_PATH 0 with
          | found j =>
            rw [hscan] at h2
            obtain ⟨r2, hr2, hio, _⟩ := result_of_input_only_slot conf s aConn _ _ h1 h2
            have := same r2 hr2
            subst this
            rw [hio]
            exact ⟨fun _ => Or.inr ⟨hnone, Or.inl ⟨i, e, j, hfirst, hin, hcfg, hscan⟩⟩,
              fun _ => by simp⟩
          | exhausted =>
            rw [hscan] at h2
            obtain ⟨r2, hr2, hio, _⟩ :=
              result_of_input_only_error conf s aConn _ h1 h2 (by decide)
            have := same r2 hr2
            subst this
            rw [hio]
            refine ⟨fun h => absurd rfl h, ?_⟩
            rintro (h | ⟨_, ⟨i2, e2, j, h, _, _, hs⟩ | h⟩)
            · exact absurd h hEO
            · obtain ⟨_, he⟩ := isFirst_unique _ _ _ _ _ _ h hfirst
              rw [he, hscan] at hs
              cases hs
            · exact absurd h hLO
          | outOfBounds =>
            rw [hscan] at h2
            rw [result_of_input_only_undefined conf s aConn h1 h2] at hget
            cases hget
        · rw [if_neg (not_not.mpr hin), if_pos hcfg] at h2
          obtain ⟨r2, hr2, hio, _⟩ :=
            result_of_input_only_error conf s aConn _ h1 h2 (by decide)
          have := same r2 hr2
          subst this
          rw [hio]
          refine ⟨fun h => absurd rfl h, ?_⟩
          rintro (h | ⟨_, ⟨i2, e2, j, h, _, hc, _⟩ | h⟩)
          · exact absurd h hEO
          · obtain ⟨_, he⟩ := isFirst_unique _ _ _ _ _ _ h hfirst
            rw [he] at hc
            exact absurd hc hcfg
          · exact absurd h hLO
      · rw [if_pos hin] at h2
        obtain ⟨r2, hr2, hio, _⟩ :=
          result_of_input_only_error conf s aConn _ h1 h2 (by decide)
        have := same r2 hr2
        subst this
        rw [hio]
        refine ⟨fun h => absurd rfl h, ?_⟩
        rintro (h | ⟨_, ⟨i2, e2, j, h, hi2, _⟩ | h⟩)
        · exact absurd h hEO
        · obtain ⟨_, he⟩ := isFirst_unique _ _ _ _ _ _ h hfirst
          rw [he] at hi2
          exact absurd hi2 hin
        · exact absurd h hLO
  · have h1 := getExclusiveOwnerConnection_first s aConn i e hfirst
    have hex : ∃ e ∈ s.g_exclusive_owner, ExclusiveOwnerMatch e aConn :=
      ⟨e, isFirst_mem _ _ i e hfirst, hfirst.2.1⟩
    have hnot : ¬ ((∀ e ∈ s.g_exclusive_owner, ¬ ExclusiveOwnerMatch e aConn)
        ∧ (InputOnlyAccepts conf s aConn ∨ ListenOnlyAccepts conf s aConn)) :=
      fun h => h.1 e (isFirst_mem _ _ i e hfirst) hfirst.2.1
    cases hconf : GetConnectedOutputAssembly s
        aConn.conn_path.consuming_path.GetInstanceOrConnPt with
    | none =>
      rw [hconf] at h1
      simp only [Option.isSome_none, Bool.false_eq_true, if_false] at h1
      obtain ⟨r2, hr2, hio, _⟩ := result_of_exclusive_owner_slot conf s aConn _ _ h1
      have := same r2 hr2
      subst this
      rw [hio]
      exact ⟨fun _ => Or.inl ⟨hex, rfl⟩, fun _ => by simp⟩
    | some k =>
      rw [hconf] at h1
      simp only [Option.isSome_some, if_true] at h1
      obtain ⟨r2, hr2, hio, _⟩ :=
        result_of_exclusive_owner_error conf s aConn _ h1 (by decide)
      have := same r2 hr2
      subst this
      rw [hio]
      refine ⟨fun h => absurd rfl h, ?_⟩
      rintro (h | h)
      · exact absurd h.2 (by simp)
      · exact absurd h hnot

/-! ### Requests without a config path -/

theorem no_exclusive_owner_slot (conf : UserConf) (s : State) (aConn : CipConn)
    (r : IoResult) (i : Nat)
    (h1 : getExclusiveOwnerConnection s aConn kConnectionManagerStatusCodeSuccess =
      ⟨none, kConnectionManagerStatusCodeSuccess⟩)
    (hget : GetIoConnectionForConnectionData conf s aConn = some r) :
    r.io_connection ≠ some (Slot.exclusiveOwner i) := by
  intro hsl
  rcases GetIoConnectionForConnectionData_slot_cases conf s aConn r _ hget hsl with
    hcase | hcase | hcase
  · rw [h1] at hcase; simp at hcase
  · obtain ⟨⟨e2, h2⟩, _⟩ := hcase
    exact getInputOnlyConnectionFrom_not_exclusive conf aConn _ e2 _ 0 i h2
  · obtain ⟨⟨e3, h3⟩, _⟩ := hcase
    unfold getListenOnlyConnection at h3
    split at h3
    · simp at h3
    · exact getListenOnlyConnectionFrom_not_exclusive conf s aConn _ e3 _ 0 i h3

/-- C10, as stated, fails in both halves. (1) With the exclusive-owner point
(150, 100, 0) alone and an absent config path that reports 0, the request is
accepted as IoExclusiveOwner although the point is not registered with -1.
(2) Whatever number `n` the absent config path reports, with the exclusive-owner
point (150, 100, 151) and the input-only point (150, 100, n) the request is
accepted although no exclusive-owner point is registered with -1. (3) Whatever `n`
is, with the exclusive-owner points (150, 100, n) and (150, 100, -1), in this order,
the slot of the first point is returned, not the slot of the point registered
with -1. -/
theorem absent_config_path_counterexample :
    ((∀ e ∈ zeroConfigState.g_exclusive_owner,
        e.output_assembly = 150 → e.input_assembly = 100 → e.config_assembly ≠ -1)
      ∧ GetConnectedOutputAssembly zeroConfigState 150 = none
      ∧ (GetIoConnectionForConnectionData sampleConf zeroConfigState
          (request 150 100 0 false kIOConnTypePointToPoint 9)).map
            (fun r => (r.io_connection, r.aConn.instance_type)) =
          some (some (Slot.exclusiveOwner 0), kConnInstanceTypeIoExclusiveOwner))
    ∧ (∀ n : Int,
        (∀ e ∈ (twinState n).g_exclusive_owner,
          e.output_assembly = 150 → e.input_assembly = 100 → e.config_assembly ≠ -1)
        ∧ GetConnectedOutputAssembly (twinState n) 150 = none
        ∧ ∃ r, GetIoConnectionForConnectionData sampleConf (twinState n)
            (request 150 100 n false kIOConnTypePointToPoint 9) = some r
          ∧ r.io_connection ≠ none)
    ∧ (∀ n : Int,
        (earlierPointState n).g_exclusive_owner[1]? = some ⟨150, 100, -1, CipConn.fresh⟩
        ∧ GetConnectedOutputAssembly (earlierPointState n) 150 = none
        ∧ ∃ r, GetIoConnectionForConnectionData sampleConf (earlierPointState n)
            (request 150 100 n false kIOConnTypePointToPoint 9) = some r
          ∧ r.io_connection = some (Slot.exclusiveOwner 0)) := by
  refine ⟨⟨by decide, by rfl, by rfl⟩, ?_, ?_⟩
  · intro n
    refine ⟨?_, by rfl, ?_⟩
    · intro e he _ _
      have hmem : e = ⟨150, 100, 151, CipConn.fresh⟩ := by
        simpa [twinState, State.empty] using he
      subst hmem
      decide
    · by_cases hn : n = 151
      · subst hn
        exact ⟨_, exclusive_owner_first_match sampleConf (twinState 151)
          (request 150 100 151 false kIOConnTypePointToPoint 9) 0
          ⟨150, 100, 151, CipConn.fresh⟩ (by rfl) ⟨rfl, rfl, Or.inl rfl⟩
          (fun j _ hj => absurd hj (Nat.not_lt_zero j)) (by rfl), by simp⟩
      · have h1 : getExclusiveOwnerConnection (twinState n)
            (request 150 100 n false kIOConnTypePointToPoint 9)
            kConnectionManagerStatusCodeSuccess =
              ⟨none, kConnectionManagerStatusCodeSuccess⟩ := by
          apply getExclusiveOwnerConnection_no_match
          intro e he hm
          have hmem : e = ⟨150, 100, 151, CipConn.fresh⟩ := by
            simpa [twinState, State.empty] using he
          subst hmem
          obtain ⟨_, _, hc⟩ := hm
          rcases hc with hc | ⟨hc, _⟩
          · exact hn hc.symm
          · exact absurd hc (by decide)
        have h2 := getInputOnlyConnection_first sampleConf (twinState n)
          (request 150 100 n false kIOConnTypePointToPoint 9)
          kConnectionManagerStatusCodeSuccess 0
          ⟨150, 100, n, List.replicate 3 CipConn.fresh⟩
          ⟨by rfl, by rfl, fun j _ hj => absurd hj (Nat.not_lt_zero j)⟩
        rw [if_neg (not_not.mpr (by rfl)), if_neg (not_not.mpr (by rfl))] at h2
        have hscan : scanConnectionData (List.replicate 3 CipConn.fresh)
            sampleConf.CIPSTER_CIP_NUM_LISTEN_ONLY_CONNS_PER_CON_PATH 0 =
              ScanResult.found 0 := by rfl
        rw [hscan] at h2
        obtain ⟨r, hr, hio, _⟩ := result_of_input_only_slot sampleConf (twinState n)
          (request 150 100 n false kIOConnTypePointToPoint 9) _ _ h1 h2
        exact ⟨r, hr, by rw [hio]; simp⟩
  · intro n
    exact ⟨by rfl, by rfl, _, exclusive_owner_first_match sampleConf (earlierPointState n)
      (request 150 100 n false kIOConnTypePointToPoint 9) 0
      ⟨150, 100, n, CipConn.fresh⟩ (by rfl) ⟨rfl, rfl, Or.inl rfl⟩
      (fun j _ hj => absurd hj (Nat.not_lt_zero j)) (by rfl), rfl⟩

/-- C10, amended: for a request without a config path and with nothing connected on
its consuming point, where `n` is the number that the absent config path reports:
(a) if some exclusive-owner point with the request's output and input assemblies is
registered with config assembly -1, the request is accepted with Success as
IoExclusiveOwner and the slot returned is that of the first exclusive-owner point
with these assemblies and config assembly -1 or `n`; it is the slot of a given point
registered with -1 if and only if no earlier point with these assemblies has config
assembly -1 or `n`. (b) If every exclusive-owner point with these assemblies has a
config assembly other than -1, then an exclusive-owner slot is returned if and only
if one of them has config assembly `n`, and a call that returns rejects the request
if and only if none of them has config assembly `n` and neither the input-only nor
the listen-only stage accepts, and then with an error; the call returns when the
connection arrays have their declared lengths and the listen-only constant is no
larger than the input-only one. -/
theorem absent_config_path (conf : UserConf) (s : State) (aConn : CipConn)
    (hno : aConn.conn_path.config_path.HasAny = false)
    (hfree : GetConnectedOutputAssembly s
      aConn.conn_path.consuming_path.GetInstanceOrConnPt = none) :
    (∀ (i0 : Nat) (e0 : ExclusiveOwnerConnection), s.g_exclusive_owner[i0]? = some e0 →
      e0.output_assembly = aConn.conn_path.consuming_path.GetInstanceOrConnPt →
      e0.input_assembly = aConn.conn_path.producing_path.GetInstanceOrConnPt →
      e0.config_assembly = -1 →
      ∃ r i e, GetIoConnectionForConnectionData conf s aConn = some r
        ∧ IsFirst (fun e => ExclusiveOwnerMatch e aConn) s.g_exclusive_owner i e
        ∧ r.io_connection = some (Slot.exclusiveOwner i)
        ∧ r.aConn.instance_type = kConnInstanceTypeIoExclusiveOwner
        ∧ r.extended_error = kConnectionManagerStatusCodeSuccess
        ∧ (r.io_connection = some (Slot.exclusiveOwner i0) ↔
            ∀ j e2, j < i0 → s.g_exclusive_owner[j]? = some e2 →
              e2.output_assembly = aConn.conn_path.consuming_path.GetInstanceOrConnPt →
              e2.input_assembly = aConn.conn_path.producing_path.GetInstanceOrConnPt →
              e2.config_assembly ≠ -1
              ∧ e2.config_assembly ≠ aConn.conn_path.config_path.GetInstanceOrConnPt))
    ∧ ((∀ e ∈ s.g_exclusive_owner,
        e.output_assembly = aConn.conn_path.consuming_path.GetInstanceOrConnPt →
        e.input_assembly = aConn.conn_path.producing_path.GetInstanceOrConnPt →
        e.config_assembly ≠ -1) →
      ((∃ r i, GetIoConnectionForConnectionData conf s aConn = some r
          ∧ r.io_connection = some (Slot.exclusiveOwner i)) ↔
        ∃ e ∈ s.g_exclusive_owner,
          e.output_assembly = aConn.conn_path.consuming_path.GetInstanceOrConnPt
          ∧ e.input_assembly = aConn.conn_path.producing_path.GetInstanceOrConnPt
          ∧ e.config_assembly = aConn.conn_path.config_path.GetInstanceOrConnPt)
      ∧ (∀ r, GetIoConnectionForConnectionData conf s aConn = some r →
          (r.io_connection = none ↔
            (∀ e ∈ s.g_exclusive_owner,
              e.output_assembly = aConn.conn_path.consuming_path.GetInstanceOrConnPt →
              e.input_assembly = aConn.conn_path.producing_path.GetInstanceOrConnPt →
              e.config_assembly ≠ aConn.conn_path.config_path.GetInstanceOrConnPt)
            ∧ ¬ InputOnlyAccepts conf s aConn ∧ ¬ ListenOnlyAccepts conf s aConn)
          ∧ (r.io_connection = none →
              r.extended_error ≠ kConnectionManagerStatusCodeSuccess))
      ∧ (s.WellFormed conf →
          conf.CIPSTER_CIP_NUM_LISTEN_ONLY_CONNS_PER_CON_PATH ≤
            conf.CIPSTER_CIP_NUM_INPUT_ONLY_CONNS_PER_CON_PATH →
          ∃ r, GetIoConnectionForConnectionData conf s aConn = some r)) := by
  have accept : ∀ i e, IsFirst (fun e => ExclusiveOwnerMatch e aConn) s.g_exclusive_owner i e →
      GetIoConnectionForConnectionData conf s aConn =
        some ⟨some (Slot.exclusiveOwner i), kConnectionManagerStatusCodeSuccess,
          { aConn with instance_type := kConnInstanceTypeIoExclusiveOwner },
          CopyConnectionData s (Slot.exclusiveOwner i)
            { aConn with instance_type := kConnInstanceTypeIoExclusiveOwner }⟩ :=
    fun i e h => exclusive_owner_first_match conf s aConn i e h.1 h.2.1 h.2.2 hfree
  constructor
  · intro i0 e0 hi0 ho hin hc
    have hm0 : ExclusiveOwnerMatch e0 aConn := ⟨ho, hin, Or.inr ⟨hc, hno⟩⟩
    rcases isFirst_or_none (fun e => ExclusiveOwnerMatch e aConn) s.g_exclusive_owner with
      hnone | ⟨i, e, hfirst⟩
    · exact absurd hm0 (hnone e0 (List.getElem?_mem hi0))
    · refine ⟨_, i, e, accept i e hfirst, hfirst, rfl, rfl, rfl, ?_⟩
      constructor
      · intro heq
        have hii : i = i0 := by
          simpa using heq
        subst hii
        intro j e2 hj h2 ho2 hi2
        have hnm := hfirst.2.2 j e2 hj h2
        exact ⟨fun h => hnm ⟨ho2, hi2, Or.inr ⟨h, hno⟩⟩, fun h => hnm ⟨ho2, hi2, Or.inl h⟩⟩
      · intro hall
        have hfirst0 : IsFirst (fun e => ExclusiveOwnerMatch e aConn)
            s.g_exclusive_owner i0 e0 := by
          refine ⟨hi0, hm0, ?_⟩
          intro j e2 hj h2 hm
          obtain ⟨ho2, hi2, hc2⟩ := hm
          obtain ⟨hn1, hnk⟩ := hall j e2 hj h2 ho2 hi2
          rcases hc2 with hc2 | ⟨hc2, _⟩
          · exact hnk hc2
          · exact hn1 hc2
        obtain ⟨hii, _⟩ := isFirst_unique _ _ _ _ _ _ hfirst hfirst0
        rw [hii]
  · intro hb
    have hmatch : (∃ e ∈ s.g_exclusive_owner, ExclusiveOwnerMatch e aConn) ↔
        ∃ e ∈ s.g_exclusive_owner,
          e.output_assembly = aConn.conn_path.consuming_path.GetInstanceOrConnPt
          ∧ e.input_assembly = aConn.conn_path.producing_path.GetInstanceOrConnPt
          ∧ e.config_assembly = aConn.conn_path.config_path.GetInstanceOrConnPt := by
      constructor
      · rintro ⟨e, he, ho, hi, hc⟩
        rcases hc with hc | ⟨hc, _⟩
        · exact ⟨e, he, ho, hi, hc⟩
        · exact absurd hc (hb e he ho hi)
      · rintro ⟨e, he, ho, hi, hc⟩
        exact ⟨e, he, ho, hi, Or.inl hc⟩
    have hnomatch : (∀ e ∈ s.g_exclusive_owner, ¬ ExclusiveOwnerMatch e aConn) ↔
        ∀ e ∈ s.g_exclusive_owner,
          e.output_assembly = aConn.conn_path.consuming_path.GetInstanceOrConnPt →
          e.input_assembly = aConn.conn_path.producing_path.GetInstanceOrConnPt →
          e.config_assembly ≠ aConn.conn_path.config_path.GetInstanceOrConnPt := by
      constructor
      · intro h e he ho hi hc
        exact h e he ⟨ho, hi, Or.inl hc⟩
      · intro h e he hm
        obtain ⟨e2, he2, ho, hi, hc⟩ := hmatch.mp ⟨e, he, hm⟩
        exact h e2 he2 ho hi hc
    refine ⟨?_, ?_, fun hwf hle => GetIoConnectionForConnectionData_defined conf s aConn hwf hle⟩
    · constructor
      · rintro ⟨r, i, hget, hsl⟩
        by_contra hne
        have hnone : ∀ e ∈ s.g_exclusive_owner, ¬ ExclusiveOwnerMatch e aConn :=
          fun e he hm => hne (hmatch.mp ⟨e, he, hm⟩)
        exact no_exclusive_owner_slot conf s aConn r i
          (getExclusiveOwnerConnection_no_match s aConn hnone) hget hsl
      · intro hex
        obtain ⟨e0, he0, hm0⟩ := hmatch.mpr hex
        rcases isFirst_or_none (fun e => ExclusiveOwnerMatch e aConn)
            s.g_exclusive_owner with hnone | ⟨i, e, hfirst⟩
        · exact absurd hm0 (hnone e0 he0)
        · exact ⟨_, i, accept i e hfirst, rfl⟩
    · intro r hget
      refine ⟨?_, fun h => (result_agrees_with_error conf s aConn r hget).mp h⟩
      have hacc := accepted_iff conf s aConn r hget
      rw [← hnomatch]
      constructor
      · intro hnull
        have hnot : ¬ (((∃ e ∈ s.g_exclusive_owner, ExclusiveOwnerMatch e aConn)
              ∧ GetConnectedOutputAssembly s
                  aConn.conn_path.consuming_path.GetInstanceOrConnPt = none)
            ∨ ((∀ e ∈ s.g_exclusive_owner, ¬ ExclusiveOwnerMatch e aConn)
              ∧ (InputOnlyAccepts conf s aConn ∨ ListenOnlyAccepts conf s aConn))) :=
          fun h => absurd hnull (hacc.mpr h)
        have hnm : ∀ e ∈ s.g_exclusive_owner, ¬ ExclusiveOwnerMatch e aConn :=
          fun e he hm => hnot (Or.inl ⟨⟨e, he, hm⟩, hfree⟩)
        exact ⟨hnm, fun h => hnot (Or.inr ⟨hnm, Or.inl h⟩),
          fun h => hnot (Or.inr ⟨hnm, Or.inr h⟩)⟩
      · rintro ⟨hnm, hio, hlo⟩
        by_contra hne
        rcases hacc.mp hne with ⟨⟨e, he, hm⟩, _⟩ | ⟨_, h | h⟩
        · exact hnm e he hm
        · exact hio h
        · exact hlo h

/-- Witness for C10: in the sample application the request (150, 100) without a
config path gets the slot of the point registered with -1, the second one; with only
(150, 100, 151) registered the same request is rejected with an error. -/
theorem absent_config_path_witness :
    (∃ r, GetIoConnectionForConnectionData sampleConf sampleState
          (request 150 100 0 false kIOConnTypePointToPoint 9) = some r
        ∧ r.io_connection = some (Slot.exclusiveOwner 1)
        ∧ r.aConn.instance_type = kConnInstanceTypeIoExclusiveOwner
        ∧ r.extended_error = kConnectionManagerStatusCodeSuccess)
    ∧ (∃ r, GetIoConnectionForConnectionData sampleConf singleOwnerState
          (request 150 100 0 false kIOConnTypePointToPoint 9) = some r
        ∧ r.io_connection = none
        ∧ r.extended_error ≠ kConnectionManagerStatusCodeSuccess) := by
  constructor
  · obtain ⟨r, i, e, hr, _, hio, hty, herr, hiff⟩ :=
      (absent_config_path sampleConf sampleState
        (request 150 100 0 false kIOConnTypePointToPoint 9) (by rfl) (by rfl)).1 1
        ⟨150, 100, -1, CipConn.fresh⟩ (by rfl) (by decide) (by decide) (by decide)
    refine ⟨r, hr, hiff.mpr ?_, hty, herr⟩
    intro j e2 hj h2 _ _
    have hj0 : j = 0 := by omega
    subst hj0
    have h3 : some (⟨150, 100, 151, CipConn.fresh⟩ : ExclusiveOwnerConnection) = some e2 := h2
    cases h3
    decide
  · have hb := (absent_config_path sampleConf singleOwnerState
      (request 150 100 0 false kIOConnTypePointToPoint 9) (by rfl) (by rfl)).2 (by decide)
    obtain ⟨r, hr⟩ := hb.2.2 (by decide) (by decide)
    have hnull : r.io_connection = none := by
      have hr2 := hr
      have hval : GetIoConnectionForConnectionData sampleConf singleOwnerState
          (request 150 100 0 false kIOConnTypePointToPoint 9) =
          some ⟨none, kConnectionManagerStatusCodeNonListenOnlyConnectionNotOpened,
            { request 150 100 0 false kIOConnTypePointToPoint 9 with
              instance_type := kConnInstanceTypeIoListenOnly }, singleOwnerState⟩ := by rfl
      rw [hval] at hr2
      cases hr2
      rfl
    exact ⟨r, hr, hnull, (hb.2.1 r hr).2 hnull⟩

/-! ### Config assembly -1 on input-only and listen-only points -/

end CIPster
